import Mathlib

/-!
The package `tba` of telego: the update poller of `tba/TBAInterface.go`.

A shallow embedding of the polling part of `BotAPIInterface`
(`StartUpdateRoutine`, `StopUpdateRoutine`, `startReceiving`,
`parseUpdateresults`, `ParseUpdate`, `CreateInterface`) and the properties
of the delivery cursor proved about it, followed by some of the outbound
methods (`SendCustom`, `SendMessage`, `ForwardMessage`, `CopyMessage`,
`SendVenue`, `ExportChatInviteLink`, `BanOrUnbanChatSenderChat`,
`DownloadFile`), the registry of pending requests and the routing of an
update to its consumers.

Conventions of the embedding.

* Go `int` is a 64 bit two's complement integer.  Values are carried as `Int`;
  the one arithmetic operation of the poller, `lastOffset + 1`, goes through
  `wrapInt`.
* Methods on `*BotAPIInterface` are functions on a `World`: the interface
  value together with the part of the Go run time the methods act on
  (channels made, senders blocked on a channel, the ordered trace of the
  goroutines started, transport calls issued and lines logged).
* A `[]byte` response body is represented by what `encoding/json` makes of it
  (`Body`): the outcome of the two `json.Unmarshal` calls of `ParseUpdate`.
* A `nil` entry of a decoded `[]*objs.Update` is `none`; dereferencing it is
  a run-time panic, represented by a function not returning (`none`).
-/

namespace Telego

/-! ## Machine integers -/

/-- Largest value of a Go `int` (64 bit). -/
def maxInt : Int := 9223372036854775807

/-- Smallest value of a Go `int` (64 bit). -/
def minInt : Int := -9223372036854775808

/-- Two's complement wrap-around of a mathematical integer into a Go `int`. -/
def wrapInt (x : Int) : Int := (x - minInt) % 18446744073709551616 + minInt

/-! ## Data of the collaborating packages (`objs`, `cfgs`, `errs`) -/

/-- Payload kinds of an update named by the specification. -/
inductive Kind where
  | Message
  | CallbackQuery
  | InlineQuery
  | MembershipChange
  | Other
  deriving DecidableEq, Repr

/-- Modelled from the spec: the declaration of `objs.Update` is not part of the
sources; an update has a unique id (`Update_id`, the only field the poller
reads), an originating chat identity and a payload kind. -/
structure Update where
  Update_id : Int
  chat : Int
  kind : Kind
  deriving DecidableEq, Repr

/-- Fields of `cfgs.UpdateConfigs` read by the poller. `AllowedUpdates` is a
slice: `none` is the `nil` slice. `UpdateFrequency` is a duration. -/
structure UpdateConfigs where
  Limit : Int
  Timeout : Int
  AllowedUpdates : Option (List String)
  UpdateFrequency : Nat
  deriving DecidableEq, Repr

/-- Fields of `cfgs.BotConfigs` read by the poller. -/
structure BotConfigs where
  Webhook : Bool
  BotAPI : String
  APIKey : String
  UpdateConfigs : UpdateConfigs
  deriving DecidableEq, Repr

/-- The struct `objs.FailureResult`, the decoded body of a rejected call; only
its identity is kept. -/
structure FailureResult where
  error_code : Int
  description : String
  deriving DecidableEq, Repr

/-- Values of Go's `error` that reach the poller and the outbound methods.
`Unmarshal` stands for an error returned by `json.Unmarshal`, `Http` for one
returned by the transport (`sendHttpReqJson`, `sendHttpReqMultiPart`,
`http.Get`), `Os` for one returned by `os.OpenFile`, `io.Copy` or
`File.Close`; they carry the text of the error. `MethodNotSentFailure` is a
`MethodNotSentError` whose `FailureResult` field is set. `DuplicateRequest` is
the error of the registry of pending requests. -/
inductive Error where
  | UpdateRoutineAlreadyStarted
  | BotInterfaceAlreadyCreated
  | MethodNotSentError (Method Reason : String)
  | New (text : String)
  | Unmarshal (text : String)
  | Http (text : String)
  | ChatIdProblem
  | RequiredArgumentError (ArgName MethodName : String)
  | MethodNotSentFailure (Method Reason : String) (FailureResult : FailureResult)
  | Os (text : String)
  | DuplicateRequest
  deriving DecidableEq, Repr

/-- Outcome of one `json.Unmarshal` call: the decoded value or the text of the
error. -/
inductive Decoded (α : Type) where
  | value (a : α)
  | failed (text : String)
  deriving DecidableEq, Repr

/-- A response body, seen through the two decoding calls of `ParseUpdate`:
`Ok` is the result of decoding into `objs.Result[json.RawMessage]` (its `Ok`
field), `Result` the result of decoding into `objs.Result[[]*objs.Update]`
(its `Result` field, a slice of pointers). -/
structure Body where
  Ok : Decoded Bool
  Result : Decoded (List (Option Update))
  deriving DecidableEq, Repr

/-- Arguments of the `getUpdates` method (`objs.GetUpdatesArgs`). -/
structure GetUpdatesArgs where
  Offset : Int
  Limit : Int
  Timeout : Int
  AllowedUpdates : Option (List String)
  deriving DecidableEq, Repr

/-- The transport client built at the start of `startReceiving`. -/
structure httpSenderClient where
  botApi : String
  apiKey : String
  deriving DecidableEq, Repr

/-! ## Arguments of the outbound methods -/

/-- A `float32`, kept as its bit pattern: the methods only pass it on. -/
structure float32 where
  bits : Nat
  deriving DecidableEq, Repr

/-- The bytes `json.Marshal` makes of a chat id: those of a string or those of
an `int`. -/
inductive Marshalled where
  | string (s : String)
  | int (i : Int)
  deriving DecidableEq, Repr

/-- The struct `objs.DefaultSendMethodsArguments`. `ReplyMarkup` is an
interface value, kept by identity. -/
structure DefaultSendMethodsArguments where
  ChatId : Marshalled
  DisableNotification : Bool
  AllowSendingWithoutReply : Bool
  ProtectContent : Bool
  ReplyToMessageId : Int
  ReplyMarkup : Nat
  MessageThreadId : Int
  deriving DecidableEq, Repr

/-- The struct `objs.SendMessageArgs`. Message entities are kept by identity. -/
structure SendMessageArgs where
  Text : String
  DisableWebPagePreview : Bool
  DefaultSendMethodsArguments : DefaultSendMethodsArguments
  ParseMode : String
  Entities : List Nat
  deriving DecidableEq, Repr

/-- The struct `objs.SendVenueArgs`. -/
structure SendVenueArgs where
  DefaultSendMethodsArguments : DefaultSendMethodsArguments
  Latitude : float32
  Longitude : float32
  Title : String
  Address : String
  FoursquareId : String
  FoursquareType : String
  GooglePlaceId : String
  GooglePlaceType : String
  deriving DecidableEq, Repr

/-- The struct `objs.DefaultChatArgs`; `none` is the zero value of `ChatId`. -/
structure DefaultChatArgs where
  ChatId : Option Marshalled
  deriving DecidableEq, Repr

/-- The struct `objs.BanChatSenderChatArgs`. -/
structure BanChatSenderChatArgs where
  ChatId : Option Marshalled
  SenderChatId : Int
  deriving DecidableEq, Repr

/-- The struct `objs.ForwardMessageArgs`; `none` is the zero value of a chat
id. -/
structure ForwardMessageArgs where
  ChatId : Option Marshalled
  FromChatId : Option Marshalled
  DisableNotification : Bool
  MessageId : Int
  ProtectContent : Bool
  MessageThreadId : Int
  deriving DecidableEq, Repr

/-- The struct `objs.CopyMessageArgs`. The reply markup and the caption
entities are kept by identity. -/
structure CopyMessageArgs where
  ForwardMessageArgs : ForwardMessageArgs
  Caption : String
  ParseMode : String
  AllowSendingWithoutReply : Bool
  ReplyMarkup : Nat
  CaptionEntities : List Nat
  ReplyToMessageId : Int
  deriving DecidableEq, Repr

/-- Values of the interface `objs.MethodArguments` built by the methods
embedded here. -/
inductive MethodArguments where
  | SendMessageArgs (a : SendMessageArgs)
  | SendVenueArgs (a : SendVenueArgs)
  | DefaultChatArgs (a : DefaultChatArgs)
  | BanChatSenderChatArgs (a : BanChatSenderChatArgs)
  | ForwardMessageArgs (a : ForwardMessageArgs)
  | CopyMessageArgs (a : CopyMessageArgs)
  deriving DecidableEq, Repr

/-- A response of the Bot API to an outbound method, seen through the decoding
calls made on it: `Ok` is the `Ok` field after decoding into
`objs.Result[json.RawMessage]`, `Failure` the result of decoding into
`objs.FailureResult`, `Result` the result of decoding into the typed
`objs.Result` of the method, of which `α` is the type. -/
structure Response (α : Type) where
  Ok : Decoded Bool
  Failure : Decoded FailureResult
  Result : Decoded α

/-- The struct `objs.File`, reduced to the field `DownloadFile` reads. -/
structure File where
  FilePath : String
  deriving DecidableEq, Repr

/-! ## The interface and the run time around it -/

/-- The update parser made by `parser.CreateUpdateParser`; only what it was
made from is recorded. -/
structure UpdateParser where
  updateChannel : Nat
  chatUpdateChannel : Nat
  botCfg : BotConfigs
  botLogger : Nat
  deriving DecidableEq, Repr

/-- The struct `BotAPIInterface`. Channels and the logger are represented by
their identity; `none` is a `nil` channel or pointer. -/
structure BotAPIInterface where
  botConfigs : BotConfigs
  updateRoutineRunning : Bool
  updateChannel : Option Nat
  chatUpadateChannel : Option Nat
  updateRoutineChannel : Option Nat
  updateParser : Option UpdateParser
  lastOffset : Int
  logger : Nat
  deriving DecidableEq, Repr

/-- Observable actions, in the order they happen. `sendCustomJson` and
`sendCustomMultiPart` are the transport calls of `SendCustom`, `Log` its line
in the log (without the duration), `httpGet`, `OpenFile`, `Copy` and `Close`
the calls of `DownloadFile` (files by identity). -/
inductive Event where
  | goStartReceiving
  | goExecuteChain (val : Update)
  | sendHttpReqJson (cl : httpSenderClient) (method : String) (args : GetUpdatesArgs)
  | Println (text : String) (err : Error)
  | Sleep (d : Nat)
  | sendCustomJson (cl : httpSenderClient) (methodName : String) (args : MethodArguments)
  | sendCustomMultiPart (cl : httpSenderClient) (methodName : String) (args : MethodArguments)
      (files : List (Option Nat))
  | Log (methodName status : String)
  | httpGet (url : String)
  | OpenFile (name : String)
  | Copy (file : Nat)
  | Close (file : Nat)
  deriving DecidableEq, Repr

/-- The interface together with the run time state its methods act on.
`chans` counts the channels made so far (`make` hands out the next number),
`blocked` lists the channels (`none` is the `nil` channel) on which a sender
of `true` is waiting for a receiver, `trace` is the sequence of observable
actions, oldest first. -/
structure World where
  bai : BotAPIInterface
  chans : Nat
  blocked : List (Option Nat)
  trace : List Event
  deriving DecidableEq, Repr

/-- Append an observable action to the trace. -/
def World.emit (w : World) (e : Event) : World :=
  { w with trace := w.trace ++ [e] }

/-- The expression `make(chan T)`: a channel with a fresh identity. -/
def World.make (w : World) : Nat × World :=
  (w.chans, { w with chans := w.chans + 1 })

/-! ## Starting and stopping -/

/-- The method `StartUpdateRoutine`: the new world and the returned error
(`none` is `nil`). -/
def StartUpdateRoutine (w : World) : World × Option Error :=
  if !w.bai.botConfigs.Webhook then
    if w.bai.updateRoutineRunning then
      (w, some Error.UpdateRoutineAlreadyStarted)
    else
      let w1 : World := { w with bai := { w.bai with updateRoutineRunning := true } }
      let (ch, w2) := w1.make
      let w3 : World := { w2 with bai := { w2.bai with updateRoutineChannel := some ch } }
      (w3.emit Event.goStartReceiving, none)
  else
    (w, some (Error.New "webhook option is true"))

/-- The send statement `ch <- true` on an unbuffered channel: the sender waits
on `ch` until a receiver takes the value. -/
def World.send (w : World) (ch : Option Nat) : World :=
  { w with blocked := w.blocked ++ [ch] }

/-- The method `StopUpdateRoutine`. Its send on `updateRoutineChannel` is the
stop signal. -/
def StopUpdateRoutine (w : World) : World :=
  if w.bai.updateRoutineRunning then
    let w1 : World := { w with bai := { w.bai with updateRoutineRunning := false } }
    w1.send w1.bai.updateRoutineChannel
  else
    w

/-! ## Parsing a fetched body -/

/-- The `for _, val := range ur.Result` loop of `ParseUpdate`, with the local
variable `lastOffset` as an argument. Returns `none` when `val` is `nil`
(the read of `val.Update_id` panics). -/
def rangeResult : List (Option Update) → Int → World → World × Option Int
  | [], lastOffset, w => (w, some lastOffset)
  | none :: _, _, w => (w, none)
  | some val :: rest, lastOffset, w =>
    let lastOffset1 := if val.Update_id > lastOffset then val.Update_id else lastOffset
    rangeResult rest lastOffset1 (w.emit (Event.goExecuteChain val))

/-- The method `ParseUpdate`: the new world and the returned pair (offset,
error), or `none` when the call panics. -/
def ParseUpdate (body : Body) (w : World) : World × Option (Int × Option Error) :=
  match body.Ok with
  | Decoded.failed err2 => (w, some (0, some (Error.Unmarshal err2)))
  | Decoded.value ok =>
    if !ok then
      (w, some (0, some (Error.MethodNotSentError "getUpdates"
        "server returned false for \x22ok\x22 field.")))
    else
      match body.Result with
      | Decoded.failed err => (w, some (0, some (Error.Unmarshal err)))
      | Decoded.value ur =>
        match rangeResult ur 0 w with
        | (w1, some lastOffset) => (w1, some (lastOffset, none))
        | (w1, none) => (w1, none)

/-- The method `parseUpdateresults`: the new world and the returned error, or
`none` when the call panics. -/
def parseUpdateresults (body : Body) (w : World) : World × Option (Option Error) :=
  match ParseUpdate body w with
  | (w1, none) => (w1, none)
  | (w1, some (_, some err)) => (w1, some (some err))
  | (w1, some (of, none)) =>
    if of > w1.bai.lastOffset then
      ({ w1 with bai := { w1.bai with lastOffset := of } }, some none)
    else
      (w1, some none)

/-! ## The receiving loop -/

/-- How one pass through the body of the `for` loop of `startReceiving`
ends. -/
inductive Flow where
  | next
  | exit
  | panicked
  deriving DecidableEq, Repr

/-- The cursor: the offset the next `getUpdates` asks for. -/
def Cursor (w : World) : Int := wrapInt (w.bai.lastOffset + 1)

/-- The value of `args` built in the `default` branch of `startReceiving`. -/
def getUpdatesArgs (bai : BotAPIInterface) : GetUpdatesArgs :=
  let args : GetUpdatesArgs :=
    { Offset := wrapInt (bai.lastOffset + 1)
      Limit := bai.botConfigs.UpdateConfigs.Limit
      Timeout := bai.botConfigs.UpdateConfigs.Timeout
      AllowedUpdates := none }
  if bai.botConfigs.UpdateConfigs.AllowedUpdates != none then
    { args with AllowedUpdates := bai.botConfigs.UpdateConfigs.AllowedUpdates }
  else
    args

/-- The `default` branch of the `select` of `startReceiving`: one poll cycle.
`cl` is the client built before the loop, `res` is what `sendHttpReqJson`
returns for the call. -/
def pollCycle (cl : httpSenderClient) (res : Except Error Body) (w : World) : World × Flow :=
  let args := getUpdatesArgs w.bai
  let w1 := w.emit (Event.sendHttpReqJson cl "getUpdates" args)
  match res with
  | Except.error err => (w1.emit (Event.Println "Error receiving updates." err), Flow.next)
  | Except.ok body =>
    match parseUpdateresults body w1 with
    | (w2, none) => (w2, Flow.panicked)
    | (w2, some (some err)) =>
      (w2.emit (Event.Println "Error parsing the result of the update. " err), Flow.next)
    | (w2, some none) => (w2, Flow.next)

/-- One pass through the body of the `for` loop of `startReceiving`: the
sleep, then the `select`. The receive from `updateRoutineChannel` is ready
when the channel is not `nil` and a sender is waiting on it; it takes that
sender's value and leaves the loop. -/
def iteration (cl : httpSenderClient) (res : Except Error Body) (w : World) : World × Flow :=
  let w1 := w.emit (Event.Sleep w.bai.botConfigs.UpdateConfigs.UpdateFrequency)
  match w1.bai.updateRoutineChannel with
  | some ch =>
    if some ch ∈ w1.blocked then
      ({ w1 with blocked := w1.blocked.erase (some ch) }, Flow.exit)
    else
      pollCycle cl res w1
  | none => pollCycle cl res w1

/-- The labelled `for` loop of `startReceiving`, run for as many passes as
there are transport results in `rs` (fewer when the loop is left or panics).
The flow returned is `next` when the loop is still running. -/
def receiveLoop (cl : httpSenderClient) : List (Except Error Body) → World → World × Flow
  | [], w => (w, Flow.next)
  | res :: rs, w =>
    match iteration cl res w with
    | (w1, Flow.next) => receiveLoop cl rs w1
    | (w1, Flow.exit) => (w1, Flow.exit)
    | (w1, Flow.panicked) => (w1, Flow.panicked)

/-- The method `startReceiving`: the client is built once, then the loop
runs. `rs` lists what the transport returns, call by call. -/
def startReceiving (rs : List (Except Error Body)) (w : World) : World × Flow :=
  let cl : httpSenderClient :=
    { botApi := w.bai.botConfigs.BotAPI, apiKey := w.bai.botConfigs.APIKey }
  receiveLoop cl rs w

/-! ## Creation -/

/-- The function `CreateInterface`. The package variable `interfaceCreated` is
passed in and returned; `botLogger` is the identity of the logger. -/
def CreateInterface (interfaceCreated : Bool) (chans : Nat) (botCfg : BotConfigs)
    (botLogger : Nat) : Bool × Nat × Option BotAPIInterface × Option Error :=
  if interfaceCreated then
    (interfaceCreated, chans, none, some Error.BotInterfaceAlreadyCreated)
  else
    let ch := chans
    let ch3 := chans + 1
    let temp : BotAPIInterface :=
      { botConfigs := botCfg
        updateRoutineRunning := false
        updateChannel := some ch
        chatUpadateChannel := some ch3
        updateRoutineChannel := none
        updateParser := some
          { updateChannel := ch, chatUpdateChannel := ch3, botCfg := botCfg,
            botLogger := botLogger }
        lastOffset := 0
        logger := botLogger }
    (true, chans + 2, some temp, none)

/-! ## Outbound methods -/

/-- The method `isChatIdOk`. -/
def isChatIdOk (chatIdInt : Int) (chatIdString : String) : Bool :=
  if chatIdInt == 0 then
    chatIdString != ""
  else
    chatIdString == ""

/-- The method `fixChatId`. -/
def fixChatId (chatIdInt : Int) (chatIdString : String) : Marshalled :=
  if chatIdInt == 0 then
    if !chatIdString.startsWith "@" then
      Marshalled.string ("@" ++ chatIdString)
    else
      Marshalled.string chatIdString
  else
    Marshalled.int chatIdInt

/-- The method `fixTheDefaultArguments`. -/
def fixTheDefaultArguments (chatIdInt reply_to_message_id messageThreadId : Int)
    (chatIdString : String) (disable_notification allow_sending_without_reply ProtectContent : Bool)
    (reply_markup : Nat) : DefaultSendMethodsArguments :=
  { ChatId := fixChatId chatIdInt chatIdString
    DisableNotification := disable_notification
    AllowSendingWithoutReply := allow_sending_without_reply
    ProtectContent := ProtectContent
    ReplyToMessageId := reply_to_message_id
    ReplyMarkup := reply_markup
    MessageThreadId := messageThreadId }

/-- The method `preParseResult`: the response handed back, or the error. -/
def preParseResult {α : Type} (res : Response α) (method : String) : Except Error (Response α) :=
  match res.Ok with
  | Decoded.failed err => Except.error (Error.Unmarshal err)
  | Decoded.value ok =>
    if !ok then
      match res.Failure with
      | Decoded.failed err => Except.error (Error.Unmarshal err)
      | Decoded.value fr =>
        Except.error (Error.MethodNotSentFailure method "server returned false ok filed" fr)
    else
      Except.ok res

/-- The method `SendCustom`. `res` is what the transport returns for the one
call the method makes. -/
def SendCustom {α : Type} (methodName : String) (args : MethodArguments) (MP : Bool)
    (files : List (Option Nat)) (res : Except Error (Response α)) (w : World) :
    World × Except Error (Response α) :=
  let cl : httpSenderClient :=
    { botApi := w.bai.botConfigs.BotAPI, apiKey := w.bai.botConfigs.APIKey }
  let w1 :=
    if MP then
      w.emit (Event.sendCustomMultiPart cl methodName args files)
    else
      w.emit (Event.sendCustomJson cl methodName args)
  match res with
  | Except.error err2 => (w1.emit (Event.Log methodName "Error  "), Except.error err2)
  | Except.ok res => (w1.emit (Event.Log methodName "Success"), preParseResult res methodName)

/-- The common end of the outbound methods: the error of `SendCustom` is
handed on, otherwise the bytes are decoded into the typed result. -/
def unmarshalResult {α : Type} (r : World × Except Error (Response α)) : World × Except Error α :=
  match r with
  | (w, Except.error err) => (w, Except.error err)
  | (w, Except.ok res) =>
    match res.Result with
    | Decoded.failed err3 => (w, Except.error (Error.Unmarshal err3))
    | Decoded.value msg => (w, Except.ok msg)

/-- The method `SendMessage`. -/
def SendMessage {α : Type} (chatIdInt : Int) (chatIdString text parseMode : String)
    (entities : List Nat)
    (disable_web_page_preview disable_notification allow_sending_without_reply ProtectContent : Bool)
    (reply_to_message_id messageThreadId : Int) (reply_markup : Nat)
    (res : Except Error (Response α)) (w : World) : World × Except Error α :=
  if chatIdInt != 0 && chatIdString != "" then
    (w, Except.error Error.ChatIdProblem)
  else if isChatIdOk chatIdInt chatIdString then
    let dflt := fixTheDefaultArguments chatIdInt reply_to_message_id messageThreadId chatIdString
      disable_notification allow_sending_without_reply ProtectContent reply_markup
    let args : SendMessageArgs :=
      { Text := text
        DisableWebPagePreview := disable_web_page_preview
        DefaultSendMethodsArguments := dflt
        ParseMode := parseMode
        Entities := entities }
    unmarshalResult (SendCustom "sendMessage" (MethodArguments.SendMessageArgs args) false [none]
      res w)
  else
    (w, Except.error (Error.RequiredArgumentError "chatIdInt or chatIdString" "sendMessage"))

/-- The method `SendVenue`. -/
def SendVenue {α : Type} (chatIdInt : Int) (chatIdString : String) (latitude longitude : float32)
    (title address fourSquareId fourSquareType googlePlaceId googlePlaceType : String)
    (reply_to_message_id messageThreadId : Int)
    (disable_notification allow_sending_without_reply ProtectContent : Bool) (reply_markup : Nat)
    (res : Except Error (Response α)) (w : World) : World × Except Error α :=
  if chatIdInt != 0 && chatIdString != "" then
    (w, Except.error Error.ChatIdProblem)
  else if isChatIdOk chatIdInt chatIdString then
    let args : SendVenueArgs :=
      { DefaultSendMethodsArguments :=
          fixTheDefaultArguments chatIdInt reply_to_message_id messageThreadId chatIdString
            disable_notification allow_sending_without_reply ProtectContent reply_markup
        Latitude := latitude
        Longitude := longitude
        Title := title
        Address := address
        FoursquareId := fourSquareId
        FoursquareType := fourSquareType
        GooglePlaceId := googlePlaceId
        GooglePlaceType := googlePlaceType }
    unmarshalResult (SendCustom "sendVnue" (MethodArguments.SendVenueArgs args) false [none]
      res w)
  else
    (w, Except.error (Error.RequiredArgumentError "chatIdInt or chatIdString" "sendcontact"))

/-- The method `ExportChatInviteLink`. -/
def ExportChatInviteLink {α : Type} (chatIdInt : Int) (chatIdString : String)
    (res : Except Error (Response α)) (w : World) : World × Except Error α :=
  let args : DefaultChatArgs := { ChatId := none }
  let args : DefaultChatArgs := { args with ChatId := some (fixChatId chatIdInt chatIdString) }
  unmarshalResult (SendCustom "exprotChatInviteLink" (MethodArguments.DefaultChatArgs args) false
    [none] res w)

/-- The method `BanOrUnbanChatSenderChat`. -/
def BanOrUnbanChatSenderChat {α : Type} (chatIdInt : Int) (chatIdString : String)
    (senderChatId : Int) (ban : Bool) (res : Except Error (Response α)) (w : World) :
    World × Except Error α :=
  let args : BanChatSenderChatArgs := { ChatId := none, SenderChatId := senderChatId }
  let args : BanChatSenderChatArgs :=
    { args with ChatId := some (fixChatId chatIdInt chatIdString) }
  let method : String :=
    if ban then
      "banChatSenderChat"
    else
      "unbanChatSenderChat"
  unmarshalResult (SendCustom method (MethodArguments.BanChatSenderChatArgs args) false [none]
    res w)

/-- The method `ForwardMessage`. -/
def ForwardMessage {α : Type} (chatIdInt fromChatIdInt : Int)
    (chatIdString fromChatIdString : String) (disableNotif ProtectContent : Bool)
    (messageId messageThreadId : Int) (res : Except Error (Response α)) (w : World) :
    World × Except Error α :=
  if (chatIdInt != 0 && chatIdString != "") && (fromChatIdInt != 0 && fromChatIdString != "") then
    (w, Except.error Error.ChatIdProblem)
  else if isChatIdOk chatIdInt chatIdString && isChatIdOk fromChatIdInt fromChatIdString then
    let fm : ForwardMessageArgs :=
      { ChatId := none
        FromChatId := none
        DisableNotification := disableNotif
        MessageId := messageId
        ProtectContent := ProtectContent
        MessageThreadId := messageThreadId }
    let fm : ForwardMessageArgs := { fm with ChatId := some (fixChatId chatIdInt chatIdString) }
    let fm : ForwardMessageArgs :=
      { fm with FromChatId := some (fixChatId fromChatIdInt fromChatIdString) }
    unmarshalResult (SendCustom "forwardMessage" (MethodArguments.ForwardMessageArgs fm) false
      [none, none] res w)
  else
    (w, Except.error (Error.RequiredArgumentError
      "chatIdInt or chatIdString or fromChatIdInt or fromChatIdString" "forwardMessage"))

/-- The method `CopyMessage`. -/
def CopyMessage {α : Type} (chatIdInt fromChatIdInt : Int)
    (chatIdString fromChatIdString : String) (messageId : Int) (disableNotif : Bool)
    (caption parseMode : String) (replyTo : Int)
    (allowSendingWihtoutReply ProtectContent : Bool) (replyMarkUp : Nat)
    (captionEntities : List Nat) (res : Except Error (Response α)) (w : World) :
    World × Except Error α :=
  if (chatIdInt != 0 && chatIdString != "") && (fromChatIdInt != 0 && fromChatIdString != "") then
    (w, Except.error Error.ChatIdProblem)
  else if isChatIdOk chatIdInt chatIdString && isChatIdOk fromChatIdInt fromChatIdString then
    let fm : ForwardMessageArgs :=
      { ChatId := none
        FromChatId := none
        DisableNotification := disableNotif
        MessageId := messageId
        ProtectContent := ProtectContent
        MessageThreadId := 0 }
    let fm : ForwardMessageArgs := { fm with ChatId := some (fixChatId chatIdInt chatIdString) }
    let fm : ForwardMessageArgs :=
      { fm with FromChatId := some (fixChatId fromChatIdInt fromChatIdString) }
    let cp : CopyMessageArgs :=
      { ForwardMessageArgs := fm
        Caption := caption
        ParseMode := parseMode
        AllowSendingWithoutReply := allowSendingWihtoutReply
        ReplyMarkup := replyMarkUp
        CaptionEntities := captionEntities
        ReplyToMessageId := 0 }
    let cp : CopyMessageArgs :=
      if replyTo != 0 then
        { cp with ReplyToMessageId := replyTo }
      else
        cp
    unmarshalResult (SendCustom "copyMessage" (MethodArguments.CopyMessageArgs cp) false
      [none, none] res w)
  else
    (w, Except.error (Error.RequiredArgumentError
      "chatIdInt or chatIdString or fromChatIdInt or fromChatIdString" "copyMessage"))

/-! ## Downloading a file -/

/-- The pieces of `s` between the occurrences of `sep`, as lists of
characters: one more piece than there are occurrences. -/
def splitChars (sep : Char) : List Char → List (List Char)
  | [] => [[]]
  | c :: cs =>
    if c = sep then
      [] :: splitChars sep cs
    else
      match splitChars sep cs with
      | piece :: pieces => (c :: piece) :: pieces
      | [] => [[c]]

/-- The function `strings.Split` for a separator of one character. Go splits
the bytes of the string; for a separator below 128, such as `/`, that is the
same as splitting its characters. -/
def Split (s : String) (sep : Char) : List String :=
  (splitChars sep s.data).map String.mk

/-- The index expression `ar[i]` of Go: `none` when `i` is out of range (a
run-time panic). -/
def index {α : Type} (ar : List α) (i : Int) : Option α :=
  if 0 ≤ i then
    ar.get? i.toNat
  else
    none

/-- What the outside world returns to the calls of `DownloadFile`: `Get` is the
error of `http.Get` or the status code of its response, `OpenFile` the error
of `os.OpenFile` or the file it opened, `Copy` the error of `io.Copy`, `Close`
the error of `file.Close`. -/
structure DownloadEnv where
  Get : Except Error Int
  OpenFile : Except Error Nat
  Copy : Option Error
  Close : Option Error

/-- The `if file == nil` block of `DownloadFile`: the file to write to, the
error `er`, or `none` when the index expression panics. -/
def openTarget (fileObject : File) (file : Option Nat) (env : DownloadEnv) (w : World) :
    World × Option (Except Error Nat) :=
  match file with
  | some f => (w, some (Except.ok f))
  | none =>
    let ar := Split fileObject.FilePath '/'
    match index ar ((ar.length : Int) - 1) with
    | none => (w, none)
    | some name =>
      let w1 := w.emit (Event.OpenFile name)
      match env.OpenFile with
      | Except.error er => (w1, some (Except.error er))
      | Except.ok f => (w1, some (Except.ok f))

/-- The method `DownloadFile`: the new world and the returned error, or `none`
when the call panics (a `nil` file object among others). -/
def DownloadFile (fileObject : Option File) (file : Option Nat) (env : DownloadEnv) (w : World) :
    World × Option (Option Error) :=
  match fileObject with
  | none => (w, none)
  | some fileObject =>
    let url := "https://api.telegram.org/file/bot" ++ w.bai.botConfigs.APIKey ++ "/" ++
      fileObject.FilePath
    let w1 := w.emit (Event.httpGet url)
    match env.Get with
    | Except.error err => (w1, some (some err))
    | Except.ok StatusCode =>
      match openTarget fileObject file env w1 with
      | (w2, none) => (w2, none)
      | (w2, some (Except.error er)) => (w2, some (some er))
      | (w2, some (Except.ok file)) =>
        if StatusCode < 300 then
          let w3 := w2.emit (Event.Copy file)
          match env.Copy with
          | some err2 => (w3, some (some err2))
          | none => (w3.emit (Event.Close file), some env.Close)
        else
          (w2, some (some (Error.MethodNotSentError "getFile"
            ("server returned status code " ++ toString StatusCode))))

/-! ## Pending requests -/

/-- The struct `chatRequestHandler` of package `parser`; the function it points
to is kept by identity. -/
structure chatRequestHandler where
  requestId : Int
  function : Nat
  deriving DecidableEq, Repr

/-- Modelled from the spec: the registry of pending requests is not part of the
sources (of package `parser` only the declaration of `chatRequestHandler`
is). A pending request is a one-shot waiter keyed by (chat identity, request
id), holding an acceptance predicate and a completion handle. The acceptance
predicate `accept` is kept by identity under `predicate`: two entries have
the same predicate when these identities agree. -/
structure PendingRequest where
  chat : Int
  handler : chatRequestHandler
  predicate : Nat
  accept : Update → Bool

/-- Modelled from the spec: registering a pending request, which is not part of
the sources. It fails with `DuplicateRequest` if an identical (chat, request
id) pair is already pending, the registry left unchanged on failure;
otherwise the request is pending from then on. -/
def registerPending (registry : List PendingRequest) (p : PendingRequest) :
    List PendingRequest × Option Error :=
  if registry.any (fun q => q.chat == p.chat && q.handler.requestId == p.handler.requestId) then
    (registry, some Error.DuplicateRequest)
  else
    (registry ++ [p], none)

/-! ## Routing an update -/

/-- Modelled from the spec: what the action of a handler chain entry reports,
"continue" or "consumed", or that it failed. The handler chain of package
`parser` is not part of the sources. -/
inductive ActionResult where
  | Continue
  | Consumed
  | Failed
  deriving DecidableEq, Repr

/-- Modelled from the spec: an entry of the handler chain, the registration of
a predicate over updates and an action, under the identity handed out at
registration. The handler chain of package `parser` is not part of the
sources. -/
structure HandlerChainEntry where
  id : Nat
  predicate : Update → Bool
  action : Update → ActionResult

/-- Modelled from the spec: the consumer registry of section 4.3, which is not
part of the sources: the handler chain in registration order, the chats with
a subscription, and the pending requests. -/
structure Registry where
  chain : List HandlerChainEntry
  subscriptions : List Int
  pending : List PendingRequest

/-- Modelled from the spec: what routing an update does to its consumers, in
order: a delivery to the global queue, a delivery to the queue of a chat, the
invocation of the completion handle of a pending request, the run of the
action of a chain entry with what it reported. The router of package `parser`
is not part of the sources. -/
inductive Delivery where
  | globalQueue (u : Update)
  | chatQueue (chat : Int) (u : Update)
  | fulfilled (chat requestId : Int) (function : Nat) (u : Update)
  | ran (id : Nat) (u : Update) (result : ActionResult)
  deriving DecidableEq, Repr

/-- Modelled from the spec: registering a chain entry, append-only ordering.
The handler chain of package `parser` is not part of the sources. -/
def registerHandler (registry : Registry) (entry : HandlerChainEntry) : Registry :=
  { registry with chain := registry.chain ++ [entry] }

/-- Modelled from the spec: step 4 of `route`, which is not part of the
sources. The entries of the chain whose action is invoked for the update, in
the order they are invoked: for each entry whose predicate matches the
update its action is invoked; if the action reports "consumed" the
evaluation stops, otherwise it proceeds to the next entry. -/
def evalChain : List HandlerChainEntry → Update → List HandlerChainEntry
  | [], _ => []
  | entry :: rest, u =>
    if entry.predicate u then
      match entry.action u with
      | ActionResult.Consumed => [entry]
      | ActionResult.Continue => entry :: evalChain rest u
      | ActionResult.Failed => entry :: evalChain rest u
    else
      evalChain rest u

/-- Modelled from the spec: whether the scan of step 3 of `route` fulfils the
entry `p` with the update. The entry is keyed by the chat of the update, the
update satisfies its acceptance predicate, and no entry with the same
predicate has been fulfilled with this update: `used` holds the predicates of
the entries the scan has fulfilled so far (at most one entry is fulfilled per
update per chat unless entries are registered with different predicates). -/
def fulfils (u : Update) (used : List Nat) (p : PendingRequest) : Bool :=
  p.chat == u.chat && p.accept u && !used.contains p.predicate

/-- Modelled from the spec: the pending requests the scan of step 3 of `route`
fulfils with the update, in the order of the scan. The spec does not say
which of several matching entries with one predicate is the one fulfilled;
the scan goes through the entries in registration order, so it is the one
registered first. -/
def fulfilledBy (u : Update) : List PendingRequest → List Nat → List PendingRequest
  | [], _ => []
  | p :: rest, used =>
    if fulfils u used p then
      p :: fulfilledBy u rest (p.predicate :: used)
    else
      fulfilledBy u rest used

/-- Modelled from the spec: the pending requests the scan of step 3 of `route`
leaves in the registry, untouched: those it does not fulfil. -/
def leftBy (u : Update) : List PendingRequest → List Nat → List PendingRequest
  | [], _ => []
  | p :: rest, used =>
    if fulfils u used p then
      leftBy u rest (p.predicate :: used)
    else
      p :: leftBy u rest used

/-- Modelled from the spec: `route(update)` of section 4.2 (`ExecuteChain` of
package `parser`), which is not part of the sources. The update is delivered
to the global queue, to the queue of its chat if the chat has a subscription,
to the pending requests of its chat the scan of step 3 fulfils (the handle is
invoked and the entry removed; the other entries are left untouched), and to
the handler chain. -/
def route (registry : Registry) (u : Update) : Registry × List Delivery :=
  let toGlobal := [Delivery.globalQueue u]
  let toChat := if u.chat ∈ registry.subscriptions then [Delivery.chatQueue u.chat u] else []
  let toPending := (fulfilledBy u registry.pending []).map fun p =>
    Delivery.fulfilled p.chat p.handler.requestId p.handler.function u
  let toChain := (evalChain registry.chain u).map fun entry =>
    Delivery.ran entry.id u (entry.action u)
  ({ registry with pending := leftBy u registry.pending [] },
    toGlobal ++ toChat ++ toPending ++ toChain)

/-- Modelled from the spec: the routing tasks of the updates of the list, each
carried out as a whole, one after the other (step 3 of `route` removes a
fulfilled entry atomically and section 4.3 serialises the mutations of the
registry): the registry afterwards and all deliveries. The list is the order
in which the tasks reach the registry. Neither the spec nor the source fixes
that order: `ParseUpdate` starts the tasks with `go`, so the list may be any
arrangement of the updates it was started for. -/
def routeAll : Registry → List Update → Registry × List Delivery
  | registry, [] => (registry, [])
  | registry, u :: us =>
    match route registry u with
    | (registry1, ds) =>
      match routeAll registry1 us with
      | (registry2, ds2) => (registry2, ds ++ ds2)

/-! ## Vocabulary of the statements -/

/-- A stop signal is pending: a sender waits on the channel the loop of
`startReceiving` receives from. -/
def stopPending (w : World) : Bool :=
  match w.bai.updateRoutineChannel with
  | some ch => decide (some ch ∈ w.blocked)
  | none => false

/-- The largest of `lo` and the ids of `us`. -/
def maxId (lo : Int) (us : List Update) : Int :=
  us.foldl (fun a u => max a u.Update_id) lo

/-- The transport calls of a trace, in order. -/
def requests : List Event → List (httpSenderClient × String × GetUpdatesArgs)
  | [] => []
  | Event.sendHttpReqJson cl method args :: es => (cl, method, args) :: requests es
  | _ :: es => requests es

/-- The updates for which a routing task was started in a trace, in order. -/
def routed : List Event → List Update
  | [] => []
  | Event.goExecuteChain val :: es => val :: routed es
  | _ :: es => routed es

/-- An element of the JSON array `result` of a response: an update object, the
value `null`, or a value that does not fit `objs.Update` (`text` is the error
of the decoder). -/
inductive Item where
  | update (u : Update)
  | null
  | malformed (text : String)
  deriving DecidableEq, Repr

/-- What `json.Unmarshal` into `objs.Result[[]*objs.Update]` makes of the array
`items`: an error when an element does not fit (the first such error is
reported), the slice of pointers otherwise. -/
def unmarshalItems : List Item → Decoded (List (Option Update))
  | [] => Decoded.value []
  | Item.malformed text :: _ => Decoded.failed text
  | Item.update u :: rest =>
    match unmarshalItems rest with
    | Decoded.value l => Decoded.value (some u :: l)
    | Decoded.failed text => Decoded.failed text
  | Item.null :: rest =>
    match unmarshalItems rest with
    | Decoded.value l => Decoded.value (none :: l)
    | Decoded.failed text => Decoded.failed text

/-- A body with `ok = true` whose `result` array is `items`. -/
def itemsBody (items : List Item) : Body :=
  { Ok := Decoded.value true, Result := unmarshalItems items }

/-- The transport calls of `SendCustom` in a trace, in order: method name and
arguments. -/
def sent : List Event → List (String × MethodArguments)
  | [] => []
  | Event.sendCustomJson _ methodName args :: es => (methodName, args) :: sent es
  | Event.sendCustomMultiPart _ methodName args _ :: es => (methodName, args) :: sent es
  | _ :: es => sent es

/-- Calls of `CreateInterface` one after the other in one process, each with
its configuration and logger: what each call returns. `interfaceCreated` and
`chans` are the package variable and the channels made before the first
call. -/
def createCalls : List (BotConfigs × Nat) → Bool → Nat →
    List (Option BotAPIInterface × Option Error)
  | [], _, _ => []
  | (botCfg, botLogger) :: rest, interfaceCreated, chans =>
    match CreateInterface interfaceCreated chans botCfg botLogger with
    | (interfaceCreated1, chans1, bai, err) =>
      (bai, err) :: createCalls rest interfaceCreated1 chans1

/-- The value of the package variable `interfaceCreated` after the calls. -/
def guardAfter : List (BotConfigs × Nat) → Bool → Nat → Bool
  | [], interfaceCreated, _ => interfaceCreated
  | (botCfg, botLogger) :: rest, interfaceCreated, chans =>
    match CreateInterface interfaceCreated chans botCfg botLogger with
    | (interfaceCreated1, chans1, _, _) => guardAfter rest interfaceCreated1 chans1

/-- The keys (chat, request id) pending in a registry. -/
def pendingKeys (registry : List PendingRequest) : List (Int × Int) :=
  registry.map fun q => (q.chat, q.handler.requestId)

/-- The invocations of the completion handle of the pending request with key
(`chat`, `requestId`), in order: the function invoked and the update it was
invoked with. -/
def invocations (chat requestId : Int) : List Delivery → List (Nat × Update)
  | [] => []
  | Delivery.fulfilled c r function u :: ds =>
    if c = chat ∧ r = requestId then
      (function, u) :: invocations chat requestId ds
    else
      invocations chat requestId ds
  | _ :: ds => invocations chat requestId ds

/-- Modelled from the spec: the updates offered to the pending request with key
(`chat`, `requestId`) when the routing tasks of the updates of the list are carried out in the
order of the list: the updates of its chat routed while it is pending, the
ones the scan of step 3 of `route` tries its acceptance predicate on. -/
def offered (chat requestId : Int) : Registry → List Update → List Update
  | _, [] => []
  | registry, u :: us =>
    if u.chat = chat ∧ (chat, requestId) ∈ pendingKeys registry.pending then
      u :: offered chat requestId (route registry u).1 us
    else
      offered chat requestId (route registry u).1 us

/-- The identities of the chain entries whose action ran, in order. -/
def ranIds : List Delivery → List Nat
  | [] => []
  | Delivery.ran id _ _ :: ds => id :: ranIds ds
  | _ :: ds => ranIds ds

/-- Exactly one of the two forms of a chat id is populated. -/
def oneChatId (chatIdInt : Int) (chatIdString : String) : Prop :=
  (chatIdInt ≠ 0 ∧ chatIdString = "") ∨ (chatIdInt = 0 ∧ chatIdString ≠ "")

/-- Both forms of a chat id are populated. -/
def bothChatIds (chatIdInt : Int) (chatIdString : String) : Prop :=
  chatIdInt ≠ 0 ∧ chatIdString ≠ ""

/-- The transport returns errors of its own (`Http`) only. -/
def transportError {α : Type} (res : Except Error (Response α)) : Prop :=
  ∀ err, res = Except.error err → ∃ text, err = Error.Http text

/-- Every update id in what the transport returns is below the largest `int`. -/
def idsBelowMaxInt (res : Except Error Body) : Prop :=
  ∀ (body : Body) (l : List (Option Update)) (u : Update),
    res = Except.ok body → body.Result = Decoded.value l → some u ∈ l → u.Update_id < maxInt

/-- A body that decodes with `ok = true` and the updates `us` as its result. -/
def batchBody (us : List Update) : Body :=
  { Ok := Decoded.value true, Result := Decoded.value (us.map some) }

/-- The world right after a first `CreateInterface botCfg botLogger` in a fresh
process. -/
def initialWorld (botCfg : BotConfigs) (botLogger : Nat) : Option World :=
  match CreateInterface false 0 botCfg botLogger with
  | (_, chans, some bai, _) => some { bai := bai, chans := chans, blocked := [], trace := [] }
  | (_, _, none, _) => none

/-! ## Concrete inputs -/

/-- A polling configuration. -/
def exampleConfigs : BotConfigs :=
  { Webhook := false
    BotAPI := "https://api.telegram.org/bot"
    APIKey := "key"
    UpdateConfigs :=
      { Limit := 100, Timeout := 0, AllowedUpdates := some ["message"], UpdateFrequency := 300 } }

/-- The world right after `CreateInterface exampleConfigs` in a fresh process. -/
def exampleWorld : World :=
  { bai :=
      { botConfigs := exampleConfigs
        updateRoutineRunning := false
        updateChannel := some 0
        chatUpadateChannel := some 1
        updateRoutineChannel := none
        updateParser := some
          { updateChannel := 0, chatUpdateChannel := 1, botCfg := exampleConfigs, botLogger := 0 }
        lastOffset := 0
        logger := 0 }
    chans := 2
    blocked := []
    trace := [] }

/-- The world `exampleWorld` once `StartUpdateRoutine` has been called. -/
def pollingWorld : World := (StartUpdateRoutine exampleWorld).1

/-- The first update of the scenario of the specification. -/
def update10 : Update := { Update_id := 10, chat := 5, kind := Kind.Message }

/-- The second update of the scenario of the specification. -/
def update11 : Update := { Update_id := 11, chat := 5, kind := Kind.CallbackQuery }

/-- The client of `exampleConfigs`. -/
def exampleClient : httpSenderClient :=
  { botApi := "https://api.telegram.org/bot", apiKey := "key" }

/-- A configuration for webhook (push) delivery. -/
def webhookConfigs : BotConfigs := { exampleConfigs with Webhook := true }

/-- The world right after `CreateInterface webhookConfigs` in a fresh process. -/
def webhookWorld : World :=
  { exampleWorld with bai := { exampleWorld.bai with botConfigs := webhookConfigs } }

/-- A body that is no JSON at all. -/
def undecodableBody : Body :=
  { Ok := Decoded.failed "unexpected end of JSON input"
    Result := Decoded.failed "unexpected end of JSON input" }

/-- A body with which the server rejects the call. -/
def rejectionBody : Body :=
  { Ok := Decoded.value false, Result := Decoded.value [] }

/-- A response that decodes with `ok = true` and the typed result `a`. -/
def okResponse {α : Type} (a : α) : Response α :=
  { Ok := Decoded.value true
    Failure := Decoded.failed "json: cannot unmarshal"
    Result := Decoded.value a }

/-- A latitude and a longitude. -/
def exampleLatitude : float32 := { bits := 1108344832 }

/-- The longitude of the example. -/
def exampleLongitude : float32 := { bits := 1095761920 }

/-- A file object as `GetFile` returns it. -/
def exampleFile : File := { FilePath := "photos/file_7.jpg" }

/-- The server answers 404 to the download; opening, copying and closing
would succeed. -/
def notFoundEnv : DownloadEnv :=
  { Get := Except.ok 404, OpenFile := Except.ok 9, Copy := none, Close := none }

/-- The server answers 200 and the copy fails. -/
def copyFailsEnv : DownloadEnv :=
  { Get := Except.ok 200, OpenFile := Except.ok 9, Copy := some (Error.Os "unexpected EOF"),
    Close := none }

/-- The server answers 200 and everything succeeds. -/
def downloadOkEnv : DownloadEnv :=
  { Get := Except.ok 200, OpenFile := Except.ok 9, Copy := none, Close := none }

/-- A pending request of chat 5 with request id 1 that accepts messages. -/
def pendingFirst : PendingRequest :=
  { chat := 5, handler := { requestId := 1, function := 100 }, predicate := 1,
    accept := fun u => decide (u.kind = Kind.Message) }

/-- Another request for the same chat and request id. -/
def pendingSecond : PendingRequest :=
  { chat := 5, handler := { requestId := 1, function := 200 }, predicate := 2,
    accept := fun _ => true }

/-- A request of chat 5 with request id 2 and the predicate of `pendingFirst`. -/
def pendingTwin : PendingRequest :=
  { chat := 5, handler := { requestId := 2, function := 300 }, predicate := 1,
    accept := fun u => decide (u.kind = Kind.Message) }

/-- A registry with the pending request `pendingFirst`, a subscription of chat
5 and no chain entry. -/
def exampleRegistry : Registry :=
  { chain := [], subscriptions := [5], pending := [pendingFirst] }

/-- A registry with two pending requests of chat 5 that have the same
predicate, `pendingFirst` registered before `pendingTwin`. -/
def twinRegistry : Registry :=
  { chain := [], subscriptions := [5], pending := [pendingFirst, pendingTwin] }

/-- A second message of chat 5, with id 12. -/
def update12 : Update := { Update_id := 12, chat := 5, kind := Kind.Message }

/-- A chain entry for messages that reports "continue". -/
def entryContinue : HandlerChainEntry :=
  { id := 1, predicate := fun u => decide (u.kind = Kind.Message),
    action := fun _ => ActionResult.Continue }

/-- A chain entry for callback queries. -/
def entryCallback : HandlerChainEntry :=
  { id := 2, predicate := fun u => decide (u.kind = Kind.CallbackQuery),
    action := fun _ => ActionResult.Consumed }

/-- A chain entry for every update that reports "consumed". -/
def entryConsume : HandlerChainEntry :=
  { id := 3, predicate := fun _ => true, action := fun _ => ActionResult.Consumed }

/-- A chain entry for every update, registered last. -/
def entryLast : HandlerChainEntry :=
  { id := 4, predicate := fun _ => true, action := fun _ => ActionResult.Continue }

/-- An update whose id is the largest `int`. -/
def updateMaxInt : Update :=
  { Update_id := 9223372036854775807, chat := 5, kind := Kind.Message }

/-! ## Lemmas about the embedding -/

theorem wrapInt_of_range (x : Int) (h1 : minInt ≤ x) (h2 : x ≤ maxInt) : wrapInt x = x := by
  unfold wrapInt minInt maxInt at *
  omega

theorem emit_bai (w : World) (e : Event) : (w.emit e).bai = w.bai := rfl

theorem emit_blocked (w : World) (e : Event) : (w.emit e).blocked = w.blocked := rfl

theorem emit_chans (w : World) (e : Event) : (w.emit e).chans = w.chans := rfl

theorem emit_trace (w : World) (e : Event) : (w.emit e).trace = w.trace ++ [e] := rfl

theorem if_gt_eq_max (a b : Int) : (if b > a then b else a) = max a b := by
  rcases le_total a b with h | h
  · rw [max_eq_right h]
    split_ifs with h1
    · rfl
    · omega
  · rw [max_eq_left h]
    split_ifs with h1
    · omega
    · rfl

theorem routed_append (xs ys : List Event) : routed (xs ++ ys) = routed xs ++ routed ys := by
  induction xs with
  | nil => rfl
  | cons e es ih => cases e <;> simp [routed, ih]

theorem requests_append (xs ys : List Event) :
    requests (xs ++ ys) = requests xs ++ requests ys := by
  induction xs with
  | nil => rfl
  | cons e es ih => cases e <;> simp [requests, ih]

theorem routed_map_go (us : List Update) : routed (us.map Event.goExecuteChain) = us := by
  induction us with
  | nil => rfl
  | cons u us ih => simp [routed, ih]

theorem requests_map_go (us : List Update) : requests (us.map Event.goExecuteChain) = [] := by
  induction us with
  | nil => rfl
  | cons u us ih => simp [requests, ih]

/-- The range loop touches nothing but the trace, to which it appends one
routing task per update it got to. -/
theorem rangeResult_frame (l : List (Option Update)) (lo : Int) (w : World) :
    ∃ us : List Update, (rangeResult l lo w).1 =
      { w with trace := w.trace ++ us.map Event.goExecuteChain } := by
  induction l generalizing lo w with
  | nil => exact ⟨[], by simp [rangeResult]⟩
  | cons x rest ih =>
    cases x with
    | none => exact ⟨[], by simp [rangeResult]⟩
    | some val =>
      obtain ⟨us, hus⟩ := ih (if val.Update_id > lo then val.Update_id else lo)
        (w.emit (Event.goExecuteChain val))
      refine ⟨val :: us, ?_⟩
      simp only [rangeResult]
      rw [hus]
      simp [World.emit]

/-- On a slice without `nil` entries the range loop returns the largest id and
starts the routing tasks in order. -/
theorem rangeResult_updates (us : List Update) (lo : Int) (w : World) :
    rangeResult (us.map some) lo w =
      ({ w with trace := w.trace ++ us.map Event.goExecuteChain }, some (maxId lo us)) := by
  induction us generalizing lo w with
  | nil => simp [rangeResult, maxId]
  | cons u us ih =>
    simp only [List.map_cons, rangeResult]
    rw [ih, if_gt_eq_max]
    simp [World.emit, maxId]

theorem maxId_ge (us : List Update) (lo : Int) : lo ≤ maxId lo us := by
  induction us generalizing lo with
  | nil => simp [maxId]
  | cons u us ih =>
    have := ih (max lo u.Update_id)
    simp only [maxId, List.foldl_cons] at this ⊢
    exact le_trans (le_max_left _ _) this

theorem maxId_ge_mem (us : List Update) (lo : Int) (u : Update) (hu : u ∈ us) :
    u.Update_id ≤ maxId lo us := by
  induction us generalizing lo with
  | nil => cases hu
  | cons v us ih =>
    simp only [maxId, List.foldl_cons]
    rcases List.mem_cons.mp hu with h | h
    · subst h
      exact le_trans (le_max_right _ _) (maxId_ge us _)
    · exact ih _ h

theorem maxId_mem (us : List Update) (lo : Int) :
    maxId lo us = lo ∨ ∃ u ∈ us, maxId lo us = u.Update_id := by
  induction us generalizing lo with
  | nil => left; rfl
  | cons v us ih =>
    simp only [maxId, List.foldl_cons]
    rcases ih (max lo v.Update_id) with h | ⟨u, hu, h⟩
    · simp only [maxId] at h
      rw [h]
      rcases le_total lo v.Update_id with h1 | h1
      · right
        exact ⟨v, List.mem_cons_self _ _, max_eq_right h1⟩
      · left
        exact max_eq_left h1
    · right
      exact ⟨u, List.mem_cons_of_mem _ hu, h⟩

theorem maxId_append (us vs : List Update) (lo : Int) :
    maxId lo (us ++ vs) = maxId (maxId lo us) vs := by
  simp [maxId, List.foldl_append]

theorem maxId_max (us : List Update) (a b : Int) :
    maxId (max a b) us = max a (maxId b us) := by
  induction us generalizing b with
  | nil => simp [maxId]
  | cons u us ih =>
    simp only [maxId, List.foldl_cons] at ih ⊢
    rw [max_assoc]
    exact ih _

/-- What `ParseUpdate` does with a body that decodes to the updates `us`. -/
theorem ParseUpdate_updates (body : Body) (us : List Update) (w : World)
    (hok : body.Ok = Decoded.value true) (hres : body.Result = Decoded.value (us.map some)) :
    ParseUpdate body w =
      ({ w with trace := w.trace ++ us.map Event.goExecuteChain }, some (maxId 0 us, none)) := by
  simp [ParseUpdate, hok, hres, rangeResult_updates]

/-- The world after `ParseUpdate` differs from the one before at most in the
routing tasks appended to the trace. -/
theorem ParseUpdate_frame (body : Body) (w : World) :
    ∃ us : List Update, (ParseUpdate body w).1 =
      { w with trace := w.trace ++ us.map Event.goExecuteChain } := by
  unfold ParseUpdate
  cases body.Ok with
  | failed t => exact ⟨[], by simp⟩
  | value ok =>
    cases ok with
    | false => exact ⟨[], by simp⟩
    | true =>
      cases body.Result with
      | failed t => exact ⟨[], by simp⟩
      | value ur =>
        obtain ⟨us, hus⟩ := rangeResult_frame ur 0 w
        refine ⟨us, ?_⟩
        simp only [Bool.not_true, Bool.false_eq_true, if_false]
        rw [← hus]
        cases h : rangeResult ur 0 w with
        | mk w1 r => cases r <;> rfl

/-- When `ParseUpdate` returns an error the world is untouched. -/
theorem ParseUpdate_error (body : Body) (w : World) (of : Int) (err : Error)
    (h : (ParseUpdate body w).2 = some (of, some err)) :
    (ParseUpdate body w).1 = w ∧ of = 0 := by
  unfold ParseUpdate at h ⊢
  cases hb : body.Ok with
  | failed t =>
    rw [hb] at h
    simp at h ⊢
    exact h.1.symm
  | value ok =>
    rw [hb] at h
    cases ok with
    | false =>
      simp at h ⊢
      exact h.1.symm
    | true =>
      cases hr : body.Result with
      | failed t =>
        rw [hr] at h
        simp at h ⊢
        exact h.1.symm
      | value ur =>
        rw [hr] at h
        simp only [Bool.not_true, Bool.false_eq_true, if_false] at h
        cases h2 : rangeResult ur 0 w with
        | mk w1 r =>
          rw [h2] at h
          cases r <;> simp at h

/-- What `parseUpdateresults` does with a body that decodes to the updates
`us`: the tasks are started and `lastOffset` becomes the largest of its old
value, zero and the ids. -/
theorem parseUpdateresults_updates (body : Body) (us : List Update) (w : World)
    (hok : body.Ok = Decoded.value true) (hres : body.Result = Decoded.value (us.map some)) :
    parseUpdateresults body w =
      ({ w with bai := { w.bai with lastOffset := max w.bai.lastOffset (maxId 0 us) }
                trace := w.trace ++ us.map Event.goExecuteChain }, some none) := by
  unfold parseUpdateresults
  rw [ParseUpdate_updates body us w hok hres]
  simp only
  split_ifs with h
  · rw [max_eq_right (le_of_lt h)]
  · rw [max_eq_left (not_lt.mp h)]

/-- The world after `parseUpdateresults`: routing tasks appended to the trace,
`lastOffset` not lowered, nothing else touched. -/
theorem parseUpdateresults_frame (body : Body) (w : World) :
    ∃ (us : List Update) (lo : Int), w.bai.lastOffset ≤ lo ∧
      (parseUpdateresults body w).1 =
        { w with bai := { w.bai with lastOffset := lo }
                 trace := w.trace ++ us.map Event.goExecuteChain } := by
  obtain ⟨us, hus⟩ := ParseUpdate_frame body w
  unfold parseUpdateresults
  cases h : ParseUpdate body w with
  | mk w1 r =>
    rw [h] at hus
    simp only at hus
    cases r with
    | none => exact ⟨us, w.bai.lastOffset, le_refl _, by simp [hus]⟩
    | some p =>
      obtain ⟨of, e⟩ := p
      cases e with
      | some err => exact ⟨us, w.bai.lastOffset, le_refl _, by simp [hus]⟩
      | none =>
        simp only
        split_ifs with h1
        · refine ⟨us, of, ?_, by simp [hus]⟩
          rw [hus] at h1
          exact le_of_lt h1
        · exact ⟨us, w.bai.lastOffset, le_refl _, by simp [hus]⟩

/-- When `parseUpdateresults` returns an error the world is untouched. -/
theorem parseUpdateresults_error (body : Body) (w : World) (err : Error)
    (h : (parseUpdateresults body w).2 = some (some err)) :
    (parseUpdateresults body w).1 = w ∧ ∃ of, (ParseUpdate body w).2 = some (of, some err) := by
  unfold parseUpdateresults at h ⊢
  cases h1 : ParseUpdate body w with
  | mk w1 r =>
    rw [h1] at h
    cases r with
    | none => simp at h
    | some p =>
      obtain ⟨of, e⟩ := p
      cases e with
      | some err1 =>
        simp only [Option.some.injEq] at h
        subst h
        have := ParseUpdate_error body w of err1 (by rw [h1])
        rw [h1] at this
        exact ⟨this.1, of, rfl⟩
      | none =>
        simp only at h
        split_ifs at h <;> simp at h

/-- The world after one poll cycle: events appended to the trace, the first
of them the transport call, `lastOffset` not lowered, nothing else touched. -/
theorem pollCycle_frame (cl : httpSenderClient) (res : Except Error Body) (w : World) :
    ∃ (evs : List Event) (lo : Int), w.bai.lastOffset ≤ lo ∧
      requests evs = [] ∧
      (pollCycle cl res w).1 =
        { w with bai := { w.bai with lastOffset := lo }
                 trace := w.trace ++
                   Event.sendHttpReqJson cl "getUpdates" (getUpdatesArgs w.bai) :: evs } := by
  unfold pollCycle
  cases res with
  | error err =>
    exact ⟨[Event.Println "Error receiving updates." err], w.bai.lastOffset, le_refl _, rfl,
      by simp [World.emit]⟩
  | ok body =>
    obtain ⟨us, lo, hlo, hw⟩ := parseUpdateresults_frame body
      (w.emit (Event.sendHttpReqJson cl "getUpdates" (getUpdatesArgs w.bai)))
    simp only
    cases h : parseUpdateresults body
      (w.emit (Event.sendHttpReqJson cl "getUpdates" (getUpdatesArgs w.bai))) with
    | mk w2 r =>
      rw [h] at hw
      simp only at hw
      cases r with
      | none =>
        exact ⟨us.map Event.goExecuteChain, lo, hlo, requests_map_go us,
          by simp [hw, World.emit]⟩
      | some e =>
        cases e with
        | none =>
          exact ⟨us.map Event.goExecuteChain, lo, hlo, requests_map_go us,
            by simp [hw, World.emit]⟩
        | some err =>
          refine ⟨us.map Event.goExecuteChain ++
            [Event.Println "Error parsing the result of the update. " err], lo, hlo, ?_, ?_⟩
          · rw [requests_append, requests_map_go]
            rfl
          · simp [hw, World.emit]

/-- With no stop signal pending a pass of the loop is the sleep followed by a
poll cycle. -/
theorem iteration_of_not_stopPending (cl : httpSenderClient) (res : Except Error Body)
    (w : World) (h : stopPending w = false) :
    iteration cl res w =
      pollCycle cl res (w.emit (Event.Sleep w.bai.botConfigs.UpdateConfigs.UpdateFrequency)) := by
  unfold iteration
  unfold stopPending at h
  simp only [emit_bai, emit_blocked]
  cases hch : w.bai.updateRoutineChannel with
  | none => rfl
  | some ch =>
    rw [hch] at h
    simp only [decide_eq_false_iff_not] at h
    simp [h]

/-- With a stop signal pending a pass of the loop takes the signal and leaves
the loop; nothing is fetched. -/
theorem iteration_of_stopPending (cl : httpSenderClient) (res : Except Error Body)
    (w : World) (h : stopPending w = true) :
    iteration cl res w =
      ({ w with blocked := w.blocked.erase w.bai.updateRoutineChannel
                trace := w.trace ++ [Event.Sleep w.bai.botConfigs.UpdateConfigs.UpdateFrequency] },
        Flow.exit) := by
  unfold iteration
  unfold stopPending at h
  simp only [emit_bai, emit_blocked]
  cases hch : w.bai.updateRoutineChannel with
  | none => rw [hch] at h; simp at h
  | some ch =>
    rw [hch] at h
    simp only [decide_eq_true_eq] at h
    simp [h, World.emit]

/-- One pass of the loop never lowers `lastOffset` and touches no other field
of the interface. -/
theorem iteration_bai (cl : httpSenderClient) (res : Except Error Body) (w : World) :
    ∃ lo : Int, w.bai.lastOffset ≤ lo ∧
      (iteration cl res w).1.bai = { w.bai with lastOffset := lo } := by
  cases h : stopPending w with
  | true =>
    rw [iteration_of_stopPending cl res w h]
    exact ⟨w.bai.lastOffset, le_refl _, rfl⟩
  | false =>
    rw [iteration_of_not_stopPending cl res w h]
    obtain ⟨evs, lo, hlo, -, hw⟩ := pollCycle_frame cl res
      (w.emit (Event.Sleep w.bai.botConfigs.UpdateConfigs.UpdateFrequency))
    exact ⟨lo, hlo, by rw [hw]; rfl⟩

/-- Running the loop never lowers `lastOffset` and touches no other field of
the interface. -/
theorem receiveLoop_bai (cl : httpSenderClient) (rs : List (Except Error Body)) (w : World) :
    ∃ lo : Int, w.bai.lastOffset ≤ lo ∧
      (receiveLoop cl rs w).1.bai = { w.bai with lastOffset := lo } := by
  induction rs generalizing w with
  | nil => exact ⟨w.bai.lastOffset, le_refl _, rfl⟩
  | cons res rs ih =>
    obtain ⟨lo, hlo, hw⟩ := iteration_bai cl res w
    unfold receiveLoop
    cases h : iteration cl res w with
    | mk w1 f =>
      rw [h] at hw
      simp only at hw
      cases f with
      | next =>
        obtain ⟨lo2, hlo2, hw2⟩ := ih w1
        refine ⟨lo2, ?_, ?_⟩
        · rw [hw] at hlo2
          exact le_trans hlo hlo2
        · simp only
          rw [hw2, hw]
      | exit => exact ⟨lo, hlo, hw⟩
      | panicked => exact ⟨lo, hlo, hw⟩

theorem maxId_zero_append (us vs : List Update) (a : Int) :
    max (max a (maxId 0 us)) (maxId 0 vs) = max a (maxId 0 (us ++ vs)) := by
  have h0 : maxId 0 us = max (maxId 0 us) 0 := (max_eq_left (maxId_ge us 0)).symm
  rw [maxId_append, h0, maxId_max, max_assoc]
  rw [← h0]

/-- In a strictly increasing list every entry is at most the last one. -/
theorem le_getLast_of_pairwise (l : List Int) (hne : l ≠ []) (h : l.Pairwise (· < ·))
    (i : Int) (hi : i ∈ l) : i ≤ l.getLast hne := by
  rw [← List.dropLast_append_getLast hne] at h hi
  rcases List.mem_append.mp hi with h1 | h1
  · exact le_of_lt ((List.pairwise_append.mp h).2.2 i h1 _ (List.mem_singleton_self _))
  · exact le_of_eq (List.mem_singleton.mp h1)

/-- A pass of the loop on a batch that decodes to the updates `us`, no stop
signal pending. -/
theorem iteration_batch (cl : httpSenderClient) (us : List Update) (w : World)
    (h : stopPending w = false) :
    iteration cl (Except.ok (batchBody us)) w =
      ({ w with bai := { w.bai with lastOffset := max w.bai.lastOffset (maxId 0 us) }
                trace := w.trace ++
                  [Event.Sleep w.bai.botConfigs.UpdateConfigs.UpdateFrequency,
                   Event.sendHttpReqJson cl "getUpdates" (getUpdatesArgs w.bai)] ++
                  us.map Event.goExecuteChain }, Flow.next) := by
  rw [iteration_of_not_stopPending cl _ w h]
  unfold pollCycle
  simp only
  rw [parseUpdateresults_updates (batchBody us) us _ rfl rfl]
  simp [World.emit]

/-- The loop run on batches that decode, no stop signal pending and
`lastOffset` not negative: it keeps running, `lastOffset` becomes the largest
of its old value and all ids, and one routing task per update is started, in
order. -/
theorem receiveLoop_batches (cl : httpSenderClient) (batches : List (List Update)) (w : World)
    (h : stopPending w = false) (h0 : 0 ≤ w.bai.lastOffset) :
    (receiveLoop cl (batches.map fun us => Except.ok (batchBody us)) w).2 = Flow.next ∧
    (receiveLoop cl (batches.map fun us => Except.ok (batchBody us)) w).1.bai =
      { w.bai with lastOffset := max w.bai.lastOffset (maxId 0 batches.flatten) } ∧
    (receiveLoop cl (batches.map fun us => Except.ok (batchBody us)) w).1.blocked = w.blocked ∧
    routed (receiveLoop cl (batches.map fun us => Except.ok (batchBody us)) w).1.trace =
      routed w.trace ++ batches.flatten := by
  induction batches generalizing w with
  | nil =>
    refine ⟨rfl, ?_, rfl, by simp [receiveLoop]⟩
    simp only [List.map_nil, receiveLoop, List.flatten_nil, maxId, List.foldl_nil]
    rw [max_eq_left h0]
  | cons us rest ih =>
    simp only [List.map_cons, receiveLoop, iteration_batch cl us w h, List.flatten_cons]
    have hs : stopPending
        { w with bai := { w.bai with lastOffset := max w.bai.lastOffset (maxId 0 us) }
                 trace := w.trace ++
                   [Event.Sleep w.bai.botConfigs.UpdateConfigs.UpdateFrequency,
                    Event.sendHttpReqJson cl "getUpdates" (getUpdatesArgs w.bai)] ++
                   us.map Event.goExecuteChain } = false := h
    obtain ⟨i1, i2, i3, i4⟩ := ih _ hs (le_trans h0 (le_max_left _ _))
    refine ⟨i1, ?_, i3, ?_⟩
    · rw [i2]
      simp only
      rw [maxId_zero_append]
    · rw [i4]
      simp [routed_append, routed_map_go, routed]

theorem initialWorld_example : initialWorld exampleConfigs 0 = some exampleWorld := rfl

theorem receiveLoop_append (cl : httpSenderClient) (rs rs2 : List (Except Error Body))
    (w : World) :
    receiveLoop cl (rs ++ rs2) w =
      match receiveLoop cl rs w with
      | (w1, Flow.next) => receiveLoop cl rs2 w1
      | (w1, Flow.exit) => (w1, Flow.exit)
      | (w1, Flow.panicked) => (w1, Flow.panicked) := by
  induction rs generalizing w with
  | nil => simp [receiveLoop]
  | cons res rs ih =>
    simp only [List.cons_append, receiveLoop]
    cases h : iteration cl res w with
    | mk w1 f =>
      cases f with
      | next => exact ih w1
      | exit => rfl
      | panicked => rfl

theorem getUpdatesArgs_eq (bai : BotAPIInterface) :
    getUpdatesArgs bai =
      { Offset := wrapInt (bai.lastOffset + 1)
        Limit := bai.botConfigs.UpdateConfigs.Limit
        Timeout := bai.botConfigs.UpdateConfigs.Timeout
        AllowedUpdates := bai.botConfigs.UpdateConfigs.AllowedUpdates } := by
  unfold getUpdatesArgs
  cases h : bai.botConfigs.UpdateConfigs.AllowedUpdates <;> simp

/-- The offset the range loop returns is its starting value or one of the
ids. -/
theorem rangeResult_bound (l : List (Option Update)) (lo : Int) (w : World) (bound : Int)
    (hlo : lo < bound) (hl : ∀ u, some u ∈ l → u.Update_id < bound) (x : Int)
    (hx : (rangeResult l lo w).2 = some x) : x < bound := by
  induction l generalizing lo w with
  | nil =>
    simp only [rangeResult, Option.some.injEq] at hx
    rw [← hx]
    exact hlo
  | cons y rest ih =>
    cases y with
    | none => simp [rangeResult] at hx
    | some val =>
      simp only [rangeResult] at hx
      refine ih _ _ ?_ (fun u hu => hl u (List.mem_cons_of_mem _ hu)) hx
      split_ifs
      · exact hl val (List.mem_cons_self _ _)
      · exact hlo

/-- A poll cycle keeps `lastOffset` below the largest `int` when the ids it
receives are. -/
theorem pollCycle_bound (cl : httpSenderClient) (res : Except Error Body) (w : World)
    (hres : idsBelowMaxInt res) (hlo : w.bai.lastOffset < maxInt) :
    (pollCycle cl res w).1.bai.lastOffset < maxInt := by
  unfold pollCycle
  cases res with
  | error err => exact hlo
  | ok body =>
    simp only
    have key : (parseUpdateresults body
        (w.emit (Event.sendHttpReqJson cl "getUpdates" (getUpdatesArgs w.bai)))).1.bai.lastOffset <
        maxInt := by
      obtain ⟨us, hus⟩ := ParseUpdate_frame body
        (w.emit (Event.sendHttpReqJson cl "getUpdates" (getUpdatesArgs w.bai)))
      unfold parseUpdateresults
      cases hp : ParseUpdate body
          (w.emit (Event.sendHttpReqJson cl "getUpdates" (getUpdatesArgs w.bai))) with
      | mk w1 r =>
        rw [hp] at hus
        simp only at hus
        cases r with
        | none =>
          simp only
          rw [hus]
          exact hlo
        | some pr =>
          obtain ⟨of, e⟩ := pr
          cases e with
          | some err =>
            simp only
            rw [hus]
            exact hlo
          | none =>
            simp only
            split_ifs
            · simp only
              unfold ParseUpdate at hp
              cases hok : body.Ok with
              | failed t => rw [hok] at hp; simp at hp
              | value ok =>
                rw [hok] at hp
                cases ok with
                | false => simp at hp
                | true =>
                  cases hr : body.Result with
                  | failed t => rw [hr] at hp; simp at hp
                  | value ur =>
                    rw [hr] at hp
                    simp only [Bool.not_true, Bool.false_eq_true, if_false] at hp
                    cases hrr : rangeResult ur 0
                        (w.emit (Event.sendHttpReqJson cl "getUpdates" (getUpdatesArgs w.bai))) with
                    | mk w2 x =>
                      rw [hrr] at hp
                      cases x with
                      | none => simp at hp
                      | some v =>
                        simp only [Prod.mk.injEq, Option.some.injEq, and_true] at hp
                        rw [← hp.2]
                        exact rangeResult_bound ur 0 _ maxInt (by decide)
                          (fun u hu => hres body ur u rfl hr hu) v (by rw [hrr])
            · rw [hus]
              exact hlo
    cases hq : parseUpdateresults body
        (w.emit (Event.sendHttpReqJson cl "getUpdates" (getUpdatesArgs w.bai))) with
    | mk w2 r =>
      rw [hq] at key
      cases r with
      | none => exact key
      | some e => cases e <;> exact key

/-- The requests of a run of the loop from a world whose `lastOffset` is at
least `m` and below the largest `int`, the ids received staying below the
largest `int`: each asks for an offset of at least `m + 1`. -/
theorem receiveLoop_later_requests (cl : httpSenderClient) (rs : List (Except Error Body))
    (w : World) (m : Int) (h0 : 0 ≤ m) (hm : m ≤ w.bai.lastOffset)
    (hlo : w.bai.lastOffset < maxInt) (hrs : ∀ res ∈ rs, idsBelowMaxInt res) :
    ∃ newer : List (httpSenderClient × String × GetUpdatesArgs),
      requests (receiveLoop cl rs w).1.trace = requests w.trace ++ newer ∧
      ∀ r ∈ newer, m + 1 ≤ r.2.2.Offset := by
  induction rs generalizing w with
  | nil => exact ⟨[], by simp [receiveLoop], by simp⟩
  | cons res rs ih =>
    cases hs : stopPending w with
    | true =>
      refine ⟨[], ?_, by simp⟩
      simp only [receiveLoop]
      rw [iteration_of_stopPending cl res w hs]
      simp [requests_append, requests]
    | false =>
      have hit := iteration_of_not_stopPending cl res w hs
      obtain ⟨evs, lo, hle, hreq, hw⟩ := pollCycle_frame cl res
        (w.emit (Event.Sleep w.bai.botConfigs.UpdateConfigs.UpdateFrequency))
      have hb := pollCycle_bound cl res
        (w.emit (Event.Sleep w.bai.botConfigs.UpdateConfigs.UpdateFrequency))
        (hrs res (List.mem_cons_self _ _)) hlo
      have hoff : m + 1 ≤ (getUpdatesArgs w.bai).Offset := by
        rw [getUpdatesArgs_eq]
        simp only
        rw [wrapInt_of_range]
        · omega
        · unfold minInt
          omega
        · unfold maxInt at hlo ⊢
          omega
      have htrace : requests (iteration cl res w).1.trace =
          requests w.trace ++ [(cl, "getUpdates", getUpdatesArgs w.bai)] := by
        rw [hit, hw]
        simp [emit_bai, emit_trace, requests_append, requests, hreq]
      have hlo1 : (iteration cl res w).1.bai.lastOffset < maxInt := by
        rw [hit]
        exact hb
      have hm1 : m ≤ (iteration cl res w).1.bai.lastOffset := by
        rw [hit, hw]
        exact le_trans hm hle
      simp only [receiveLoop]
      cases hi : iteration cl res w with
      | mk w1 f =>
        rw [hi] at htrace hlo1 hm1
        simp only at htrace hlo1 hm1
        cases f with
        | next =>
          obtain ⟨newer, hn1, hn2⟩ := ih w1 hm1 hlo1
            (fun r hr => hrs r (List.mem_cons_of_mem _ hr))
          refine ⟨(cl, "getUpdates", getUpdatesArgs w.bai) :: newer, ?_, ?_⟩
          · simp only
            rw [hn1, htrace]
            simp
          · intro r hr
            rcases List.mem_cons.mp hr with h | h
            · rw [h]
              exact hoff
            · exact hn2 r h
        | exit =>
          refine ⟨[(cl, "getUpdates", getUpdatesArgs w.bai)], htrace, ?_⟩
          intro r hr
          rw [List.mem_singleton.mp hr]
          exact hoff
        | panicked =>
          refine ⟨[(cl, "getUpdates", getUpdatesArgs w.bai)], htrace, ?_⟩
          intro r hr
          rw [List.mem_singleton.mp hr]
          exact hoff

/-! ## The cursor -/

/-- C1, as stated, fails: a batch that parses with the single positive id
9223372036854775807, the largest `int`, processed from the initial state,
leaves `lastOffset` at that id and the cursor, `lastOffset + 1` as Go computes
it, at -9223372036854775808, which is not that id plus one and is below it;
the next cycle asks for this offset. -/
theorem cursor_wraps_at_largest_int :
    exampleWorld.bai.lastOffset = 0 ∧
    stopPending exampleWorld = false ∧
    (∀ u ∈ [[updateMaxInt]].flatten, 0 < u.Update_id) ∧
    ([[updateMaxInt]].flatten.map Update.Update_id).Pairwise (· < ·) ∧
    (startReceiving [Except.ok (batchBody [updateMaxInt])] exampleWorld).1.bai.lastOffset =
      9223372036854775807 ∧
    Cursor (startReceiving [Except.ok (batchBody [updateMaxInt])] exampleWorld).1 =
      -9223372036854775808 ∧
    Cursor (startReceiving [Except.ok (batchBody [updateMaxInt])] exampleWorld).1 ≠
      updateMaxInt.Update_id + 1 ∧
    (requests (startReceiving [Except.ok (batchBody [updateMaxInt]),
        Except.error (Error.Http "timeout")] exampleWorld).1.trace).map (fun r => r.2.2.Offset) =
      [1, -9223372036854775808] := by
  decide

/-- C1, amended. Batches that parse, with positive and strictly increasing
update ids below the largest `int`, processed by the poller from the initial
offset (`lastOffset = 0`, no stop signal pending): the loop keeps running,
one routing task per update has been started, `lastOffset` is the largest id
seen (the last one), the cursor is that id plus one and so above every id
seen, and as long as the ids received stay below the largest `int` every
request issued afterwards asks for an offset of at least that id plus one,
whatever the transport returns. -/
theorem cursor_after_increasing_batches (w : World) (batches : List (List Update))
    (hinit : w.bai.lastOffset = 0) (hrun : stopPending w = false)
    (hne : batches.flatten ≠ [])
    (hpos : ∀ u ∈ batches.flatten, 0 < u.Update_id)
    (hinc : (batches.flatten.map Update.Update_id).Pairwise (· < ·))
    (hlt : ∀ u ∈ batches.flatten, u.Update_id < maxInt) :
    (startReceiving (batches.map fun us => Except.ok (batchBody us)) w).2 = Flow.next ∧
    routed (startReceiving (batches.map fun us => Except.ok (batchBody us)) w).1.trace =
      routed w.trace ++ batches.flatten ∧
    (∀ u ∈ batches.flatten, u.Update_id ≤ (batches.flatten.getLast hne).Update_id) ∧
    (startReceiving (batches.map fun us => Except.ok (batchBody us)) w).1.bai.lastOffset =
      (batches.flatten.getLast hne).Update_id ∧
    Cursor (startReceiving (batches.map fun us => Except.ok (batchBody us)) w).1 =
      (batches.flatten.getLast hne).Update_id + 1 ∧
    (∀ u ∈ batches.flatten,
      u.Update_id < Cursor (startReceiving (batches.map fun us => Except.ok (batchBody us)) w).1) ∧
    ∀ later : List (Except Error Body), (∀ res ∈ later, idsBelowMaxInt res) →
      ∃ newer : List (httpSenderClient × String × GetUpdatesArgs),
        requests (startReceiving later
          (startReceiving (batches.map fun us => Except.ok (batchBody us)) w).1).1.trace =
          requests (startReceiving (batches.map fun us => Except.ok (batchBody us)) w).1.trace ++
            newer ∧
        ∀ r ∈ newer, (batches.flatten.getLast hne).Update_id + 1 ≤ r.2.2.Offset := by
  have hlast : ∀ u ∈ batches.flatten, u.Update_id ≤ (batches.flatten.getLast hne).Update_id := by
    intro u hu
    have hne2 : batches.flatten.map Update.Update_id ≠ [] := by simpa using hne
    have := le_getLast_of_pairwise _ hne2 hinc u.Update_id (List.mem_map_of_mem _ hu)
    rwa [List.getLast_map] at this
  have hmpos : 0 < (batches.flatten.getLast hne).Update_id := hpos _ (List.getLast_mem hne)
  have hmlt : (batches.flatten.getLast hne).Update_id < maxInt := hlt _ (List.getLast_mem hne)
  have hmax : maxId 0 batches.flatten = (batches.flatten.getLast hne).Update_id := by
    apply le_antisymm
    · rcases maxId_mem batches.flatten 0 with h | ⟨u, hu, h⟩
      · rw [h]
        exact le_of_lt hmpos
      · rw [h]
        exact hlast u hu
    · exact maxId_ge_mem _ _ _ (List.getLast_mem hne)
  obtain ⟨h1, h2, -, h4⟩ := receiveLoop_batches
    { botApi := w.bai.botConfigs.BotAPI, apiKey := w.bai.botConfigs.APIKey } batches w hrun
    (le_of_eq hinit.symm)
  have hlo : (startReceiving (batches.map fun us => Except.ok (batchBody us)) w).1.bai.lastOffset =
      (batches.flatten.getLast hne).Update_id := by
    unfold startReceiving
    simp only
    rw [h2, hinit, hmax]
    exact max_eq_right (le_of_lt hmpos)
  have hcur : Cursor (startReceiving (batches.map fun us => Except.ok (batchBody us)) w).1 =
      (batches.flatten.getLast hne).Update_id + 1 := by
    unfold Cursor
    rw [hlo]
    apply wrapInt_of_range
    · unfold minInt
      omega
    · unfold maxInt at hmlt ⊢
      omega
  refine ⟨h1, h4, hlast, hlo, hcur, ?_, ?_⟩
  · intro u hu
    rw [hcur]
    have := hlast u hu
    omega
  · intro later hlater
    exact receiveLoop_later_requests _ later
      (startReceiving (batches.map fun us => Except.ok (batchBody us)) w).1
      (batches.flatten.getLast hne).Update_id (le_of_lt hmpos) (le_of_eq hlo.symm)
      (by rw [hlo]; exact hmlt) hlater

/-- The scenario of the specification: the batch with ids 10 and 11, from the
initial state, leaves the cursor at 12. -/
theorem cursor_after_increasing_batches_witness :
    exampleWorld.bai.lastOffset = 0 ∧
    Cursor (startReceiving [Except.ok (batchBody [update10, update11])] exampleWorld).1 = 12 :=
  ⟨rfl, (cursor_after_increasing_batches exampleWorld [[update10, update11]] rfl rfl
    (by decide) (by decide) (by decide) (by decide)).2.2.2.2.1⟩

/-- C2. The value of `lastOffset` never goes down: not in a poll cycle,
whatever the transport returns and whatever the body decodes to, not in a
pass of the loop, and not from one cycle to the next in any run of the
loop. -/
theorem lastOffset_non_decreasing (cl : httpSenderClient) (res : Except Error Body)
    (rs : List (Except Error Body)) (w : World) :
    w.bai.lastOffset ≤ (pollCycle cl res w).1.bai.lastOffset ∧
    w.bai.lastOffset ≤ (iteration cl res w).1.bai.lastOffset ∧
    (receiveLoop cl rs w).1.bai.lastOffset ≤ (receiveLoop cl (rs ++ [res]) w).1.bai.lastOffset ∧
    (startReceiving rs w).1.bai.lastOffset ≤ (startReceiving (rs ++ [res]) w).1.bai.lastOffset := by
  have hstep : ∀ cl : httpSenderClient,
      (receiveLoop cl rs w).1.bai.lastOffset ≤
        (receiveLoop cl (rs ++ [res]) w).1.bai.lastOffset := by
    intro cl
    rw [receiveLoop_append]
    cases h : receiveLoop cl rs w with
    | mk w1 f =>
      cases f with
      | next =>
        obtain ⟨lo, hlo, hw⟩ := receiveLoop_bai cl [res] w1
        simp only
        rw [hw]
        exact hlo
      | exit => exact le_refl _
      | panicked => exact le_refl _
  refine ⟨?_, ?_, hstep cl, hstep _⟩
  · obtain ⟨evs, lo, hlo, -, hw⟩ := pollCycle_frame cl res w
    rw [hw]
    exact hlo
  · obtain ⟨lo, hlo, hw⟩ := iteration_bai cl res w
    rw [hw]
    exact hlo

/-- C3. A poll cycle whose transport call fails: the call and one log line
are all that happens, no routing task is started, the interface (with
`lastOffset`) is what it was, the loop goes on, and the cycle after it asks
for the same offset with the same arguments. -/
theorem transport_failure_skips_cycle (cl : httpSenderClient) (err : Error)
    (next : Except Error Body) (w : World) :
    pollCycle cl (Except.error err) w =
      ({ w with trace := w.trace ++
          [Event.sendHttpReqJson cl "getUpdates" (getUpdatesArgs w.bai),
           Event.Println "Error receiving updates." err] }, Flow.next) ∧
    (pollCycle cl (Except.error err) w).1.bai = w.bai ∧
    (pollCycle cl (Except.error err) w).1.bai.lastOffset = w.bai.lastOffset ∧
    Cursor (pollCycle cl (Except.error err) w).1 = Cursor w ∧
    routed (pollCycle cl (Except.error err) w).1.trace = routed w.trace ∧
    requests (pollCycle cl next (pollCycle cl (Except.error err) w).1).1.trace =
      requests w.trace ++
        [(cl, "getUpdates", getUpdatesArgs w.bai), (cl, "getUpdates", getUpdatesArgs w.bai)] := by
  have h : pollCycle cl (Except.error err) w =
      ({ w with trace := w.trace ++
          [Event.sendHttpReqJson cl "getUpdates" (getUpdatesArgs w.bai),
           Event.Println "Error receiving updates." err] }, Flow.next) := by
    simp [pollCycle, World.emit]
  refine ⟨h, by rw [h], by rw [h], by rw [h]; rfl, ?_, ?_⟩
  · rw [h]
    simp [routed_append, routed]
  · obtain ⟨evs, lo, -, hreq, hw⟩ := pollCycle_frame cl next (pollCycle cl (Except.error err) w).1
    rw [hw, h]
    simp [requests_append, requests, hreq]

theorem unmarshalItems_updates (us : List Update) :
    unmarshalItems (us.map Item.update) = Decoded.value (us.map some) := by
  induction us with
  | nil => rfl
  | cons u us ih => simp [unmarshalItems, ih]

theorem unmarshalItems_malformed (items : List Item) (t : String)
    (h : Item.malformed t ∈ items) : ∃ text, unmarshalItems items = Decoded.failed text := by
  induction items with
  | nil => cases h
  | cons it rest ih =>
    cases it with
    | malformed t1 => exact ⟨t1, rfl⟩
    | update u =>
      have hmem : Item.malformed t ∈ rest := by simpa using h
      obtain ⟨text, ht⟩ := ih hmem
      exact ⟨text, by simp [unmarshalItems, ht]⟩
    | null =>
      have hmem : Item.malformed t ∈ rest := by simpa using h
      obtain ⟨text, ht⟩ := ih hmem
      exact ⟨text, by simp [unmarshalItems, ht]⟩

/-- A poll cycle on a body whose second decoding fails. -/
theorem pollCycle_result_failed (cl : httpSenderClient) (body : Body) (text : String) (w : World)
    (hok : body.Ok = Decoded.value true) (hres : body.Result = Decoded.failed text) :
    pollCycle cl (Except.ok body) w =
      ({ w with trace := w.trace ++
          [Event.sendHttpReqJson cl "getUpdates" (getUpdatesArgs w.bai),
           Event.Println "Error parsing the result of the update. " (Error.Unmarshal text)] },
        Flow.next) := by
  simp [pollCycle, parseUpdateresults, ParseUpdate, hok, hres, World.emit]

/-- An array without an item that does not fit decodes; a `null` item gives a
`nil` pointer. -/
theorem unmarshalItems_null (items : List Item)
    (hmal : ∀ t : String, Item.malformed t ∉ items) :
    ∃ l, unmarshalItems items = Decoded.value l ∧ (Item.null ∈ items → none ∈ l) := by
  induction items with
  | nil => exact ⟨[], rfl, fun h => by cases h⟩
  | cons it rest ih =>
    obtain ⟨l, hl, hn⟩ := ih (fun t ht => hmal t (List.mem_cons_of_mem _ ht))
    cases it with
    | malformed t1 => exact absurd (List.mem_cons_self _ _) (hmal t1)
    | update u =>
      refine ⟨some u :: l, by simp [unmarshalItems, hl], fun h => ?_⟩
      have hmem : Item.null ∈ rest := by simpa using h
      exact List.mem_cons_of_mem _ (hn hmem)
    | null =>
      exact ⟨none :: l, by simp [unmarshalItems, hl], fun _ => List.mem_cons_self _ _⟩

/-- The loop of `ParseUpdate` over a slice with a `nil` pointer panics; the
interface is as it was. -/
theorem rangeResult_nil (l : List (Option Update)) (h : none ∈ l) (lastOffset : Int)
    (w : World) :
    (rangeResult l lastOffset w).2 = none ∧ (rangeResult l lastOffset w).1.bai = w.bai := by
  induction l generalizing lastOffset w with
  | nil => cases h
  | cons x rest ih =>
    cases x with
    | none => exact ⟨rfl, rfl⟩
    | some val =>
      have hmem : none ∈ rest := by simpa using h
      simp only [rangeResult]
      exact ih hmem _ _

/-- A poll cycle on a body whose result holds a `nil` pointer panics; the
interface, with `lastOffset`, is as it was. -/
theorem pollCycle_nil (cl : httpSenderClient) (body : Body) (l : List (Option Update))
    (w : World) (hok : body.Ok = Decoded.value true) (hres : body.Result = Decoded.value l)
    (h : none ∈ l) :
    (pollCycle cl (Except.ok body) w).2 = Flow.panicked ∧
    (pollCycle cl (Except.ok body) w).1.bai = w.bai := by
  obtain ⟨h1, h2⟩ := rangeResult_nil l h 0
    (w.emit (Event.sendHttpReqJson cl "getUpdates" (getUpdatesArgs w.bai)))
  simp only [pollCycle, parseUpdateresults, ParseUpdate, hok, hres, Bool.not_true,
    Bool.false_eq_true, if_false]
  cases hr : rangeResult l 0
      (w.emit (Event.sendHttpReqJson cl "getUpdates" (getUpdatesArgs w.bai))) with
  | mk w1 r =>
    rw [hr] at h1 h2
    simp only at h1 h2
    subst h1
    exact ⟨rfl, h2⟩

/-! ## Rejected and undecodable bodies -/

/-- C4, as stated, fails: for a body that does not decode at all `ParseUpdate`
returns the error of the decoder, which is no `MethodNotSentError`. -/
theorem undecodable_body_error_is_not_MethodNotSentError :
    (ParseUpdate undecodableBody exampleWorld).2 =
      some (0, some (Error.Unmarshal "unexpected end of JSON input")) ∧
    ¬ ∃ (of : Int) (method reason : String),
      (ParseUpdate undecodableBody exampleWorld).2 =
        some (of, some (Error.MethodNotSentError method reason)) := by
  refine ⟨rfl, ?_⟩
  rintro ⟨of, method, reason, h⟩
  simp [ParseUpdate, undecodableBody] at h

/-- C4, amended. A body that decodes with `ok = false`: `ParseUpdate` returns
offset 0 and a `MethodNotSentError` for `getUpdates`, and leaves the world as
it was (nothing routed); `parseUpdateresults` returns that error and leaves
the world, with `lastOffset`, as it was. A body that does not decode at all:
the same, except that the error is the one of the decoder. -/
theorem rejected_or_undecodable_body (body : Body) (w : World) :
    (body.Ok = Decoded.value false →
      ParseUpdate body w = (w, some (0, some (Error.MethodNotSentError "getUpdates"
        "server returned false for \x22ok\x22 field."))) ∧
      parseUpdateresults body w = (w, some (some (Error.MethodNotSentError "getUpdates"
        "server returned false for \x22ok\x22 field.")))) ∧
    (∀ text : String, body.Ok = Decoded.failed text →
      ParseUpdate body w = (w, some (0, some (Error.Unmarshal text))) ∧
      parseUpdateresults body w = (w, some (some (Error.Unmarshal text)))) := by
  constructor
  · intro h
    simp [parseUpdateresults, ParseUpdate, h]
  · intro text h
    simp [parseUpdateresults, ParseUpdate, h]

/-- Both cases of the amended C4 on concrete bodies. -/
theorem rejected_or_undecodable_body_witness :
    (parseUpdateresults rejectionBody pollingWorld =
      (pollingWorld, some (some (Error.MethodNotSentError "getUpdates"
        "server returned false for \x22ok\x22 field.")))) ∧
    (parseUpdateresults undecodableBody pollingWorld =
      (pollingWorld, some (some (Error.Unmarshal
        "unexpected end of JSON input")))) :=
  ⟨((rejected_or_undecodable_body rejectionBody pollingWorld).1 rfl).2,
   ((rejected_or_undecodable_body undecodableBody pollingWorld).2 _ rfl).2⟩

/-! ## Advancing the cursor within a batch -/

/-- C5, as stated, fails: a batch whose first item is the update with id 10
and whose second item does not decode leaves `lastOffset` at 0 and the cursor
at 1, below 10 + 1, and starts no routing task. -/
theorem later_item_failure_blocks_cursor :
    Item.update update10 ∈ [Item.update update10, Item.malformed "cannot unmarshal"] ∧
    (pollCycle exampleClient
      (Except.ok (itemsBody [Item.update update10, Item.malformed "cannot unmarshal"]))
      pollingWorld).1.bai.lastOffset = 0 ∧
    Cursor (pollCycle exampleClient
      (Except.ok (itemsBody [Item.update update10, Item.malformed "cannot unmarshal"]))
      pollingWorld).1 = 1 ∧
    ¬ (update10.Update_id + 1 ≤ Cursor (pollCycle exampleClient
      (Except.ok (itemsBody [Item.update update10, Item.malformed "cannot unmarshal"]))
      pollingWorld).1) ∧
    routed (pollCycle exampleClient
      (Except.ok (itemsBody [Item.update update10, Item.malformed "cannot unmarshal"]))
      pollingWorld).1.trace = [] := by
  decide

/-- C5, amended. The cursor moves once per batch, not item by item. When every
item of the fetched batch is an update object, the poll cycle starts one
routing task per update, in order, without waiting for any of them, and then
sets `lastOffset` to the largest of its old value, zero and the ids: it is at
least every id of the batch, and the cursor is at least every id plus one as
long as `lastOffset` is below the largest `int`. When an item of the batch
does not decode, the cycle starts no routing task and leaves the interface,
with `lastOffset`, as it was. When every item decodes and one of them is
`null`, the cycle panics and leaves the interface, with `lastOffset`, as it
was. -/
theorem cursor_advances_once_per_decoded_batch (cl : httpSenderClient) (items : List Item)
    (w : World) :
    (∀ us : List Update, items = us.map Item.update →
      pollCycle cl (Except.ok (itemsBody items)) w =
        ({ w with bai := { w.bai with lastOffset := max w.bai.lastOffset (maxId 0 us) }
                  trace := w.trace ++
                    Event.sendHttpReqJson cl "getUpdates" (getUpdatesArgs w.bai) ::
                      us.map Event.goExecuteChain }, Flow.next) ∧
      ∀ u ∈ us,
        u.Update_id ≤ (pollCycle cl (Except.ok (itemsBody items)) w).1.bai.lastOffset ∧
        ((pollCycle cl (Except.ok (itemsBody items)) w).1.bai.lastOffset < maxInt →
          u.Update_id + 1 ≤ Cursor (pollCycle cl (Except.ok (itemsBody items)) w).1)) ∧
    (∀ t : String, Item.malformed t ∈ items →
      (pollCycle cl (Except.ok (itemsBody items)) w).1.bai = w.bai ∧
      (pollCycle cl (Except.ok (itemsBody items)) w).2 = Flow.next ∧
      routed (pollCycle cl (Except.ok (itemsBody items)) w).1.trace = routed w.trace) ∧
    ((∀ t : String, Item.malformed t ∉ items) → Item.null ∈ items →
      (pollCycle cl (Except.ok (itemsBody items)) w).1.bai = w.bai ∧
      (pollCycle cl (Except.ok (itemsBody items)) w).2 = Flow.panicked) := by
  refine ⟨?_, ?_, ?_⟩
  rotate_left
  · intro t ht
    obtain ⟨text, htext⟩ := unmarshalItems_malformed items t ht
    rw [pollCycle_result_failed cl (itemsBody items) text w rfl htext]
    refine ⟨rfl, rfl, ?_⟩
    simp [routed_append, routed]
  · intro hmal hnull
    obtain ⟨l, hl, hn⟩ := unmarshalItems_null items hmal
    obtain ⟨h1, h2⟩ := pollCycle_nil cl (itemsBody items) l w rfl hl (hn hnull)
    exact ⟨h2, h1⟩
  · intro us hitems
    have h : pollCycle cl (Except.ok (itemsBody items)) w =
        ({ w with bai := { w.bai with lastOffset := max w.bai.lastOffset (maxId 0 us) }
                  trace := w.trace ++
                    Event.sendHttpReqJson cl "getUpdates" (getUpdatesArgs w.bai) ::
                      us.map Event.goExecuteChain }, Flow.next) := by
      unfold pollCycle
      simp only
      rw [parseUpdateresults_updates (itemsBody items) us _ rfl
        (by rw [hitems]; exact unmarshalItems_updates us)]
      simp [World.emit]
    refine ⟨h, ?_⟩
    intro u hu
    rw [h]
    have hle : u.Update_id ≤ max w.bai.lastOffset (maxId 0 us) :=
      le_trans (maxId_ge_mem us 0 u hu) (le_max_right _ _)
    refine ⟨hle, ?_⟩
    intro hlt
    have h0 : (0 : Int) ≤ max w.bai.lastOffset (maxId 0 us) :=
      le_trans (maxId_ge us 0) (le_max_right _ _)
    show _ ≤ wrapInt (max w.bai.lastOffset (maxId 0 us) + 1)
    simp only at hlt
    rw [wrapInt_of_range]
    · omega
    · unfold minInt
      omega
    · unfold maxInt at hlt ⊢
      omega

/-- The cases of the amended C5 on the scenario of the specification, and on a
batch whose second item is `null`. -/
theorem cursor_advances_once_per_decoded_batch_witness :
    (pollCycle exampleClient
      (Except.ok (itemsBody [Item.update update10, Item.update update11]))
      pollingWorld).1.bai.lastOffset = 11 ∧
    (pollCycle exampleClient
      (Except.ok (itemsBody [Item.update update10, Item.malformed "cannot unmarshal"]))
      pollingWorld).1.bai = pollingWorld.bai ∧
    (pollCycle exampleClient
      (Except.ok (itemsBody [Item.update update10, Item.null]))
      pollingWorld).2 = Flow.panicked := by
  refine ⟨?_, ?_, ?_⟩
  · rw [((cursor_advances_once_per_decoded_batch exampleClient
      [Item.update update10, Item.update update11] pollingWorld).1
        [update10, update11] rfl).1]
    decide
  · exact ((cursor_advances_once_per_decoded_batch exampleClient
      [Item.update update10, Item.malformed "cannot unmarshal"] pollingWorld).2.1
        "cannot unmarshal" (by decide)).1
  · exact ((cursor_advances_once_per_decoded_batch exampleClient
      [Item.update update10, Item.null] pollingWorld).2.2
        (fun t h => by simp at h) (by decide)).2

/-! ## Routing tasks -/

/-- C6. A body that parses with the updates `us` as its result: `ParseUpdate`
returns without error and appends to the trace exactly one `go ExecuteChain`
per update of `us`, in the order of the batch, and nothing else. Whenever
`ParseUpdate` returns an error the world is what it was: no task has been
started. -/
theorem ParseUpdate_starts_one_task_per_update (body : Body) (w : World) :
    (∀ us : List Update, body.Ok = Decoded.value true →
      body.Result = Decoded.value (us.map some) →
      (ParseUpdate body w).2 = some (maxId 0 us, none) ∧
      (ParseUpdate body w).1.trace = w.trace ++ us.map Event.goExecuteChain ∧
      routed (ParseUpdate body w).1.trace = routed w.trace ++ us ∧
      (routed (ParseUpdate body w).1.trace).length = (routed w.trace).length + us.length) ∧
    (∀ (of : Int) (err : Error), (ParseUpdate body w).2 = some (of, some err) →
      (ParseUpdate body w).1 = w ∧
      routed (ParseUpdate body w).1.trace = routed w.trace) := by
  constructor
  · intro us hok hres
    rw [ParseUpdate_updates body us w hok hres]
    refine ⟨rfl, rfl, ?_, ?_⟩
    · simp [routed_append, routed_map_go]
    · simp [routed_append, routed_map_go]
  · intro of err h
    have := (ParseUpdate_error body w of err h).1
    exact ⟨this, by rw [this]⟩

/-- The scenario of the specification, and a rejected body. -/
theorem ParseUpdate_starts_one_task_per_update_witness :
    routed (ParseUpdate (batchBody [update10, update11]) exampleWorld).1.trace =
      [update10, update11] ∧
    (ParseUpdate rejectionBody exampleWorld).1 = exampleWorld :=
  ⟨((ParseUpdate_starts_one_task_per_update (batchBody [update10, update11]) exampleWorld).1
      [update10, update11] rfl rfl).2.2.1,
   ((ParseUpdate_starts_one_task_per_update rejectionBody exampleWorld).2 0
      (Error.MethodNotSentError "getUpdates" "server returned false for \x22ok\x22 field.")
      rfl).1⟩

/-! ## The request of a poll cycle -/

/-- C7. A pass of the loop with no stop signal pending issues exactly one
transport call: method `getUpdates`, with offset the cursor (`lastOffset + 1`),
limit, timeout and allowed updates those of the configuration (`nil` when
none is configured). The arguments are the same for any two interfaces that
agree on `lastOffset` and on these three settings. The call goes through the
client `startReceiving` builds from `BotAPI` and `APIKey`. -/
theorem getUpdates_request (cl : httpSenderClient) (res : Except Error Body) (w : World)
    (h : stopPending w = false) :
    requests (iteration cl res w).1.trace =
      requests w.trace ++
        [(cl, "getUpdates",
          { Offset := Cursor w
            Limit := w.bai.botConfigs.UpdateConfigs.Limit
            Timeout := w.bai.botConfigs.UpdateConfigs.Timeout
            AllowedUpdates := w.bai.botConfigs.UpdateConfigs.AllowedUpdates })] ∧
    requests (startReceiving [res] w).1.trace =
      requests w.trace ++
        [({ botApi := w.bai.botConfigs.BotAPI, apiKey := w.bai.botConfigs.APIKey }, "getUpdates",
          { Offset := Cursor w
            Limit := w.bai.botConfigs.UpdateConfigs.Limit
            Timeout := w.bai.botConfigs.UpdateConfigs.Timeout
            AllowedUpdates := w.bai.botConfigs.UpdateConfigs.AllowedUpdates })] ∧
    (w.bai.botConfigs.UpdateConfigs.AllowedUpdates = none →
      (getUpdatesArgs w.bai).AllowedUpdates = none) ∧
    ∀ b1 b2 : BotAPIInterface, b1.lastOffset = b2.lastOffset →
      b1.botConfigs.UpdateConfigs.Limit = b2.botConfigs.UpdateConfigs.Limit →
      b1.botConfigs.UpdateConfigs.Timeout = b2.botConfigs.UpdateConfigs.Timeout →
      b1.botConfigs.UpdateConfigs.AllowedUpdates = b2.botConfigs.UpdateConfigs.AllowedUpdates →
      getUpdatesArgs b1 = getUpdatesArgs b2 := by
  have key : ∀ cl : httpSenderClient, requests (iteration cl res w).1.trace =
      requests w.trace ++
        [(cl, "getUpdates",
          { Offset := Cursor w
            Limit := w.bai.botConfigs.UpdateConfigs.Limit
            Timeout := w.bai.botConfigs.UpdateConfigs.Timeout
            AllowedUpdates := w.bai.botConfigs.UpdateConfigs.AllowedUpdates })] := by
    intro cl
    rw [iteration_of_not_stopPending cl res w h]
    obtain ⟨evs, lo, -, hreq, hw⟩ := pollCycle_frame cl res
      (w.emit (Event.Sleep w.bai.botConfigs.UpdateConfigs.UpdateFrequency))
    rw [hw]
    simp only [emit_bai, emit_trace, requests_append, requests, hreq, getUpdatesArgs_eq, Cursor]
    simp
  refine ⟨key cl, ?_, ?_, ?_⟩
  · have := key { botApi := w.bai.botConfigs.BotAPI, apiKey := w.bai.botConfigs.APIKey }
    unfold startReceiving
    simp only [receiveLoop]
    cases hi : iteration { botApi := w.bai.botConfigs.BotAPI, apiKey := w.bai.botConfigs.APIKey }
        res w with
    | mk w1 f =>
      rw [hi] at this
      cases f <;> exact this
  · intro hnone
    rw [getUpdatesArgs_eq]
    exact hnone
  · intro b1 b2 h1 h2 h3 h4
    rw [getUpdatesArgs_eq, getUpdatesArgs_eq, h1, h2, h3, h4]

/-- The first request of the polling example asks for offset 1. -/
theorem getUpdates_request_witness :
    stopPending pollingWorld = false ∧
    requests (iteration exampleClient (Except.error (Error.Http "timeout")) pollingWorld).1.trace =
      [(exampleClient, "getUpdates",
        { Offset := 1, Limit := 100, Timeout := 0, AllowedUpdates := some ["message"] })] :=
  ⟨rfl, (getUpdates_request exampleClient (Except.error (Error.Http "timeout")) pollingWorld
    rfl).1⟩

/-! ## Starting and stopping the routine -/

/-- C8. `StartUpdateRoutine` returns `nil` exactly when webhook is off and the
routine is not running, `UpdateRoutineAlreadyStarted` exactly when webhook is
off and the routine is running, and the error "webhook option is true"
exactly when webhook is on, running or not. -/
theorem StartUpdateRoutine_result (w : World) :
    ((StartUpdateRoutine w).2 = none ↔
      (w.bai.botConfigs.Webhook = false ∧ w.bai.updateRoutineRunning = false)) ∧
    ((StartUpdateRoutine w).2 = some Error.UpdateRoutineAlreadyStarted ↔
      (w.bai.botConfigs.Webhook = false ∧ w.bai.updateRoutineRunning = true)) ∧
    ((StartUpdateRoutine w).2 = some (Error.New "webhook option is true") ↔
      w.bai.botConfigs.Webhook = true) := by
  unfold StartUpdateRoutine
  cases hweb : w.bai.botConfigs.Webhook <;> cases hrun : w.bai.updateRoutineRunning <;>
    simp [World.make, World.emit]

/-- C9. When `StartUpdateRoutine` returns an error the world is what it was:
no field of the interface has changed, no channel was made and nothing was
started. When it returns `nil` the routine was not running before,
`updateRoutineRunning` is now true, `updateRoutineChannel` is a channel made
by this call (so not one made before, and no sender waits on it), one
`go startReceiving` has been appended to the trace, and nothing else has
changed. -/
theorem StartUpdateRoutine_frame (w : World) :
    ((StartUpdateRoutine w).2 ≠ none → (StartUpdateRoutine w).1 = w) ∧
    ((StartUpdateRoutine w).2 = none →
      w.bai.updateRoutineRunning = false ∧
      (StartUpdateRoutine w).1 =
        { w with bai := { w.bai with updateRoutineRunning := true
                                     updateRoutineChannel := some w.chans }
                 chans := w.chans + 1
                 trace := w.trace ++ [Event.goStartReceiving] } ∧
      (StartUpdateRoutine w).1.bai.lastOffset = w.bai.lastOffset ∧
      ((∀ ch, w.bai.updateRoutineChannel = some ch → ch < w.chans) →
        (StartUpdateRoutine w).1.bai.updateRoutineChannel ≠ w.bai.updateRoutineChannel) ∧
      ((∀ ch, some ch ∈ w.blocked → ch < w.chans) →
        stopPending (StartUpdateRoutine w).1 = false)) := by
  unfold StartUpdateRoutine
  cases hweb : w.bai.botConfigs.Webhook <;> cases hrun : w.bai.updateRoutineRunning <;>
    simp [World.make, World.emit, stopPending]
  constructor
  · intro hch heq
    exact absurd (hch _ heq.symm) (lt_irrefl _)
  · intro hb hmem
    exact absurd (hb _ hmem) (lt_irrefl _)

/-- A failed start (the routine is running) and a successful one. -/
theorem StartUpdateRoutine_frame_witness :
    (StartUpdateRoutine pollingWorld).1 = pollingWorld ∧
    (StartUpdateRoutine exampleWorld).1.bai.updateRoutineChannel = some 2 ∧
    stopPending (StartUpdateRoutine exampleWorld).1 = false := by
  refine ⟨(StartUpdateRoutine_frame pollingWorld).1 (by decide), ?_, ?_⟩
  · rw [((StartUpdateRoutine_frame exampleWorld).2 rfl).2.1]
    rfl
  · exact ((StartUpdateRoutine_frame exampleWorld).2 rfl).2.2.2.2
      (fun ch hch => by simp [exampleWorld] at hch)

/-- C10, as stated, fails: on an interface configured for webhook delivery a
`StartUpdateRoutine` that follows a `StopUpdateRoutine` does not succeed. -/
theorem start_after_stop_fails_under_webhook :
    (StartUpdateRoutine (StopUpdateRoutine webhookWorld)).2 =
      some (Error.New "webhook option is true") ∧
    (StartUpdateRoutine (StopUpdateRoutine webhookWorld)).2 ≠ none := by
  decide

/-- C10, amended. `StopUpdateRoutine` leaves `updateRoutineRunning` false and
changes no other field of the interface (`lastOffset` and the configuration
among them), makes no channel and starts nothing. It sends the stop signal on
`updateRoutineChannel` exactly when the routine was marked running; on an
interface not marked running it does nothing at all. A `StartUpdateRoutine`
that follows it never fails with `UpdateRoutineAlreadyStarted`: it succeeds
when webhook is off and fails with the webhook error when webhook is on. -/
theorem StopUpdateRoutine_effect (w : World) :
    (StopUpdateRoutine w).bai = { w.bai with updateRoutineRunning := false } ∧
    (StopUpdateRoutine w).bai.updateRoutineRunning = false ∧
    (StopUpdateRoutine w).bai.lastOffset = w.bai.lastOffset ∧
    (StopUpdateRoutine w).bai.botConfigs = w.bai.botConfigs ∧
    (StopUpdateRoutine w).chans = w.chans ∧
    (StopUpdateRoutine w).trace = w.trace ∧
    (StopUpdateRoutine w).blocked =
      (if w.bai.updateRoutineRunning then w.blocked ++ [w.bai.updateRoutineChannel]
       else w.blocked) ∧
    (w.bai.updateRoutineRunning = false → StopUpdateRoutine w = w) ∧
    (StartUpdateRoutine (StopUpdateRoutine w)).2 ≠ some Error.UpdateRoutineAlreadyStarted ∧
    (StartUpdateRoutine (StopUpdateRoutine w)).2 =
      (if w.bai.botConfigs.Webhook then some (Error.New "webhook option is true") else none) := by
  unfold StopUpdateRoutine StartUpdateRoutine
  cases hweb : w.bai.botConfigs.Webhook <;> cases hrun : w.bai.updateRoutineRunning <;>
    simp [World.make, World.emit, World.send, hweb, hrun]
  all_goals
    cases w with
    | mk bai chans blocked trace =>
      cases bai
      simp_all

/-- Stopping the polling example signals on its channel and lets it start
again; stopping the interface that never started does nothing. -/
theorem StopUpdateRoutine_effect_witness :
    (StopUpdateRoutine pollingWorld).blocked = [some 2] ∧
    StopUpdateRoutine exampleWorld = exampleWorld ∧
    (StartUpdateRoutine (StopUpdateRoutine pollingWorld)).2 = none := by
  refine ⟨?_, (StopUpdateRoutine_effect exampleWorld).2.2.2.2.2.2.2.1 rfl, ?_⟩
  · rw [(StopUpdateRoutine_effect pollingWorld).2.2.2.2.2.2.1]
    rfl
  · rw [(StopUpdateRoutine_effect pollingWorld).2.2.2.2.2.2.2.2.2]
    rfl

/-! ## Leaving the loop -/

theorem sent_append (xs ys : List Event) : sent (xs ++ ys) = sent xs ++ sent ys := by
  induction xs with
  | nil => rfl
  | cons e es ih => cases e <;> simp [sent, ih]

/-- C11. With a stop signal pending at the loop boundary the pass of the loop
takes the signal and leaves the loop: only the sleep is added to the trace,
no transport call is issued in that pass nor, however many results the
transport has in store, afterwards; the interface is untouched and the
routing tasks started before are still in the trace. `StopUpdateRoutine` on
a running routine makes the signal pending and leaves the trace as it is. -/
theorem stop_pending_exits_without_fetch (cl : httpSenderClient) (res : Except Error Body)
    (rs : List (Except Error Body)) (w : World) (h : stopPending w = true) :
    (iteration cl res w).2 = Flow.exit ∧
    (iteration cl res w).1.trace =
      w.trace ++ [Event.Sleep w.bai.botConfigs.UpdateConfigs.UpdateFrequency] ∧
    receiveLoop cl (res :: rs) w = iteration cl res w ∧
    requests (receiveLoop cl (res :: rs) w).1.trace = requests w.trace ∧
    routed (receiveLoop cl (res :: rs) w).1.trace = routed w.trace ∧
    (receiveLoop cl (res :: rs) w).1.bai = w.bai ∧
    (startReceiving (res :: rs) w).2 = Flow.exit ∧
    requests (startReceiving (res :: rs) w).1.trace = requests w.trace ∧
    routed (startReceiving (res :: rs) w).1.trace = routed w.trace ∧
    (∀ w0 : World, w0.bai.updateRoutineRunning = true → w0.bai.updateRoutineChannel ≠ none →
      stopPending (StopUpdateRoutine w0) = true ∧
      (StopUpdateRoutine w0).trace = w0.trace) := by
  have hloop : ∀ cl : httpSenderClient, receiveLoop cl (res :: rs) w = iteration cl res w := by
    intro cl
    simp only [receiveLoop]
    rw [iteration_of_stopPending cl res w h]
  have hreq : ∀ cl : httpSenderClient, requests (iteration cl res w).1.trace = requests w.trace := by
    intro cl
    rw [iteration_of_stopPending cl res w h]
    simp [requests_append, requests]
  have hrouted : ∀ cl : httpSenderClient, routed (iteration cl res w).1.trace = routed w.trace := by
    intro cl
    rw [iteration_of_stopPending cl res w h]
    simp [routed_append, routed]
  refine ⟨?_, ?_, hloop cl, ?_, ?_, ?_, ?_, ?_, ?_, ?_⟩
  · rw [iteration_of_stopPending cl res w h]
  · rw [iteration_of_stopPending cl res w h]
  · rw [hloop, hreq]
  · rw [hloop, hrouted]
  · rw [hloop, iteration_of_stopPending cl res w h]
  · unfold startReceiving
    simp only
    rw [hloop, iteration_of_stopPending _ res w h]
  · unfold startReceiving
    simp only
    rw [hloop, hreq]
  · unfold startReceiving
    simp only
    rw [hloop, hrouted]
  · intro w0 hrun hch
    unfold StopUpdateRoutine
    rw [hrun]
    simp only [if_true]
    cases hc : w0.bai.updateRoutineChannel with
    | none => exact absurd hc hch
    | some ch => simp [stopPending, World.send, hc]

/-- Stopping the polling example during its sleep: the next pass leaves the
loop and no request has been issued. -/
theorem stop_pending_exits_without_fetch_witness :
    stopPending (StopUpdateRoutine pollingWorld) = true ∧
    (startReceiving [Except.ok (batchBody [update10])] (StopUpdateRoutine pollingWorld)).2 =
      Flow.exit ∧
    requests
      (startReceiving [Except.ok (batchBody [update10])] (StopUpdateRoutine pollingWorld)).1.trace =
        [] :=
  ⟨rfl,
   (stop_pending_exits_without_fetch exampleClient (Except.ok (batchBody [update10])) []
      (StopUpdateRoutine pollingWorld) rfl).2.2.2.2.2.2.1,
   (stop_pending_exits_without_fetch exampleClient (Except.ok (batchBody [update10])) []
      (StopUpdateRoutine pollingWorld) rfl).2.2.2.2.2.2.2.1⟩

/-! ## One interface per process -/

theorem createCalls_created (calls : List (BotConfigs × Nat)) (chans : Nat) :
    createCalls calls true chans =
      calls.map fun _ => (none, some Error.BotInterfaceAlreadyCreated) := by
  induction calls with
  | nil => rfl
  | cons c rest ih =>
    obtain ⟨botCfg, botLogger⟩ := c
    simp [createCalls, CreateInterface, ih]

theorem guardAfter_created (calls : List (BotConfigs × Nat)) (chans : Nat) :
    guardAfter calls true chans = true := by
  induction calls with
  | nil => rfl
  | cons c rest ih =>
    obtain ⟨botCfg, botLogger⟩ := c
    simp [guardAfter, CreateInterface, ih]

/-- C12. With the guard not set `CreateInterface` returns an interface and no
error and sets the guard; with the guard set it returns no interface and
`BotInterfaceAlreadyCreated`, makes no channel and leaves the guard set. So
of any calls made one after the other in a fresh process the first returns
an interface and every later one the error, whatever its arguments, and the
guard is set after the calls, as it is after every single call. -/
theorem CreateInterface_single_instance (calls : List (BotConfigs × Nat)) (botCfg : BotConfigs)
    (botLogger chans : Nat) (interfaceCreated : Bool) :
    (∃ bai, CreateInterface false chans botCfg botLogger = (true, chans + 2, some bai, none)) ∧
    CreateInterface true chans botCfg botLogger =
      (true, chans, none, some Error.BotInterfaceAlreadyCreated) ∧
    (CreateInterface interfaceCreated chans botCfg botLogger).1 = true ∧
    (∃ bai, createCalls ((botCfg, botLogger) :: calls) false chans =
      (some bai, none) :: calls.map fun _ => (none, some Error.BotInterfaceAlreadyCreated)) ∧
    guardAfter ((botCfg, botLogger) :: calls) interfaceCreated chans = true := by
  refine ⟨⟨_, rfl⟩, rfl, ?_, ?_, ?_⟩
  · cases interfaceCreated <;> rfl
  · exact ⟨_, by rw [← createCalls_created calls (chans + 2)]; rfl⟩
  · cases interfaceCreated <;> simp [guardAfter, CreateInterface, guardAfter_created]

/-! ## The offset returned by `ParseUpdate` -/

/-- C13. For a body that parses with the updates `us` as its result
`ParseUpdate` returns, without error, the largest of zero and the ids of
`us`: a number that is at least zero and at least every id, and that is zero
or one of the ids. It is the id of the last update when the ids are positive
and strictly increasing, and zero when `us` is empty or no id is positive. -/
theorem ParseUpdate_returns_largest_id (body : Body) (us : List Update) (w : World)
    (hok : body.Ok = Decoded.value true) (hres : body.Result = Decoded.value (us.map some)) :
    (ParseUpdate body w).2 = some (maxId 0 us, none) ∧
    0 ≤ maxId 0 us ∧
    (∀ u ∈ us, u.Update_id ≤ maxId 0 us) ∧
    (maxId 0 us = 0 ∨ ∃ u ∈ us, maxId 0 us = u.Update_id) ∧
    (∀ hne : us ≠ [], (∀ u ∈ us, 0 < u.Update_id) →
      (us.map Update.Update_id).Pairwise (· < ·) →
      (ParseUpdate body w).2 = some ((us.getLast hne).Update_id, none)) ∧
    (us = [] → (ParseUpdate body w).2 = some (0, none)) ∧
    ((∀ u ∈ us, u.Update_id ≤ 0) → (ParseUpdate body w).2 = some (0, none)) := by
  have hret : (ParseUpdate body w).2 = some (maxId 0 us, none) := by
    rw [ParseUpdate_updates body us w hok hres]
  refine ⟨hret, maxId_ge us 0, fun u hu => maxId_ge_mem us 0 u hu, maxId_mem us 0, ?_, ?_, ?_⟩
  · intro hne hpos hinc
    rw [hret]
    have hlast : ∀ u ∈ us, u.Update_id ≤ (us.getLast hne).Update_id := by
      intro u hu
      have hne2 : us.map Update.Update_id ≠ [] := by simpa using hne
      have := le_getLast_of_pairwise _ hne2 hinc u.Update_id (List.mem_map_of_mem _ hu)
      rwa [List.getLast_map] at this
    have : maxId 0 us = (us.getLast hne).Update_id := by
      apply le_antisymm
      · rcases maxId_mem us 0 with h | ⟨u, hu, h⟩
        · rw [h]
          exact le_of_lt (hpos _ (List.getLast_mem hne))
        · rw [h]
          exact hlast u hu
      · exact maxId_ge_mem _ _ _ (List.getLast_mem hne)
    rw [this]
  · intro hnil
    rw [hret, hnil]
    rfl
  · intro hnonpos
    rw [hret]
    have : maxId 0 us = 0 := by
      apply le_antisymm
      · rcases maxId_mem us 0 with h | ⟨u, hu, h⟩
        · rw [h]
        · rw [h]
          exact hnonpos u hu
      · exact maxId_ge us 0
    rw [this]

/-- The scenario of the specification returns 11, an empty batch returns 0. -/
theorem ParseUpdate_returns_largest_id_witness :
    (ParseUpdate (batchBody [update10, update11]) exampleWorld).2 = some (11, none) ∧
    (ParseUpdate (batchBody []) exampleWorld).2 = some (0, none) :=
  ⟨(ParseUpdate_returns_largest_id (batchBody [update10, update11]) [update10, update11]
      exampleWorld rfl rfl).2.2.2.2.1 (by decide) (by decide) (by decide),
   (ParseUpdate_returns_largest_id (batchBody []) [] exampleWorld rfl rfl).2.2.2.2.2.1 rfl⟩

/-! ## Outbound methods -/

theorem unmarshalResult_fst {α : Type} (r : World × Except Error (Response α)) :
    (unmarshalResult r).1 = r.1 := by
  obtain ⟨w, e⟩ := r
  cases e with
  | error err => rfl
  | ok res =>
    simp only [unmarshalResult]
    cases res.Result <;> rfl

/-- The method `SendCustom` makes one transport call, adds one line to the log
and touches nothing else. -/
theorem SendCustom_world {α : Type} (methodName : String) (args : MethodArguments)
    (files : List (Option Nat)) (res : Except Error (Response α)) (w : World) :
    ∃ status : String, (SendCustom methodName args false files res w).1 =
      { w with trace := w.trace ++
        [Event.sendCustomJson
           { botApi := w.bai.botConfigs.BotAPI, apiKey := w.bai.botConfigs.APIKey }
           methodName args,
         Event.Log methodName status] } := by
  cases res with
  | error err => exact ⟨"Error  ", by simp [SendCustom, World.emit]⟩
  | ok r => exact ⟨"Success", by simp [SendCustom, World.emit]⟩

theorem SendCustom_sent {α : Type} (methodName : String) (args : MethodArguments)
    (files : List (Option Nat)) (res : Except Error (Response α)) (w : World) :
    sent (SendCustom methodName args false files res w).1.trace =
      sent w.trace ++ [(methodName, args)] := by
  obtain ⟨status, h⟩ := SendCustom_world methodName args files res w
  rw [h]
  simp [sent_append, sent]

/-- C14 fails on the code: with neither chat id populated `SendMessage` makes
no transport call and returns a `RequiredArgumentError`, not the
`ChatIdProblem` its documentation promises. -/
theorem SendMessage_without_chat_id_returns_RequiredArgumentError {α : Type}
    (text parseMode : String) (entities : List Nat)
    (disable_web_page_preview disable_notification allow_sending_without_reply ProtectContent : Bool)
    (reply_to_message_id messageThreadId : Int) (reply_markup : Nat)
    (res : Except Error (Response α)) (w : World) :
    SendMessage 0 "" text parseMode entities disable_web_page_preview disable_notification
        allow_sending_without_reply ProtectContent reply_to_message_id messageThreadId
        reply_markup res w =
      (w, Except.error (Error.RequiredArgumentError "chatIdInt or chatIdString" "sendMessage")) ∧
    Error.RequiredArgumentError "chatIdInt or chatIdString" "sendMessage" ≠ Error.ChatIdProblem := by
  constructor
  · simp [SendMessage, isChatIdOk]
  · intro h
    cases h

/-- C15 fails on the code: for the chat id 5 `SendVenue` makes one transport
call, with the venue in its arguments, but under the method name `sendVnue`,
which is not `sendVenue`. -/
theorem SendVenue_calls_sendVnue {α : Type} (latitude longitude : float32)
    (title address fourSquareId fourSquareType googlePlaceId googlePlaceType : String)
    (reply_to_message_id messageThreadId : Int)
    (disable_notification allow_sending_without_reply ProtectContent : Bool) (reply_markup : Nat)
    (res : Except Error (Response α)) (w : World) :
    sent (SendVenue 5 "" latitude longitude title address fourSquareId fourSquareType
        googlePlaceId googlePlaceType reply_to_message_id messageThreadId disable_notification
        allow_sending_without_reply ProtectContent reply_markup res w).1.trace =
      sent w.trace ++
        [("sendVnue", MethodArguments.SendVenueArgs
          { DefaultSendMethodsArguments :=
              { ChatId := Marshalled.int 5
                DisableNotification := disable_notification
                AllowSendingWithoutReply := allow_sending_without_reply
                ProtectContent := ProtectContent
                ReplyToMessageId := reply_to_message_id
                ReplyMarkup := reply_markup
                MessageThreadId := messageThreadId }
            Latitude := latitude
            Longitude := longitude
            Title := title
            Address := address
            FoursquareId := fourSquareId
            FoursquareType := fourSquareType
            GooglePlaceId := googlePlaceId
            GooglePlaceType := googlePlaceType })] ∧
    ("sendVnue" : String) ≠ "sendVenue" := by
  constructor
  · simp [SendVenue, isChatIdOk, unmarshalResult_fst, SendCustom_sent, fixTheDefaultArguments,
      fixChatId]
  · decide

/-- C16 fails on the code: `ExportChatInviteLink` makes one transport call, with
the chat id built by `fixChatId`, but under the method name
`exprotChatInviteLink`, which is not `exportChatInviteLink`. -/
theorem ExportChatInviteLink_calls_exprotChatInviteLink {α : Type} (chatIdInt : Int)
    (chatIdString : String) (res : Except Error (Response α)) (w : World) :
    sent (ExportChatInviteLink chatIdInt chatIdString res w).1.trace =
      sent w.trace ++
        [("exprotChatInviteLink",
          MethodArguments.DefaultChatArgs { ChatId := some (fixChatId chatIdInt chatIdString) })] ∧
    ("exprotChatInviteLink" : String) ≠ "exportChatInviteLink" := by
  constructor
  · simp only [ExportChatInviteLink, unmarshalResult_fst, SendCustom_sent]
  · decide

/-- C19. The method `BanOrUnbanChatSenderChat` makes exactly one transport
call: under the name `banChatSenderChat` when `ban` is true and
`unbanChatSenderChat` when it is false, in both cases with the chat id built
by `fixChatId` from the two chat id arguments and with `senderChatId`. -/
theorem BanOrUnbanChatSenderChat_call {α : Type} (chatIdInt : Int) (chatIdString : String)
    (senderChatId : Int) (ban : Bool) (res : Except Error (Response α)) (w : World) :
    sent (BanOrUnbanChatSenderChat chatIdInt chatIdString senderChatId ban res w).1.trace =
      sent w.trace ++
        [(if ban then "banChatSenderChat" else "unbanChatSenderChat",
          MethodArguments.BanChatSenderChatArgs
            { ChatId := some (fixChatId chatIdInt chatIdString), SenderChatId := senderChatId })] ∧
    sent (BanOrUnbanChatSenderChat chatIdInt chatIdString senderChatId true res w).1.trace =
      sent w.trace ++
        [("banChatSenderChat", MethodArguments.BanChatSenderChatArgs
            { ChatId := some (fixChatId chatIdInt chatIdString), SenderChatId := senderChatId })] ∧
    sent (BanOrUnbanChatSenderChat chatIdInt chatIdString senderChatId false res w).1.trace =
      sent w.trace ++
        [("unbanChatSenderChat", MethodArguments.BanChatSenderChatArgs
            { ChatId := some (fixChatId chatIdInt chatIdString), SenderChatId := senderChatId })] := by
  refine ⟨?_, ?_, ?_⟩ <;>
    simp only [BanOrUnbanChatSenderChat, unmarshalResult_fst, SendCustom_sent] <;>
    rfl

/-! ## Downloading a file -/

/-- C17 fails on the code: given the open file 4, when the server answers 404
and when the copy fails `DownloadFile` returns without having closed the
file. -/
theorem DownloadFile_leaves_file_open :
    (DownloadFile (some exampleFile) (some 4) notFoundEnv exampleWorld).2 =
      some (some (Error.MethodNotSentError "getFile" "server returned status code 404")) ∧
    Event.Close 4 ∉ (DownloadFile (some exampleFile) (some 4) notFoundEnv exampleWorld).1.trace ∧
    (DownloadFile (some exampleFile) (some 4) copyFailsEnv exampleWorld).2 =
      some (some (Error.Os "unexpected EOF")) ∧
    Event.Close 4 ∉ (DownloadFile (some exampleFile) (some 4) copyFailsEnv exampleWorld).1.trace ∧
    Event.Close 4 ∈ (DownloadFile (some exampleFile) (some 4) downloadOkEnv exampleWorld).1.trace := by
  decide

theorem splitChars_last (sep : Char) (l : List Char) :
    ∃ pre last : List Char, (splitChars sep l).getLast? = some last ∧ l = pre ++ last ∧
      sep ∉ last ∧
      ((pre = [] ∧ (splitChars sep l).length = 1) ∨
        (pre.getLast? = some sep ∧ 2 ≤ (splitChars sep l).length)) := by
  induction l with
  | nil => exact ⟨[], [], rfl, rfl, by simp, Or.inl ⟨rfl, rfl⟩⟩
  | cons c cs ih =>
    obtain ⟨pre, last, h1, h2, h3, h4⟩ := ih
    by_cases hc : c = sep
    · refine ⟨c :: pre, last, ?_, by rw [h2]; simp, h3, Or.inr ⟨?_, ?_⟩⟩
      · simp only [splitChars, hc, if_true]
        cases hs : splitChars sep cs with
        | nil => rw [hs] at h1; simp at h1
        | cons p ps => rw [hs] at h1; rw [List.getLast?_cons_cons]; exact h1
      · rcases h4 with ⟨hp, -⟩ | ⟨hp, -⟩
        · rw [hp, hc]; rfl
        · cases pre with
          | nil => simp at hp
          | cons x xs => rw [List.getLast?_cons_cons]; exact hp
      · simp only [splitChars, hc, if_true, List.length_cons]
        rcases h4 with ⟨-, hl⟩ | ⟨-, hl⟩ <;> omega
    · cases hs : splitChars sep cs with
      | nil => rw [hs] at h1; simp at h1
      | cons p ps =>
        rw [hs] at h1 h4
        rcases h4 with ⟨hp, hl⟩ | ⟨hp, hl⟩
        · have hps : ps = [] := by
            cases ps with
            | nil => rfl
            | cons q qs => simp at hl
          subst hps
          have hlast : p = last := by simpa using h1
          subst hlast
          refine ⟨[], c :: p, ?_, ?_, ?_, Or.inl ⟨rfl, ?_⟩⟩
          · simp [splitChars, hc, hs]
          · rw [h2, hp]; rfl
          · intro hmem
            rcases List.mem_cons.mp hmem with h | h
            · exact hc h.symm
            · exact h3 h
          · simp [splitChars, hc, hs]
        · cases ps with
          | nil => simp at hl
          | cons q qs =>
            refine ⟨c :: pre, last, ?_, by rw [h2]; simp, h3, Or.inr ⟨?_, ?_⟩⟩
            · simp only [splitChars, hc, if_false, hs]
              rw [List.getLast?_cons_cons] at h1 ⊢
              exact h1
            · cases pre with
              | nil => simp at hp
              | cons x xs => rw [List.getLast?_cons_cons]; exact hp
            · simp [splitChars, hc, hs]

/-- C18. For every `FilePath`, `strings.Split` yields at least one piece, so the
index `len(ar)-1` is in range and the index expression does not panic; the
name taken is what follows the last `/` of the path (the whole path if it
has none, the empty string if the path is empty or ends in `/`) and holds no
`/`. A `DownloadFile` with a `nil` file does not panic; when its request to
the server succeeds it calls `os.OpenFile` once, with that name, right after
the request, and on a status below 300 it copies into the file opened under
that name and closes it; when the request fails it opens no file. -/
theorem DownloadFile_name_is_last_segment (FilePath : String) (env : DownloadEnv) (w : World) :
    ∃ name pre : String,
      0 ≤ ((Split FilePath '/').length : Int) - 1 ∧
      ((Split FilePath '/').length : Int) - 1 < (Split FilePath '/').length ∧
      index (Split FilePath '/') (((Split FilePath '/').length : Int) - 1) = some name ∧
      (Split FilePath '/').getLast? = some name ∧
      FilePath = pre ++ name ∧
      '/' ∉ name.data ∧
      (pre = "" ∨ pre.data.getLast? = some '/') ∧
      (openTarget { FilePath := FilePath } none env w).1.trace =
        w.trace ++ [Event.OpenFile name] ∧
      (openTarget { FilePath := FilePath } none env w).2 ≠ none ∧
      (DownloadFile (some { FilePath := FilePath }) none env w).2 ≠ none ∧
      (∀ status : Int, env.Get = Except.ok status →
        ∃ rest : List Event,
          (DownloadFile (some { FilePath := FilePath }) none env w).1.trace =
            w.trace ++
              Event.httpGet ("https://api.telegram.org/file/bot" ++ w.bai.botConfigs.APIKey ++
                "/" ++ FilePath) :: Event.OpenFile name :: rest ∧
          ∀ other : String, Event.OpenFile other ∉ rest) ∧
      (∀ (status : Int) (f : Nat), env.Get = Except.ok status → env.OpenFile = Except.ok f →
        status < 300 → env.Copy = none →
        DownloadFile (some { FilePath := FilePath }) none env w =
          ({ w with trace := w.trace ++
              [Event.httpGet ("https://api.telegram.org/file/bot" ++ w.bai.botConfigs.APIKey ++
                "/" ++ FilePath), Event.OpenFile name, Event.Copy f, Event.Close f] },
            some env.Close)) ∧
      (∀ err : Error, env.Get = Except.error err →
        DownloadFile (some { FilePath := FilePath }) none env w =
          ({ w with trace := w.trace ++
              [Event.httpGet ("https://api.telegram.org/file/bot" ++ w.bai.botConfigs.APIKey ++
                "/" ++ FilePath)] }, some (some err))) := by
  obtain ⟨pre, last, h1, h2, h3, h4⟩ := splitChars_last '/' FilePath.data
  have hlen : 1 ≤ (Split FilePath '/').length := by
    simp only [Split, List.length_map]
    rcases h4 with ⟨-, hl⟩ | ⟨-, hl⟩ <;> omega
  have hlast : (Split FilePath '/').getLast? = some (String.mk last) := by
    simp only [Split, List.getLast?_map, h1, Option.map_some']
  have hidx : index (Split FilePath '/') (((Split FilePath '/').length : Int) - 1) =
      some (String.mk last) := by
    unfold index
    have h0 : (0 : Int) ≤ ((Split FilePath '/').length : Int) - 1 := by omega
    rw [if_pos h0, List.get?_eq_getElem?, ← hlast, List.getLast?_eq_getElem?]
    congr 1
    omega
  have hopen : ∀ w1 : World, openTarget { FilePath := FilePath } none env w1 =
      (w1.emit (Event.OpenFile (String.mk last)),
        some (match env.OpenFile with
          | Except.error er => Except.error er
          | Except.ok f => Except.ok f)) := by
    intro w1
    simp only [openTarget, hidx]
    cases env.OpenFile <;> rfl
  refine ⟨String.mk last, String.mk pre, by omega, by omega, hidx, hlast, ?_, h3, ?_, ?_, ?_, ?_,
    ?_, ?_, ?_⟩
  · show FilePath = String.mk (pre ++ last)
    rw [← h2]
  · rcases h4 with ⟨hp, -⟩ | ⟨hp, -⟩
    · left
      rw [hp]
    · right
      exact hp
  · rw [hopen]
    rfl
  · rw [hopen]
    exact Option.some_ne_none _
  · simp only [DownloadFile]
    cases env.Get with
    | error err => exact Option.some_ne_none _
    | ok StatusCode =>
      simp only [hopen]
      cases env.OpenFile with
      | error er => exact Option.some_ne_none _
      | ok f =>
        simp only
        split_ifs
        · cases env.Copy <;> exact Option.some_ne_none _
        · exact Option.some_ne_none _
  · intro status hget
    simp only [DownloadFile, hget, hopen]
    cases env.OpenFile with
    | error er => exact ⟨[], by simp [World.emit], by simp⟩
    | ok f =>
      simp only
      split_ifs
      · cases env.Copy with
        | some err2 => exact ⟨[Event.Copy f], by simp [World.emit], by simp⟩
        | none => exact ⟨[Event.Copy f, Event.Close f], by simp [World.emit], by simp⟩
      · exact ⟨[], by simp [World.emit], by simp⟩
  · intro status f hget hopenf hstatus hcopy
    simp [DownloadFile, hget, hopen, hopenf, hstatus, hcopy, World.emit]
  · intro err hget
    simp [DownloadFile, hget, World.emit]

/-- A download of `photos/file_7.jpg` with a `nil` file: the file is created
under the name `file_7.jpg`, written and closed. -/
theorem DownloadFile_name_is_last_segment_witness :
    (DownloadFile (some exampleFile) none downloadOkEnv exampleWorld).1.trace =
      [Event.httpGet "https://api.telegram.org/file/botkey/photos/file_7.jpg",
       Event.OpenFile "file_7.jpg", Event.Copy 9, Event.Close 9] := by
  obtain ⟨name, pre, -, -, hidx, -, -, -, -, -, -, -, -, hok, -⟩ :=
    DownloadFile_name_is_last_segment "photos/file_7.jpg" downloadOkEnv exampleWorld
  have hname : name = "file_7.jpg" := by
    have h : index (Split "photos/file_7.jpg" '/')
        (((Split "photos/file_7.jpg" '/').length : Int) - 1) = some "file_7.jpg" := by decide
    rw [h] at hidx
    exact (Option.some.inj hidx).symm
  have h := hok 200 9 rfl rfl (by decide) rfl
  rw [hname] at h
  exact congrArg (fun r => r.1.trace) h

/-! ## Pending requests -/

/-- C20. Registering a pending request whose (chat, request id) pair is already
pending returns `DuplicateRequest` and the registry as it was. So when a
request is registered and then a second one with the same pair, the second
call fails and the registry holds the first request and not the second. -/
theorem registerPending_duplicate (registry : List PendingRequest) (p q : PendingRequest) :
    ((p.chat, p.handler.requestId) ∈ pendingKeys registry →
      registerPending registry p = (registry, some Error.DuplicateRequest)) ∧
    ((p.chat, p.handler.requestId) ∉ pendingKeys registry →
      q.chat = p.chat → q.handler.requestId = p.handler.requestId →
      registerPending registry p = (registry ++ [p], none) ∧
      registerPending (registerPending registry p).1 q =
        (registry ++ [p], some Error.DuplicateRequest)) := by
  have hany : ∀ (reg : List PendingRequest) (r : PendingRequest),
      (reg.any (fun x => x.chat == r.chat && x.handler.requestId == r.handler.requestId) = true) ↔
        (r.chat, r.handler.requestId) ∈ pendingKeys reg := by
    intro reg r
    simp only [pendingKeys, List.any_eq_true, List.mem_map, Bool.and_eq_true, beq_iff_eq,
      Prod.mk.injEq]
  constructor
  · intro h
    simp only [registerPending, (hany registry p).mpr h, if_true]
  · intro h hchat hid
    have h1 : registerPending registry p = (registry ++ [p], none) := by
      have : ¬ (registry.any
          (fun x => x.chat == p.chat && x.handler.requestId == p.handler.requestId) = true) :=
        fun hc => h ((hany registry p).mp hc)
      simp only [registerPending, this, if_false]
      simp
    refine ⟨h1, ?_⟩
    rw [h1]
    have h2 : (q.chat, q.handler.requestId) ∈ pendingKeys (registry ++ [p]) := by
      simp [pendingKeys, hchat, hid]
    simp only [registerPending, (hany _ q).mpr h2, if_true]

/-- Two registrations for chat 5 with request id 1: the second fails and only
the first is pending. -/
theorem registerPending_duplicate_witness :
    registerPending [] pendingFirst = ([pendingFirst], none) ∧
    registerPending (registerPending [] pendingFirst).1 pendingSecond =
      ([pendingFirst], some Error.DuplicateRequest) ∧
    registerPending [pendingFirst] pendingSecond = ([pendingFirst], some Error.DuplicateRequest) :=
  ⟨((registerPending_duplicate [] pendingFirst pendingSecond).2 (by simp [pendingKeys]) rfl rfl).1,
   ((registerPending_duplicate [] pendingFirst pendingSecond).2 (by simp [pendingKeys]) rfl rfl).2,
   (registerPending_duplicate [pendingFirst] pendingSecond pendingSecond).1
     (by simp [pendingKeys, pendingFirst, pendingSecond])⟩

/-! ## Chat ids of the outbound methods -/

theorem isChatIdOk_iff (chatIdInt : Int) (chatIdString : String) :
    isChatIdOk chatIdInt chatIdString = true ↔ oneChatId chatIdInt chatIdString := by
  unfold isChatIdOk oneChatId
  by_cases h1 : chatIdInt = 0 <;> by_cases h2 : chatIdString = "" <;> simp [h1, h2]

theorem both_iff (chatIdInt : Int) (chatIdString : String) :
    (chatIdInt != 0 && chatIdString != "") = true ↔ bothChatIds chatIdInt chatIdString := by
  unfold bothChatIds
  simp

theorem chatId_cases (chatIdInt : Int) (chatIdString : String) :
    bothChatIds chatIdInt chatIdString ∨ oneChatId chatIdInt chatIdString ∨
      (chatIdInt = 0 ∧ chatIdString = "") := by
  unfold bothChatIds oneChatId
  by_cases h1 : chatIdInt = 0 <;> by_cases h2 : chatIdString = "" <;> simp [h1, h2]

theorem not_one_of_both (chatIdInt : Int) (chatIdString : String)
    (h : bothChatIds chatIdInt chatIdString) : ¬ oneChatId chatIdInt chatIdString := by
  unfold bothChatIds at h
  unfold oneChatId
  rintro (⟨-, h2⟩ | ⟨h1, -⟩)
  · exact h.2 h2
  · exact h.1 h1

theorem not_one_of_neither (chatIdInt : Int) (chatIdString : String)
    (h : chatIdInt = 0 ∧ chatIdString = "") : ¬ oneChatId chatIdInt chatIdString := by
  unfold oneChatId
  rintro (⟨h1, -⟩ | ⟨-, h2⟩)
  · exact h1 h.1
  · exact h2 h.2

/-- The errors a method can hand on from `SendCustom` and the decoding of the
result, when the transport returns errors of its own only. -/
theorem send_error {α : Type} (methodName : String) (args : MethodArguments)
    (files : List (Option Nat)) (res : Except Error (Response α)) (w : World)
    (hres : transportError res) (err : Error)
    (h : (unmarshalResult (SendCustom methodName args false files res w)).2 = Except.error err) :
    (∃ text, err = Error.Http text) ∨ (∃ text, err = Error.Unmarshal text) ∨
      ∃ fr, err = Error.MethodNotSentFailure methodName "server returned false ok filed" fr := by
  cases res with
  | error e =>
    obtain ⟨text, ht⟩ := hres e rfl
    simp only [SendCustom, unmarshalResult, Bool.false_eq_true, if_false] at h
    left
    exact ⟨text, by rw [← ht]; exact (Except.error.inj h).symm⟩
  | ok r =>
    simp only [SendCustom, Bool.false_eq_true, if_false, preParseResult] at h
    cases hok : r.Ok with
    | failed t =>
      rw [hok] at h
      simp only [unmarshalResult] at h
      right; left
      exact ⟨t, (Except.error.inj h).symm⟩
    | value ok =>
      rw [hok] at h
      cases ok with
      | false =>
        cases hf : r.Failure with
        | failed t =>
          rw [hf] at h
          simp only [unmarshalResult, Bool.not_false, if_true] at h
          right; left
          exact ⟨t, (Except.error.inj h).symm⟩
        | value fr =>
          rw [hf] at h
          simp only [unmarshalResult, Bool.not_false, if_true] at h
          right; right
          exact ⟨fr, (Except.error.inj h).symm⟩
      | true =>
        simp only [unmarshalResult, Bool.not_true, Bool.false_eq_true, if_false] at h
        cases hr : r.Result with
        | failed t =>
          rw [hr] at h
          right; left
          exact ⟨t, (Except.error.inj h).symm⟩
        | value a =>
          rw [hr] at h
          cases h

theorem send_sent_ne {α : Type} (methodName : String) (args : MethodArguments)
    (files : List (Option Nat)) (res : Except Error (Response α)) (w : World) :
    sent (unmarshalResult (SendCustom methodName args false files res w)).1.trace ≠
      sent w.trace := by
  rw [unmarshalResult_fst, SendCustom_sent]
  intro h
  have := congrArg List.length h
  simp at this

theorem SendMessage_both {α : Type} (chatIdInt : Int) (chatIdString text parseMode : String)
    (entities : List Nat)
    (disable_web_page_preview disable_notification allow_sending_without_reply ProtectContent : Bool)
    (reply_to_message_id messageThreadId : Int) (reply_markup : Nat)
    (res : Except Error (Response α)) (w : World) (h : bothChatIds chatIdInt chatIdString) :
    SendMessage chatIdInt chatIdString text parseMode entities disable_web_page_preview
        disable_notification allow_sending_without_reply ProtectContent reply_to_message_id
        messageThreadId reply_markup res w = (w, Except.error Error.ChatIdProblem) := by
  unfold SendMessage
  rw [if_pos ((both_iff _ _).mpr h)]

theorem SendMessage_neither {α : Type} (chatIdInt : Int) (chatIdString text parseMode : String)
    (entities : List Nat)
    (disable_web_page_preview disable_notification allow_sending_without_reply ProtectContent : Bool)
    (reply_to_message_id messageThreadId : Int) (reply_markup : Nat)
    (res : Except Error (Response α)) (w : World) (h : chatIdInt = 0 ∧ chatIdString = "") :
    SendMessage chatIdInt chatIdString text parseMode entities disable_web_page_preview
        disable_notification allow_sending_without_reply ProtectContent reply_to_message_id
        messageThreadId reply_markup res w =
      (w, Except.error (Error.RequiredArgumentError "chatIdInt or chatIdString" "sendMessage")) := by
  obtain ⟨h1, h2⟩ := h
  subst h1 h2
  simp [SendMessage, isChatIdOk]

theorem SendMessage_one {α : Type} (chatIdInt : Int) (chatIdString text parseMode : String)
    (entities : List Nat)
    (disable_web_page_preview disable_notification allow_sending_without_reply ProtectContent : Bool)
    (reply_to_message_id messageThreadId : Int) (reply_markup : Nat)
    (res : Except Error (Response α)) (w : World) (h : oneChatId chatIdInt chatIdString) :
    SendMessage chatIdInt chatIdString text parseMode entities disable_web_page_preview
        disable_notification allow_sending_without_reply ProtectContent reply_to_message_id
        messageThreadId reply_markup res w =
      unmarshalResult (SendCustom "sendMessage"
        (MethodArguments.SendMessageArgs
          { Text := text
            DisableWebPagePreview := disable_web_page_preview
            DefaultSendMethodsArguments :=
              { ChatId := fixChatId chatIdInt chatIdString
                DisableNotification := disable_notification
                AllowSendingWithoutReply := allow_sending_without_reply
                ProtectContent := ProtectContent
                ReplyToMessageId := reply_to_message_id
                ReplyMarkup := reply_markup
                MessageThreadId := messageThreadId }
            ParseMode := parseMode
            Entities := entities }) false [none] res w) := by
  have hnb : ¬ ((chatIdInt != 0 && chatIdString != "") = true) :=
    fun hb => not_one_of_both _ _ ((both_iff _ _).mp hb) h
  unfold SendMessage
  rw [if_neg hnb, if_pos ((isChatIdOk_iff _ _).mpr h)]
  rfl

/-- C23. The method `SendMessage`, the transport returning errors of its own
only. With exactly one chat id populated it makes one transport call,
`sendMessage` with the arguments given; otherwise it makes none and leaves
the world as it was. So there is a call exactly when exactly one id is
populated. It returns the `RequiredArgumentError` for "chatIdInt or
chatIdString" of "sendMessage" exactly when neither id is populated, and
`ChatIdProblem` exactly when both are. -/
theorem SendMessage_chat_id_cases {α : Type} (chatIdInt : Int)
    (chatIdString text parseMode : String) (entities : List Nat)
    (disable_web_page_preview disable_notification allow_sending_without_reply ProtectContent : Bool)
    (reply_to_message_id messageThreadId : Int) (reply_markup : Nat)
    (res : Except Error (Response α)) (w : World) (hres : transportError res) :
    (oneChatId chatIdInt chatIdString →
      sent (SendMessage chatIdInt chatIdString text parseMode entities disable_web_page_preview
        disable_notification allow_sending_without_reply ProtectContent reply_to_message_id
        messageThreadId reply_markup res w).1.trace =
        sent w.trace ++
          [("sendMessage", MethodArguments.SendMessageArgs
            { Text := text
              DisableWebPagePreview := disable_web_page_preview
              DefaultSendMethodsArguments :=
                { ChatId := fixChatId chatIdInt chatIdString
                  DisableNotification := disable_notification
                  AllowSendingWithoutReply := allow_sending_without_reply
                  ProtectContent := ProtectContent
                  ReplyToMessageId := reply_to_message_id
                  ReplyMarkup := reply_markup
                  MessageThreadId := messageThreadId }
              ParseMode := parseMode
              Entities := entities })]) ∧
    (¬ oneChatId chatIdInt chatIdString →
      (SendMessage chatIdInt chatIdString text parseMode entities disable_web_page_preview
        disable_notification allow_sending_without_reply ProtectContent reply_to_message_id
        messageThreadId reply_markup res w).1 = w) ∧
    (sent (SendMessage chatIdInt chatIdString text parseMode entities disable_web_page_preview
        disable_notification allow_sending_without_reply ProtectContent reply_to_message_id
        messageThreadId reply_markup res w).1.trace ≠ sent w.trace ↔
      oneChatId chatIdInt chatIdString) ∧
    ((SendMessage chatIdInt chatIdString text parseMode entities disable_web_page_preview
        disable_notification allow_sending_without_reply ProtectContent reply_to_message_id
        messageThreadId reply_markup res w).2 =
        Except.error (Error.RequiredArgumentError "chatIdInt or chatIdString" "sendMessage") ↔
      (chatIdInt = 0 ∧ chatIdString = "")) ∧
    ((SendMessage chatIdInt chatIdString text parseMode entities disable_web_page_preview
        disable_notification allow_sending_without_reply ProtectContent reply_to_message_id
        messageThreadId reply_markup res w).2 = Except.error Error.ChatIdProblem ↔
      bothChatIds chatIdInt chatIdString) := by
  rcases chatId_cases chatIdInt chatIdString with hb | ho | hn
  · have hno := not_one_of_both _ _ hb
    have hnn : ¬ (chatIdInt = 0 ∧ chatIdString = "") := fun h => hb.1 h.1
    rw [SendMessage_both _ _ _ _ _ _ _ _ _ _ _ _ _ _ hb]
    refine ⟨fun h => absurd h hno, fun _ => rfl, ?_, ?_, ?_⟩
    · exact ⟨fun h => absurd rfl h, fun h => absurd h hno⟩
    · constructor
      · intro h
        cases Except.error.inj h
      · exact fun h => absurd h hnn
    · exact ⟨fun _ => hb, fun _ => rfl⟩
  · have hnb : ¬ bothChatIds chatIdInt chatIdString := fun h => not_one_of_both _ _ h ho
    have hnn : ¬ (chatIdInt = 0 ∧ chatIdString = "") := fun h => not_one_of_neither _ _ h ho
    rw [SendMessage_one _ _ _ _ _ _ _ _ _ _ _ _ _ _ ho]
    refine ⟨fun _ => ?_, fun h => absurd ho h, ?_, ?_, ?_⟩
    · rw [unmarshalResult_fst, SendCustom_sent]
    · exact ⟨fun _ => ho, fun _ => send_sent_ne _ _ _ _ _⟩
    · constructor
      · intro h
        rcases send_error _ _ _ _ _ hres _ h with ⟨t, ht⟩ | ⟨t, ht⟩ | ⟨fr, ht⟩ <;> cases ht
      · exact fun h => absurd h hnn
    · constructor
      · intro h
        rcases send_error _ _ _ _ _ hres _ h with ⟨t, ht⟩ | ⟨t, ht⟩ | ⟨fr, ht⟩ <;> cases ht
      · exact fun h => absurd h hnb
  · have hno := not_one_of_neither _ _ hn
    have hnb : ¬ bothChatIds chatIdInt chatIdString := fun h => h.1 hn.1
    rw [SendMessage_neither _ _ _ _ _ _ _ _ _ _ _ _ _ _ hn]
    refine ⟨fun h => absurd h hno, fun _ => rfl, ?_, ?_, ?_⟩
    · exact ⟨fun h => absurd rfl h, fun h => absurd h hno⟩
    · exact ⟨fun _ => hn, fun _ => rfl⟩
    · constructor
      · intro h
        cases Except.error.inj h
      · exact fun h => absurd h hnb

theorem transportError_ok {α : Type} (r : Response α) : transportError (Except.ok r) := by
  intro err h
  cases h

/-- Exactly one id populated, no id populated, and both ids populated. -/
theorem SendMessage_chat_id_cases_witness :
    transportError (Except.ok (okResponse (0 : Nat))) ∧
    sent (SendMessage 5 "" "hi" "" [] false false false false 0 0 0
      (Except.ok (okResponse (0 : Nat))) exampleWorld).1.trace ≠ sent exampleWorld.trace ∧
    (SendMessage 0 "" "hi" "" [] false false false false 0 0 0
      (Except.ok (okResponse (0 : Nat))) exampleWorld).2 =
        Except.error (Error.RequiredArgumentError "chatIdInt or chatIdString" "sendMessage") ∧
    (SendMessage 5 "@channel" "hi" "" [] false false false false 0 0 0
      (Except.ok (okResponse (0 : Nat))) exampleWorld).2 = Except.error Error.ChatIdProblem :=
  ⟨transportError_ok _,
   (SendMessage_chat_id_cases 5 "" "hi" "" [] false false false false 0 0 0
      (Except.ok (okResponse (0 : Nat))) exampleWorld (transportError_ok _)).2.2.1.mpr
      (Or.inl ⟨(by decide), rfl⟩),
   (SendMessage_chat_id_cases 0 "" "hi" "" [] false false false false 0 0 0
      (Except.ok (okResponse (0 : Nat))) exampleWorld (transportError_ok _)).2.2.2.1.mpr
      ⟨rfl, rfl⟩,
   (SendMessage_chat_id_cases 5 "@channel" "hi" "" [] false false false false 0 0 0
      (Except.ok (okResponse (0 : Nat))) exampleWorld (transportError_ok _)).2.2.2.2.mpr
      ⟨(by decide), (by decide)⟩⟩

theorem pair_cases (a fa : Int) (s fs : String) :
    (bothChatIds a s ∧ bothChatIds fa fs) ∨ (oneChatId a s ∧ oneChatId fa fs) ∨
      (¬ (bothChatIds a s ∧ bothChatIds fa fs) ∧ ¬ (oneChatId a s ∧ oneChatId fa fs)) := by
  by_cases h1 : bothChatIds a s ∧ bothChatIds fa fs
  · exact Or.inl h1
  · by_cases h2 : oneChatId a s ∧ oneChatId fa fs
    · exact Or.inr (Or.inl h2)
    · exact Or.inr (Or.inr ⟨h1, h2⟩)

theorem pair_both_iff (a fa : Int) (s fs : String) :
    ((a != 0 && s != "") && (fa != 0 && fs != "")) = true ↔
      (bothChatIds a s ∧ bothChatIds fa fs) := by
  rw [Bool.and_eq_true, both_iff, both_iff]

theorem pair_one_iff (a fa : Int) (s fs : String) :
    (isChatIdOk a s && isChatIdOk fa fs) = true ↔ (oneChatId a s ∧ oneChatId fa fs) := by
  rw [Bool.and_eq_true, isChatIdOk_iff, isChatIdOk_iff]

theorem ForwardMessage_both {α : Type} (chatIdInt fromChatIdInt : Int)
    (chatIdString fromChatIdString : String) (disableNotif ProtectContent : Bool)
    (messageId messageThreadId : Int) (res : Except Error (Response α)) (w : World)
    (h : bothChatIds chatIdInt chatIdString ∧ bothChatIds fromChatIdInt fromChatIdString) :
    ForwardMessage chatIdInt fromChatIdInt chatIdString fromChatIdString disableNotif
      ProtectContent messageId messageThreadId res w = (w, Except.error Error.ChatIdProblem) := by
  unfold ForwardMessage
  rw [if_pos ((pair_both_iff _ _ _ _).mpr h)]

theorem ForwardMessage_valid {α : Type} (chatIdInt fromChatIdInt : Int)
    (chatIdString fromChatIdString : String) (disableNotif ProtectContent : Bool)
    (messageId messageThreadId : Int) (res : Except Error (Response α)) (w : World)
    (h : oneChatId chatIdInt chatIdString ∧ oneChatId fromChatIdInt fromChatIdString) :
    ForwardMessage chatIdInt fromChatIdInt chatIdString fromChatIdString disableNotif
      ProtectContent messageId messageThreadId res w =
      unmarshalResult (SendCustom "forwardMessage"
        (MethodArguments.ForwardMessageArgs
          { ChatId := some (fixChatId chatIdInt chatIdString)
            FromChatId := some (fixChatId fromChatIdInt fromChatIdString)
            DisableNotification := disableNotif
            MessageId := messageId
            ProtectContent := ProtectContent
            MessageThreadId := messageThreadId }) false [none, none] res w) := by
  have hnb : ¬ (((chatIdInt != 0 && chatIdString != "") &&
      (fromChatIdInt != 0 && fromChatIdString != "")) = true) :=
    fun hb => not_one_of_both _ _ ((pair_both_iff _ _ _ _).mp hb).1 h.1
  unfold ForwardMessage
  rw [if_neg hnb, if_pos ((pair_one_iff _ _ _ _).mpr h)]

theorem ForwardMessage_invalid {α : Type} (chatIdInt fromChatIdInt : Int)
    (chatIdString fromChatIdString : String) (disableNotif ProtectContent : Bool)
    (messageId messageThreadId : Int) (res : Except Error (Response α)) (w : World)
    (h1 : ¬ (bothChatIds chatIdInt chatIdString ∧ bothChatIds fromChatIdInt fromChatIdString))
    (h2 : ¬ (oneChatId chatIdInt chatIdString ∧ oneChatId fromChatIdInt fromChatIdString)) :
    ForwardMessage chatIdInt fromChatIdInt chatIdString fromChatIdString disableNotif
      ProtectContent messageId messageThreadId res w =
      (w, Except.error (Error.RequiredArgumentError
        "chatIdInt or chatIdString or fromChatIdInt or fromChatIdString" "forwardMessage")) := by
  unfold ForwardMessage
  rw [if_neg (fun hb => h1 ((pair_both_iff _ _ _ _).mp hb)),
    if_neg (fun ho => h2 ((pair_one_iff _ _ _ _).mp ho))]

theorem CopyMessage_both {α : Type} (chatIdInt fromChatIdInt : Int)
    (chatIdString fromChatIdString : String) (messageId : Int) (disableNotif : Bool)
    (caption parseMode : String) (replyTo : Int)
    (allowSendingWihtoutReply ProtectContent : Bool) (replyMarkUp : Nat)
    (captionEntities : List Nat) (res : Except Error (Response α)) (w : World)
    (h : bothChatIds chatIdInt chatIdString ∧ bothChatIds fromChatIdInt fromChatIdString) :
    CopyMessage chatIdInt fromChatIdInt chatIdString fromChatIdString messageId disableNotif
      caption parseMode replyTo allowSendingWihtoutReply ProtectContent replyMarkUp
      captionEntities res w = (w, Except.error Error.ChatIdProblem) := by
  unfold CopyMessage
  rw [if_pos ((pair_both_iff _ _ _ _).mpr h)]

theorem CopyMessage_valid {α : Type} (chatIdInt fromChatIdInt : Int)
    (chatIdString fromChatIdString : String) (messageId : Int) (disableNotif : Bool)
    (caption parseMode : String) (replyTo : Int)
    (allowSendingWihtoutReply ProtectContent : Bool) (replyMarkUp : Nat)
    (captionEntities : List Nat) (res : Except Error (Response α)) (w : World)
    (h : oneChatId chatIdInt chatIdString ∧ oneChatId fromChatIdInt fromChatIdString) :
    CopyMessage chatIdInt fromChatIdInt chatIdString fromChatIdString messageId disableNotif
      caption parseMode replyTo allowSendingWihtoutReply ProtectContent replyMarkUp
      captionEntities res w =
      unmarshalResult (SendCustom "copyMessage"
        (MethodArguments.CopyMessageArgs
          { ForwardMessageArgs :=
              { ChatId := some (fixChatId chatIdInt chatIdString)
                FromChatId := some (fixChatId fromChatIdInt fromChatIdString)
                DisableNotification := disableNotif
                MessageId := messageId
                ProtectContent := ProtectContent
                MessageThreadId := 0 }
            Caption := caption
            ParseMode := parseMode
            AllowSendingWithoutReply := allowSendingWihtoutReply
            ReplyMarkup := replyMarkUp
            CaptionEntities := captionEntities
            ReplyToMessageId := replyTo }) false [none, none] res w) := by
  have hnb : ¬ (((chatIdInt != 0 && chatIdString != "") &&
      (fromChatIdInt != 0 && fromChatIdString != "")) = true) :=
    fun hb => not_one_of_both _ _ ((pair_both_iff _ _ _ _).mp hb).1 h.1
  unfold CopyMessage
  rw [if_neg hnb, if_pos ((pair_one_iff _ _ _ _).mpr h)]
  by_cases hr : replyTo = 0
  · subst hr
    simp
  · simp [hr]

theorem CopyMessage_invalid {α : Type} (chatIdInt fromChatIdInt : Int)
    (chatIdString fromChatIdString : String) (messageId : Int) (disableNotif : Bool)
    (caption parseMode : String) (replyTo : Int)
    (allowSendingWihtoutReply ProtectContent : Bool) (replyMarkUp : Nat)
    (captionEntities : List Nat) (res : Except Error (Response α)) (w : World)
    (h1 : ¬ (bothChatIds chatIdInt chatIdString ∧ bothChatIds fromChatIdInt fromChatIdString))
    (h2 : ¬ (oneChatId chatIdInt chatIdString ∧ oneChatId fromChatIdInt fromChatIdString)) :
    CopyMessage chatIdInt fromChatIdInt chatIdString fromChatIdString messageId disableNotif
      caption parseMode replyTo allowSendingWihtoutReply ProtectContent replyMarkUp
      captionEntities res w =
      (w, Except.error (Error.RequiredArgumentError
        "chatIdInt or chatIdString or fromChatIdInt or fromChatIdString" "copyMessage")) := by
  unfold CopyMessage
  rw [if_neg (fun hb => h1 ((pair_both_iff _ _ _ _).mp hb)),
    if_neg (fun ho => h2 ((pair_one_iff _ _ _ _).mp ho))]

/-- The three outcomes shared by `ForwardMessage` and `CopyMessage`, for a
method that is `(w, ChatIdProblem)` when both pairs are fully populated, a
call through `SendCustom` when each pair has exactly one id, and
`(w, RequiredArgumentError)` otherwise. -/
theorem pair_outcomes {α : Type} (a fa : Int) (s fs : String) (methodName argName : String)
    (args : MethodArguments) (files : List (Option Nat)) (res : Except Error (Response α))
    (w : World) (r : World × Except Error α) (hres : transportError res)
    (hboth : bothChatIds a s ∧ bothChatIds fa fs → r = (w, Except.error Error.ChatIdProblem))
    (hvalid : oneChatId a s ∧ oneChatId fa fs →
      r = unmarshalResult (SendCustom methodName args false files res w))
    (hinvalid : ¬ (bothChatIds a s ∧ bothChatIds fa fs) → ¬ (oneChatId a s ∧ oneChatId fa fs) →
      r = (w, Except.error (Error.RequiredArgumentError argName methodName))) :
    (oneChatId a s ∧ oneChatId fa fs →
      sent r.1.trace = sent w.trace ++ [(methodName, args)]) ∧
    (sent r.1.trace ≠ sent w.trace ↔ (oneChatId a s ∧ oneChatId fa fs)) ∧
    (r.2 = Except.error Error.ChatIdProblem ↔ (bothChatIds a s ∧ bothChatIds fa fs)) ∧
    (¬ (bothChatIds a s ∧ bothChatIds fa fs) → ¬ (oneChatId a s ∧ oneChatId fa fs) →
      r = (w, Except.error (Error.RequiredArgumentError argName methodName))) ∧
    (bothChatIds a s → ¬ bothChatIds fa fs →
      r = (w, Except.error (Error.RequiredArgumentError argName methodName))) ∧
    (¬ bothChatIds a s → bothChatIds fa fs →
      r = (w, Except.error (Error.RequiredArgumentError argName methodName))) := by
  refine ⟨?_, ?_, ?_, hinvalid, ?_, ?_⟩
  · intro h
    rw [hvalid h, unmarshalResult_fst, SendCustom_sent]
  · constructor
    · intro h
      rcases pair_cases a fa s fs with hb | ho | ⟨h1, h2⟩
      · rw [hboth hb] at h
        exact absurd rfl h
      · exact ho
      · rw [hinvalid h1 h2] at h
        exact absurd rfl h
    · intro h
      rw [hvalid h]
      exact send_sent_ne _ _ _ _ _
  · constructor
    · intro h
      rcases pair_cases a fa s fs with hb | ho | ⟨h1, h2⟩
      · exact hb
      · rw [hvalid ho] at h
        rcases send_error _ _ _ _ _ hres _ h with ⟨t, ht⟩ | ⟨t, ht⟩ | ⟨fr, ht⟩ <;> cases ht
      · rw [hinvalid h1 h2] at h
        cases Except.error.inj h
    · intro h
      rw [hboth h]
  · intro hb hnf
    exact hinvalid (fun h => hnf h.2) (fun h => not_one_of_both _ _ hb h.1)
  · intro hnb hf
    exact hinvalid (fun h => hnb h.1) (fun h => not_one_of_both _ _ hf h.2)

/-- C24. The methods `ForwardMessage` and `CopyMessage`, the transport
returning errors of its own only. Each makes a transport call (exactly one,
`forwardMessage` or `copyMessage` with the arguments given) exactly when each
of the pairs (chatIdInt, chatIdString) and (fromChatIdInt, fromChatIdString)
has exactly one id populated. Each returns `ChatIdProblem` exactly when all
four ids are populated. In every other case each leaves the world as it was
and returns its `RequiredArgumentError`, also when one pair has both ids
populated and the other has not. -/
theorem ForwardMessage_CopyMessage_chat_id_cases {α : Type} (chatIdInt fromChatIdInt : Int)
    (chatIdString fromChatIdString : String) (disableNotif ProtectContent : Bool)
    (messageId messageThreadId : Int) (caption parseMode : String) (replyTo : Int)
    (allowSendingWihtoutReply : Bool) (replyMarkUp : Nat) (captionEntities : List Nat)
    (res : Except Error (Response α)) (w : World) (hres : transportError res) :
    ((oneChatId chatIdInt chatIdString ∧ oneChatId fromChatIdInt fromChatIdString →
      sent (ForwardMessage chatIdInt fromChatIdInt chatIdString fromChatIdString disableNotif
        ProtectContent messageId messageThreadId res w).1.trace =
        sent w.trace ++
          [("forwardMessage", MethodArguments.ForwardMessageArgs
            { ChatId := some (fixChatId chatIdInt chatIdString)
              FromChatId := some (fixChatId fromChatIdInt fromChatIdString)
              DisableNotification := disableNotif
              MessageId := messageId
              ProtectContent := ProtectContent
              MessageThreadId := messageThreadId })]) ∧
    (sent (ForwardMessage chatIdInt fromChatIdInt chatIdString fromChatIdString disableNotif
        ProtectContent messageId messageThreadId res w).1.trace ≠ sent w.trace ↔
      (oneChatId chatIdInt chatIdString ∧ oneChatId fromChatIdInt fromChatIdString)) ∧
    ((ForwardMessage chatIdInt fromChatIdInt chatIdString fromChatIdString disableNotif
        ProtectContent messageId messageThreadId res w).2 = Except.error Error.ChatIdProblem ↔
      (bothChatIds chatIdInt chatIdString ∧ bothChatIds fromChatIdInt fromChatIdString)) ∧
    (¬ (bothChatIds chatIdInt chatIdString ∧ bothChatIds fromChatIdInt fromChatIdString) →
      ¬ (oneChatId chatIdInt chatIdString ∧ oneChatId fromChatIdInt fromChatIdString) →
      ForwardMessage chatIdInt fromChatIdInt chatIdString fromChatIdString disableNotif
        ProtectContent messageId messageThreadId res w =
        (w, Except.error (Error.RequiredArgumentError
          "chatIdInt or chatIdString or fromChatIdInt or fromChatIdString" "forwardMessage"))) ∧
    (bothChatIds chatIdInt chatIdString → ¬ bothChatIds fromChatIdInt fromChatIdString →
      ForwardMessage chatIdInt fromChatIdInt chatIdString fromChatIdString disableNotif
        ProtectContent messageId messageThreadId res w =
        (w, Except.error (Error.RequiredArgumentError
          "chatIdInt or chatIdString or fromChatIdInt or fromChatIdString" "forwardMessage"))) ∧
    (¬ bothChatIds chatIdInt chatIdString → bothChatIds fromChatIdInt fromChatIdString →
      ForwardMessage chatIdInt fromChatIdInt chatIdString fromChatIdString disableNotif
        ProtectContent messageId messageThreadId res w =
        (w, Except.error (Error.RequiredArgumentError
          "chatIdInt or chatIdString or fromChatIdInt or fromChatIdString" "forwardMessage")))) ∧
    ((oneChatId chatIdInt chatIdString ∧ oneChatId fromChatIdInt fromChatIdString →
      sent (CopyMessage chatIdInt fromChatIdInt chatIdString fromChatIdString messageId
        disableNotif caption parseMode replyTo allowSendingWihtoutReply ProtectContent
        replyMarkUp captionEntities res w).1.trace =
        sent w.trace ++
          [("copyMessage", MethodArguments.CopyMessageArgs
            { ForwardMessageArgs :=
                { ChatId := some (fixChatId chatIdInt chatIdString)
                  FromChatId := some (fixChatId fromChatIdInt fromChatIdString)
                  DisableNotification := disableNotif
                  MessageId := messageId
                  ProtectContent := ProtectContent
                  MessageThreadId := 0 }
              Caption := caption
              ParseMode := parseMode
              AllowSendingWithoutReply := allowSendingWihtoutReply
              ReplyMarkup := replyMarkUp
              CaptionEntities := captionEntities
              ReplyToMessageId := replyTo })]) ∧
    (sent (CopyMessage chatIdInt fromChatIdInt chatIdString fromChatIdString messageId
        disableNotif caption parseMode replyTo allowSendingWihtoutReply ProtectContent
        replyMarkUp captionEntities res w).1.trace ≠ sent w.trace ↔
      (oneChatId chatIdInt chatIdString ∧ oneChatId fromChatIdInt fromChatIdString)) ∧
    ((CopyMessage chatIdInt fromChatIdInt chatIdString fromChatIdString messageId
        disableNotif caption parseMode replyTo allowSendingWihtoutReply ProtectContent
        replyMarkUp captionEntities res w).2 = Except.error Error.ChatIdProblem ↔
      (bothChatIds chatIdInt chatIdString ∧ bothChatIds fromChatIdInt fromChatIdString)) ∧
    (¬ (bothChatIds chatIdInt chatIdString ∧ bothChatIds fromChatIdInt fromChatIdString) →
      ¬ (oneChatId chatIdInt chatIdString ∧ oneChatId fromChatIdInt fromChatIdString) →
      CopyMessage chatIdInt fromChatIdInt chatIdString fromChatIdString messageId
        disableNotif caption parseMode replyTo allowSendingWihtoutReply ProtectContent
        replyMarkUp captionEntities res w =
        (w, Except.error (Error.RequiredArgumentError
          "chatIdInt or chatIdString or fromChatIdInt or fromChatIdString" "copyMessage"))) ∧
    (bothChatIds chatIdInt chatIdString → ¬ bothChatIds fromChatIdInt fromChatIdString →
      CopyMessage chatIdInt fromChatIdInt chatIdString fromChatIdString messageId
        disableNotif caption parseMode replyTo allowSendingWihtoutReply ProtectContent
        replyMarkUp captionEntities res w =
        (w, Except.error (Error.RequiredArgumentError
          "chatIdInt or chatIdString or fromChatIdInt or fromChatIdString" "copyMessage"))) ∧
    (¬ bothChatIds chatIdInt chatIdString → bothChatIds fromChatIdInt fromChatIdString →
      CopyMessage chatIdInt fromChatIdInt chatIdString fromChatIdString messageId
        disableNotif caption parseMode replyTo allowSendingWihtoutReply ProtectContent
        replyMarkUp captionEntities res w =
        (w, Except.error (Error.RequiredArgumentError
          "chatIdInt or chatIdString or fromChatIdInt or fromChatIdString" "copyMessage")))) := by
  constructor
  · exact pair_outcomes chatIdInt fromChatIdInt chatIdString fromChatIdString "forwardMessage"
      "chatIdInt or chatIdString or fromChatIdInt or fromChatIdString" _ [none, none] res w _ hres
      (ForwardMessage_both _ _ _ _ _ _ _ _ _ _)
      (ForwardMessage_valid _ _ _ _ _ _ _ _ _ _)
      (ForwardMessage_invalid _ _ _ _ _ _ _ _ _ _)
  · exact pair_outcomes chatIdInt fromChatIdInt chatIdString fromChatIdString "copyMessage"
      "chatIdInt or chatIdString or fromChatIdInt or fromChatIdString" _ [none, none] res w _ hres
      (CopyMessage_both _ _ _ _ _ _ _ _ _ _ _ _ _ _ _)
      (CopyMessage_valid _ _ _ _ _ _ _ _ _ _ _ _ _ _ _)
      (CopyMessage_invalid _ _ _ _ _ _ _ _ _ _ _ _ _ _ _)

/-- A forward from a channel to chat 5 is sent; with the destination given
both ways and the source one way both methods return their
`RequiredArgumentError`; with all four ids given they return
`ChatIdProblem`. -/
theorem ForwardMessage_CopyMessage_chat_id_cases_witness :
    transportError (Except.ok (okResponse (0 : Nat))) ∧
    sent (ForwardMessage 5 0 "" "channel" false false 3 0
      (Except.ok (okResponse (0 : Nat))) exampleWorld).1.trace ≠ sent exampleWorld.trace ∧
    ForwardMessage 5 0 "@a" "channel" false false 3 0
      (Except.ok (okResponse (0 : Nat))) exampleWorld =
      (exampleWorld, Except.error (Error.RequiredArgumentError
        "chatIdInt or chatIdString or fromChatIdInt or fromChatIdString" "forwardMessage")) ∧
    CopyMessage 5 0 "@a" "channel" 3 false "" "" 0 false false 0 []
      (Except.ok (okResponse (0 : Nat))) exampleWorld =
      (exampleWorld, Except.error (Error.RequiredArgumentError
        "chatIdInt or chatIdString or fromChatIdInt or fromChatIdString" "copyMessage")) ∧
    (CopyMessage 5 7 "@a" "@b" 3 false "" "" 0 false false 0 []
      (Except.ok (okResponse (0 : Nat))) exampleWorld).2 = Except.error Error.ChatIdProblem :=
  ⟨transportError_ok _,
   (ForwardMessage_CopyMessage_chat_id_cases 5 0 "" "channel" false false 3 0 "" "" 0 false 0 []
      (Except.ok (okResponse (0 : Nat))) exampleWorld (transportError_ok _)).1.2.1.mpr
      ⟨Or.inl ⟨(by decide), rfl⟩, Or.inr ⟨rfl, (by decide)⟩⟩,
   (ForwardMessage_CopyMessage_chat_id_cases 5 0 "@a" "channel" false false 3 0 "" "" 0 false 0 []
      (Except.ok (okResponse (0 : Nat))) exampleWorld (transportError_ok _)).1.2.2.2.2.1
      ⟨(by decide), (by decide)⟩ (fun h => h.1 rfl),
   (ForwardMessage_CopyMessage_chat_id_cases 5 0 "@a" "channel" false false 3 0 "" "" 0 false 0 []
      (Except.ok (okResponse (0 : Nat))) exampleWorld (transportError_ok _)).2.2.2.2.2.1
      ⟨(by decide), (by decide)⟩ (fun h => h.1 rfl),
   (ForwardMessage_CopyMessage_chat_id_cases 5 7 "@a" "@b" false false 3 0 "" "" 0 false 0 []
      (Except.ok (okResponse (0 : Nat))) exampleWorld (transportError_ok _)).2.2.2.1.mpr
      ⟨⟨(by decide), (by decide)⟩, ⟨(by decide), (by decide)⟩⟩⟩

/-! ## Routing an update -/

theorem invocations_append (chat requestId : Int) (xs ys : List Delivery) :
    invocations chat requestId (xs ++ ys) =
      invocations chat requestId xs ++ invocations chat requestId ys := by
  induction xs with
  | nil => rfl
  | cons d ds ih =>
    cases d with
    | fulfilled c r f u =>
      by_cases hk : c = chat ∧ r = requestId
      · simp [invocations, hk, ih]
      · simp [invocations, hk, ih]
    | globalQueue u => simpa [invocations] using ih
    | chatQueue c u => simpa [invocations] using ih
    | ran i u r => simpa [invocations] using ih

theorem invocations_ran (chat requestId : Int) (u : Update) (es : List HandlerChainEntry) :
    invocations chat requestId (es.map fun entry => Delivery.ran entry.id u (entry.action u)) =
      [] := by
  induction es with
  | nil => rfl
  | cons e es ih => simpa [invocations] using ih

/-- The invocations of a key among the handles of fulfilled requests none of
which has the key: none. -/
theorem invocations_absent (l : List PendingRequest) (u : Update) (chat requestId : Int)
    (h : (chat, requestId) ∉ pendingKeys l) :
    invocations chat requestId (l.map fun p =>
      Delivery.fulfilled p.chat p.handler.requestId p.handler.function u) = [] := by
  induction l with
  | nil => rfl
  | cons q l ih =>
    have hq : ¬ (q.chat = chat ∧ q.handler.requestId = requestId) := by
      intro hk
      apply h
      simp [pendingKeys, hk.1, hk.2]
    have hl : (chat, requestId) ∉ pendingKeys l := by
      intro hk
      apply h
      simp only [pendingKeys, List.map_cons, List.mem_cons]
      exact Or.inr hk
    simp only [List.map_cons, invocations, hq, if_false]
    exact ih hl

/-- The invocations of the key of a fulfilled request, the keys being pairwise
different: one, of its function. -/
theorem invocations_present (l : List PendingRequest) (u : Update) (p : PendingRequest)
    (hp : p ∈ l) (hnodup : (pendingKeys l).Nodup) :
    invocations p.chat p.handler.requestId (l.map fun q =>
      Delivery.fulfilled q.chat q.handler.requestId q.handler.function u) =
      [(p.handler.function, u)] := by
  induction l with
  | nil => cases hp
  | cons q l ih =>
    have hcons : (pendingKeys (q :: l)) = (q.chat, q.handler.requestId) :: pendingKeys l := rfl
    rw [hcons, List.nodup_cons] at hnodup
    rcases List.mem_cons.mp hp with hpq | hpl
    · subst hpq
      simp only [List.map_cons, invocations, and_self, if_true]
      rw [invocations_absent l u p.chat p.handler.requestId hnodup.1]
    · have hne : ¬ (q.chat = p.chat ∧ q.handler.requestId = p.handler.requestId) := by
        intro hk
        apply hnodup.1
        rw [hk.1, hk.2]
        exact List.mem_map.mpr ⟨p, hpl, rfl⟩
      simp only [List.map_cons, invocations, hne, if_false]
      exact ih hpl hnodup.2

theorem fulfilledBy_sublist (u : Update) (l : List PendingRequest) (used : List Nat) :
    (fulfilledBy u l used).Sublist l := by
  induction l generalizing used with
  | nil => exact List.Sublist.slnil
  | cons q l ih =>
    simp only [fulfilledBy]
    split_ifs
    · exact List.Sublist.cons₂ _ (ih _)
    · exact List.Sublist.cons _ (ih _)

theorem leftBy_sublist (u : Update) (l : List PendingRequest) (used : List Nat) :
    (leftBy u l used).Sublist l := by
  induction l generalizing used with
  | nil => exact List.Sublist.slnil
  | cons q l ih =>
    simp only [leftBy]
    split_ifs
    · exact List.Sublist.cons _ (ih _)
    · exact List.Sublist.cons₂ _ (ih _)

theorem pendingKeys_sublist (l1 l2 : List PendingRequest) (h : l1.Sublist l2) :
    (pendingKeys l1).Sublist (pendingKeys l2) :=
  List.Sublist.map _ h

/-- A request the scan fulfils is of the chat of the update, which satisfies
its predicate. -/
theorem fulfilledBy_accepts (u : Update) (l : List PendingRequest) (used : List Nat) :
    ∀ q ∈ fulfilledBy u l used, (q.chat == u.chat && q.accept u) = true := by
  induction l generalizing used with
  | nil => intro q hq; cases hq
  | cons x l ih =>
    intro q hq
    simp only [fulfilledBy] at hq
    split_ifs at hq with hx
    · rcases List.mem_cons.mp hq with h | h
      · rw [h]
        simp only [fulfils, Bool.and_eq_true] at hx
        simp only [Bool.and_eq_true]
        exact hx.1
      · exact ih _ q h
    · exact ih _ q hq

/-- The scan leaves every request it does not fulfil. -/
theorem mem_fulfilledBy_or_leftBy (u : Update) (l : List PendingRequest) (used : List Nat) :
    ∀ q ∈ l, q ∈ fulfilledBy u l used ∨ q ∈ leftBy u l used := by
  induction l generalizing used with
  | nil => intro q hq; cases hq
  | cons x l ih =>
    intro q hq
    simp only [fulfilledBy, leftBy]
    split_ifs with hx
    · rcases List.mem_cons.mp hq with h | h
      · exact Or.inl (by rw [h]; exact List.mem_cons_self _ _)
      · rcases ih _ q h with h1 | h1
        · exact Or.inl (List.mem_cons_of_mem _ h1)
        · exact Or.inr h1
    · rcases List.mem_cons.mp hq with h | h
      · exact Or.inr (by rw [h]; exact List.mem_cons_self _ _)
      · rcases ih _ q h with h1 | h1
        · exact Or.inl h1
        · exact Or.inr (List.mem_cons_of_mem _ h1)

/-- The key of a request the scan fulfils is no longer pending, the keys being
pairwise different. -/
theorem fulfilledBy_removed (u : Update) (l : List PendingRequest) (used : List Nat)
    (hnodup : (pendingKeys l).Nodup) :
    ∀ q ∈ fulfilledBy u l used, (q.chat, q.handler.requestId) ∉ pendingKeys (leftBy u l used) := by
  induction l generalizing used with
  | nil => intro q hq; cases hq
  | cons x l ih =>
    have hcons : (pendingKeys (x :: l)) = (x.chat, x.handler.requestId) :: pendingKeys l := rfl
    rw [hcons, List.nodup_cons] at hnodup
    intro q hq
    simp only [fulfilledBy] at hq
    simp only [leftBy]
    split_ifs at hq ⊢ with hx
    · rcases List.mem_cons.mp hq with h | h
      · rw [h]
        exact fun hk => hnodup.1 ((pendingKeys_sublist _ _ (leftBy_sublist u l _)).subset hk)
      · exact ih _ hnodup.2 q h
    · have hql : q ∈ l := (fulfilledBy_sublist u l used).subset hq
      intro hk
      have hk1 : (q.chat, q.handler.requestId) ∈
          (x.chat, x.handler.requestId) :: pendingKeys (leftBy u l used) := hk
      rcases List.mem_cons.mp hk1 with h | h
      · apply hnodup.1
        rw [← h]
        exact List.mem_map.mpr ⟨q, hql, rfl⟩
      · exact ih _ hnodup.2 q hq h

/-- The scan fulfils a request of the chat of the update whose predicate the
update satisfies, if it is the only pending request of its chat with its
predicate. -/
theorem fulfilledBy_unique (u : Update) (l : List PendingRequest) (used : List Nat)
    (p : PendingRequest) (hp : p ∈ l) (hnodup : (pendingKeys l).Nodup)
    (huniq : ∀ q ∈ l, q.chat = p.chat → q.predicate = p.predicate → q = p)
    (hused : p.predicate ∉ used) (hu : (p.chat == u.chat && p.accept u) = true) :
    p ∈ fulfilledBy u l used := by
  induction l generalizing used with
  | nil => cases hp
  | cons x l ih =>
    have hcons : (pendingKeys (x :: l)) = (x.chat, x.handler.requestId) :: pendingKeys l := rfl
    rw [hcons, List.nodup_cons] at hnodup
    rcases List.mem_cons.mp hp with hpx | hpl
    · subst hpx
      have hf : fulfils u used p = true := by
        simp only [fulfils, Bool.and_eq_true, Bool.not_eq_true', List.contains_eq_any_beq,
          List.any_eq_false, beq_iff_eq]
        simp only [Bool.and_eq_true, beq_iff_eq] at hu
        exact ⟨hu, fun y hy hyp => hused (by rw [← hyp] at hy; exact hy)⟩
      simp only [fulfilledBy, hf, if_true]
      exact List.mem_cons_self _ _
    · have huniq1 : ∀ q ∈ l, q.chat = p.chat → q.predicate = p.predicate → q = p :=
        fun q hq => huniq q (List.mem_cons_of_mem _ hq)
      simp only [fulfilledBy]
      split_ifs with hx
      · apply List.mem_cons_of_mem
        apply ih _ hpl hnodup.2 huniq1
        intro hmem
        rcases List.mem_cons.mp hmem with h | h
        · have hxc : x.chat = p.chat := by
            simp only [fulfils, Bool.and_eq_true, beq_iff_eq] at hx hu
            rw [hx.1.1, hu.1]
          have hxp : x = p := huniq x (List.mem_cons_self _ _) hxc h.symm
          apply hnodup.1
          rw [hxp]
          exact List.mem_map.mpr ⟨p, hpl, rfl⟩
        · exact hused h
      · exact ih _ hpl hnodup.2 huniq1 hused

/-- The invocations one routed update adds for a key. -/
theorem route_invocations (registry : Registry) (u : Update) (chat requestId : Int) :
    invocations chat requestId (route registry u).2 =
      invocations chat requestId
        ((fulfilledBy u registry.pending []).map fun p =>
          Delivery.fulfilled p.chat p.handler.requestId p.handler.function u) := by
  simp only [route, invocations_append, invocations_ran, List.append_nil]
  by_cases hs : u.chat ∈ registry.subscriptions
  · simp [hs, invocations]
  · simp [hs, invocations]

theorem route_pending (registry : Registry) (u : Update) :
    (route registry u).1.pending = leftBy u registry.pending [] := rfl

theorem routeAll_cons (registry : Registry) (u : Update) (us : List Update) :
    routeAll registry (u :: us) =
      ((routeAll (route registry u).1 us).1,
        (route registry u).2 ++ (routeAll (route registry u).1 us).2) := rfl

/-- Routing an update that is for the chat of a pending request and satisfies
its predicate, the request being the only one of its chat with its
predicate: its handle is invoked once and its key is no longer pending. -/
theorem route_match (registry : Registry) (p : PendingRequest) (u : Update)
    (hp : p ∈ registry.pending) (hnodup : (pendingKeys registry.pending).Nodup)
    (huniq : ∀ q ∈ registry.pending, q.chat = p.chat → q.predicate = p.predicate → q = p)
    (hu : (p.chat == u.chat && p.accept u) = true) :
    invocations p.chat p.handler.requestId (route registry u).2 = [(p.handler.function, u)] ∧
    (p.chat, p.handler.requestId) ∉ pendingKeys (route registry u).1.pending := by
  have hmem : p ∈ fulfilledBy u registry.pending [] :=
    fulfilledBy_unique u registry.pending [] p hp hnodup huniq (List.not_mem_nil _) hu
  refine ⟨?_, ?_⟩
  · rw [route_invocations]
    exact invocations_present _ u p hmem
      (hnodup.sublist (pendingKeys_sublist _ _ (fulfilledBy_sublist u _ _)))
  · rw [route_pending]
    exact fulfilledBy_removed u registry.pending [] hnodup p hmem

/-- Routing an update that is not for the chat of a pending request or does not
satisfy its predicate: its handle is not invoked and it stays pending. -/
theorem route_no_match (registry : Registry) (p : PendingRequest) (u : Update)
    (hp : p ∈ registry.pending) (hnodup : (pendingKeys registry.pending).Nodup)
    (hu : (p.chat == u.chat && p.accept u) = false) :
    invocations p.chat p.handler.requestId (route registry u).2 = [] ∧
    p ∈ (route registry u).1.pending := by
  have hnot : p ∉ fulfilledBy u registry.pending [] := by
    intro hmem
    rw [fulfilledBy_accepts u registry.pending [] p hmem] at hu
    cases hu
  refine ⟨?_, ?_⟩
  · rw [route_invocations]
    apply invocations_absent
    intro hk
    obtain ⟨q, hq, hkey⟩ := List.mem_map.mp hk
    have hql : q ∈ registry.pending := (fulfilledBy_sublist u _ _).subset hq
    have hqp : q = p := List.inj_on_of_nodup_map hnodup hql hp hkey
    exact hnot (hqp ▸ hq)
  · rw [route_pending]
    rcases mem_fulfilledBy_or_leftBy u registry.pending [] p hp with h | h
    · exact absurd h hnot
    · exact h

/-- A key that is not pending stays absent, its handle is never invoked and no
update is offered to it. -/
theorem routeAll_absent (registry : Registry) (us : List Update) (chat requestId : Int)
    (h : (chat, requestId) ∉ pendingKeys registry.pending) :
    invocations chat requestId (routeAll registry us).2 = [] ∧
    (chat, requestId) ∉ pendingKeys (routeAll registry us).1.pending ∧
    offered chat requestId registry us = [] := by
  induction us generalizing registry with
  | nil => exact ⟨rfl, h, rfl⟩
  | cons u us ih =>
    have h1 : (chat, requestId) ∉ pendingKeys (route registry u).1.pending := by
      rw [route_pending]
      exact fun hk => h ((pendingKeys_sublist _ _ (leftBy_sublist u _ _)).subset hk)
    obtain ⟨i1, i2, i3⟩ := ih (route registry u).1 h1
    rw [routeAll_cons]
    refine ⟨?_, i2, ?_⟩
    · simp only [invocations_append, i1, List.append_nil]
      rw [route_invocations]
      apply invocations_absent
      exact fun hk => h ((pendingKeys_sublist _ _ (fulfilledBy_sublist u _ _)).subset hk)
    · simp only [offered, h, and_false, if_false]
      exact i3

theorem registerPending_nodup (registry : List PendingRequest) (p : PendingRequest)
    (h : (pendingKeys registry).Nodup) : (pendingKeys (registerPending registry p).1).Nodup := by
  unfold registerPending
  split_ifs with hany
  · exact h
  · have hk : (p.chat, p.handler.requestId) ∉ pendingKeys registry := by
      intro hk
      apply hany
      obtain ⟨q, hq, hkey⟩ := List.mem_map.mp hk
      simp only [Prod.mk.injEq] at hkey
      simp only [List.any_eq_true, Bool.and_eq_true, beq_iff_eq]
      exact ⟨q, hq, hkey.1, hkey.2⟩
    simp only [pendingKeys, List.map_append, List.map_cons, List.map_nil]
    rw [List.nodup_append]
    refine ⟨h, List.nodup_singleton _, ?_⟩
    intro k hk1 hk2
    rw [List.mem_singleton.mp hk2] at hk1
    exact hk hk1

/-- A pending request that no routed update is for and satisfies stays pending,
its handle is not invoked, and the other requests stay as they are or go. -/
theorem routeAll_no_match (registry : Registry) (p : PendingRequest) (us : List Update)
    (hp : p ∈ registry.pending) (hnodup : (pendingKeys registry.pending).Nodup)
    (hus : ∀ v ∈ us, (p.chat == v.chat && p.accept v) = false) :
    invocations p.chat p.handler.requestId (routeAll registry us).2 = [] ∧
    p ∈ (routeAll registry us).1.pending ∧
    (routeAll registry us).1.pending.Sublist registry.pending ∧
    offered p.chat p.handler.requestId registry us =
      us.filter (fun v => decide (v.chat = p.chat)) := by
  induction us generalizing registry with
  | nil => exact ⟨rfl, hp, List.Sublist.refl _, rfl⟩
  | cons v us ih =>
    have hv : (p.chat == v.chat && p.accept v) = false := hus v (List.mem_cons_self _ _)
    obtain ⟨r1, r2⟩ := route_no_match registry p v hp hnodup hv
    have hsub : (route registry v).1.pending.Sublist registry.pending := by
      rw [route_pending]
      exact leftBy_sublist v _ _
    have hn1 : (pendingKeys (route registry v).1.pending).Nodup :=
      hnodup.sublist (pendingKeys_sublist _ _ hsub)
    obtain ⟨i1, i2, i3, i4⟩ := ih (route registry v).1 r2 hn1
      (fun x hx => hus x (List.mem_cons_of_mem _ hx))
    have hkey : (p.chat, p.handler.requestId) ∈ pendingKeys registry.pending :=
      List.mem_map.mpr ⟨p, hp, rfl⟩
    rw [routeAll_cons]
    refine ⟨?_, i2, i3.trans hsub, ?_⟩
    · simp only [invocations_append, i1, r1, List.append_nil]
    · simp only [offered, hkey, and_true, List.filter_cons, decide_eq_true_eq]
      split_ifs
      · rw [i4]
      · exact i4

/-- The first routed update that is for the chat of a pending request and
satisfies its predicate: the handle is invoked with it, once, and the key is
absent afterwards; the request was offered the updates of its chat up to that
one and none after it. -/
theorem routeAll_first_match (registry : Registry) (p : PendingRequest)
    (pre post : List Update) (u : Update) (hp : p ∈ registry.pending)
    (hnodup : (pendingKeys registry.pending).Nodup)
    (huniq : ∀ q ∈ registry.pending, q.chat = p.chat → q.predicate = p.predicate → q = p)
    (hpre : ∀ v ∈ pre, (p.chat == v.chat && p.accept v) = false)
    (hu : (p.chat == u.chat && p.accept u) = true) :
    invocations p.chat p.handler.requestId (routeAll registry (pre ++ u :: post)).2 =
      [(p.handler.function, u)] ∧
    (p.chat, p.handler.requestId) ∉
      pendingKeys (routeAll registry (pre ++ u :: post)).1.pending ∧
    offered p.chat p.handler.requestId registry (pre ++ u :: post) =
      pre.filter (fun v => decide (v.chat = p.chat)) ++ [u] := by
  induction pre generalizing registry with
  | nil =>
    obtain ⟨r1, r2⟩ := route_match registry p u hp hnodup huniq hu
    obtain ⟨i1, i2, i3⟩ := routeAll_absent (route registry u).1 post _ _ r2
    have hkey : (p.chat, p.handler.requestId) ∈ pendingKeys registry.pending :=
      List.mem_map.mpr ⟨p, hp, rfl⟩
    have hchat : u.chat = p.chat := by
      simp only [Bool.and_eq_true, beq_iff_eq] at hu
      exact hu.1.symm
    rw [List.nil_append, routeAll_cons]
    refine ⟨?_, i2, ?_⟩
    · simp only [invocations_append, i1, r1, List.append_nil]
    · simp only [offered, hkey, hchat, and_self, if_true, i3, List.filter_nil, List.nil_append]
  | cons v pre ih =>
    have hv : (p.chat == v.chat && p.accept v) = false := hpre v (List.mem_cons_self _ _)
    obtain ⟨r1, r2⟩ := route_no_match registry p v hp hnodup hv
    have hsub : (route registry v).1.pending.Sublist registry.pending := by
      rw [route_pending]
      exact leftBy_sublist v _ _
    have hn1 : (pendingKeys (route registry v).1.pending).Nodup :=
      hnodup.sublist (pendingKeys_sublist _ _ hsub)
    obtain ⟨i1, i2, i3⟩ := ih (route registry v).1 r2 hn1
      (fun q hq => huniq q (hsub.subset hq))
      (fun x hx => hpre x (List.mem_cons_of_mem _ hx))
    have hkey : (p.chat, p.handler.requestId) ∈ pendingKeys registry.pending :=
      List.mem_map.mpr ⟨p, hp, rfl⟩
    rw [List.cons_append, routeAll_cons]
    refine ⟨?_, i2, ?_⟩
    · simp only [invocations_append, i1, r1, List.nil_append]
    · simp only [offered, hkey, and_true, List.filter_cons, decide_eq_true_eq]
      split_ifs
      · rw [i3]
        rfl
      · exact i3

/-- Two ways in which a pending request is not fulfilled by the first update of
its chat that satisfies its predicate and sees later updates. The tasks
`ParseUpdate` starts for the batch with ids 10 and 11 may reach the registry
in the other order: update 11 is then offered to the pending request for
messages of chat 5, which is fulfilled with update 10 after it. And of two
pending requests of chat 5 with the same predicate only the first is
fulfilled by update 10, the first update of chat 5 that satisfies the
predicate: the second stays pending and is fulfilled by update 12. -/
theorem pending_request_passed_over :
    [update11, update10] =
      (routed (ParseUpdate (batchBody [update10, update11]) exampleWorld).1.trace).reverse ∧
    offered 5 1 exampleRegistry [update11, update10] = [update11, update10] ∧
    invocations 5 1 (routeAll exampleRegistry [update11, update10]).2 = [(100, update10)] ∧
    pendingTwin ∈ twinRegistry.pending ∧
    (pendingKeys twinRegistry.pending).Nodup ∧
    (pendingTwin.chat == update10.chat && pendingTwin.accept update10) = true ∧
    invocations 5 2 (routeAll twinRegistry [update10]).2 = [] ∧
    (5, 2) ∈ pendingKeys (routeAll twinRegistry [update10]).1.pending ∧
    invocations 5 2 (routeAll twinRegistry [update10, update12]).2 = [(300, update12)] := by
  refine ⟨by decide, by decide, by decide, ?_, by decide, by decide, by decide, by decide,
    by decide⟩
  simp [twinRegistry]

/-- C21, amended. A registry whose pending requests have pairwise different
keys, one of them `p`, the only pending request of its chat with its
predicate, and the routing tasks of updates carried out in any order: first
those of the updates `pre`, none of which is for the chat of `p` and satisfies
its predicate, then that of `u`, which is and does, then those of the updates
`post`, whatever they are. The handle of `p` is invoked exactly once, with
`u`; the key of `p` is absent from the registry once `u` has been routed,
before any update of `post` is, and after all of them. As long as no such
update is routed the request stays pending and its handle is not invoked. The
updates offered to the request are the updates of its chat among `pre`, then
`u`: no update routed after `u` is offered to it. -/
theorem pending_request_fulfilled_once (registry : Registry) (p : PendingRequest)
    (pre post : List Update) (u : Update) (hp : p ∈ registry.pending)
    (hnodup : (pendingKeys registry.pending).Nodup)
    (huniq : ∀ q ∈ registry.pending, q.chat = p.chat → q.predicate = p.predicate → q = p)
    (hpre : ∀ v ∈ pre, (p.chat == v.chat && p.accept v) = false)
    (hu : (p.chat == u.chat && p.accept u) = true) :
    invocations p.chat p.handler.requestId (routeAll registry (pre ++ u :: post)).2 =
      [(p.handler.function, u)] ∧
    (invocations p.chat p.handler.requestId (routeAll registry (pre ++ u :: post)).2).length = 1 ∧
    invocations p.chat p.handler.requestId (routeAll registry pre).2 = [] ∧
    p ∈ (routeAll registry pre).1.pending ∧
    (p.chat, p.handler.requestId) ∉ pendingKeys (routeAll registry (pre ++ [u])).1.pending ∧
    (p.chat, p.handler.requestId) ∉
      pendingKeys (routeAll registry (pre ++ u :: post)).1.pending ∧
    offered p.chat p.handler.requestId registry (pre ++ u :: post) =
      pre.filter (fun v => decide (v.chat = p.chat)) ++ [u] := by
  obtain ⟨h1, h2, h5⟩ := routeAll_first_match registry p pre post u hp hnodup huniq hpre hu
  obtain ⟨h3, h4, -, -⟩ := routeAll_no_match registry p pre hp hnodup hpre
  refine ⟨h1, by rw [h1]; rfl, h3, h4, ?_, h2, h5⟩
  exact (routeAll_first_match registry p pre [] u hp hnodup huniq hpre hu).2.1

/-- The scenario of the specification: the tasks `ParseUpdate` starts for the
batch with ids 10 and 11, with the request for messages of chat 5 pending.
Carried out in the order of the batch, the request is fulfilled with update
10 only, is no longer pending when update 11 is routed and is not offered
update 11. Carried out in the other order, it is offered update 11 first and
is fulfilled with update 10 only all the same. -/
theorem pending_request_fulfilled_once_witness :
    invocations 5 1
      (routeAll exampleRegistry
        (routed (ParseUpdate (batchBody [update10, update11]) exampleWorld).1.trace)).2 =
      [(100, update10)] ∧
    (5, 1) ∉ pendingKeys (routeAll exampleRegistry [update10]).1.pending ∧
    offered 5 1 exampleRegistry [update10, update11] = [update10] ∧
    invocations 5 1 (routeAll exampleRegistry [update11, update10]).2 = [(100, update10)] ∧
    offered 5 1 exampleRegistry [update11, update10] = [update11, update10] :=
  ⟨(pending_request_fulfilled_once exampleRegistry pendingFirst [] [update11] update10
      (List.mem_singleton.mpr rfl) (by decide)
      (fun q hq _ _ => List.mem_singleton.mp hq) (fun _ h => (by cases h)) rfl).1,
   (pending_request_fulfilled_once exampleRegistry pendingFirst [] [update11] update10
      (List.mem_singleton.mpr rfl) (by decide)
      (fun q hq _ _ => List.mem_singleton.mp hq) (fun _ h => (by cases h)) rfl).2.2.2.2.1,
   (pending_request_fulfilled_once exampleRegistry pendingFirst [] [update11] update10
      (List.mem_singleton.mpr rfl) (by decide)
      (fun q hq _ _ => List.mem_singleton.mp hq) (fun _ h => (by cases h)) rfl).2.2.2.2.2.2,
   (pending_request_fulfilled_once exampleRegistry pendingFirst [update11] [] update10
      (List.mem_singleton.mpr rfl) (by decide)
      (fun q hq _ _ => List.mem_singleton.mp hq)
      (fun v h => (by rw [List.mem_singleton.mp h]; rfl)) rfl).1,
   (pending_request_fulfilled_once exampleRegistry pendingFirst [update11] [] update10
      (List.mem_singleton.mpr rfl) (by decide)
      (fun q hq _ _ => List.mem_singleton.mp hq)
      (fun v h => (by rw [List.mem_singleton.mp h]; rfl)) rfl).2.2.2.2.2.2⟩

/-! ## The handler chain -/

theorem evalChain_sublist (chain : List HandlerChainEntry) (u : Update) :
    (evalChain chain u).Sublist chain := by
  induction chain with
  | nil => exact List.Sublist.slnil
  | cons e es ih =>
    simp only [evalChain]
    split_ifs with hp
    · cases e.action u with
      | Consumed => exact List.Sublist.cons₂ _ (List.nil_sublist _)
      | Continue => exact List.Sublist.cons₂ _ ih
      | Failed => exact List.Sublist.cons₂ _ ih
    · exact List.Sublist.cons _ ih

theorem evalChain_predicate (chain : List HandlerChainEntry) (u : Update) :
    ∀ e ∈ evalChain chain u, e.predicate u = true := by
  induction chain with
  | nil => intro e he; cases he
  | cons x xs ih =>
    intro e he
    simp only [evalChain] at he
    split_ifs at he with hp
    · cases ha : x.action u with
      | Consumed =>
        rw [ha] at he
        rw [List.mem_singleton.mp he]
        exact hp
      | Continue =>
        rw [ha] at he
        rcases List.mem_cons.mp he with h | h
        · rw [h]; exact hp
        · exact ih e h
      | Failed =>
        rw [ha] at he
        rcases List.mem_cons.mp he with h | h
        · rw [h]; exact hp
        · exact ih e h
    · exact ih e he

theorem evalChain_consumed (pre post : List HandlerChainEntry) (e : HandlerChainEntry)
    (u : Update) (hp : e.predicate u = true) (ha : e.action u = ActionResult.Consumed) :
    evalChain (pre ++ e :: post) u = evalChain (pre ++ [e]) u := by
  induction pre with
  | nil => simp [evalChain, hp, ha]
  | cons x xs ih =>
    simp only [List.cons_append, evalChain]
    split_ifs with hx
    · cases x.action u with
      | Consumed => rfl
      | Continue => exact congrArg (fun l => x :: l) ih
      | Failed => exact congrArg (fun l => x :: l) ih
    · exact ih

theorem evalChain_reached (pre post : List HandlerChainEntry) (e : HandlerChainEntry)
    (u : Update)
    (hpre : ∀ x ∈ pre, x.predicate u = true → x.action u ≠ ActionResult.Consumed) :
    evalChain (pre ++ e :: post) u =
      pre.filter (fun x => x.predicate u) ++ evalChain (e :: post) u := by
  induction pre with
  | nil => rfl
  | cons x xs ih =>
    have ih1 := ih (fun y hy => hpre y (List.mem_cons_of_mem _ hy))
    simp only [List.cons_append, evalChain, List.filter_cons]
    by_cases hx : x.predicate u = true
    · have hne := hpre x (List.mem_cons_self _ _) hx
      simp only [hx, if_true]
      cases hact : x.action u with
      | Consumed => exact absurd hact hne
      | Continue =>
        simp only [List.cons_append]
        simp only [evalChain] at ih1
        exact congrArg (fun l => x :: l) ih1
      | Failed =>
        simp only [List.cons_append]
        simp only [evalChain] at ih1
        exact congrArg (fun l => x :: l) ih1
    · simp only [hx, if_false, Bool.false_eq_true]
      simp only [evalChain] at ih1
      exact ih1

theorem ranIds_append (xs ys : List Delivery) : ranIds (xs ++ ys) = ranIds xs ++ ranIds ys := by
  induction xs with
  | nil => rfl
  | cons d ds ih => cases d <;> simp [ranIds, ih]

theorem ranIds_fulfilled (l : List PendingRequest) (u : Update) :
    ranIds (l.map fun p => Delivery.fulfilled p.chat p.handler.requestId p.handler.function u) =
      [] := by
  induction l with
  | nil => rfl
  | cons p l ih => simpa [ranIds] using ih

theorem ranIds_ran (es : List HandlerChainEntry) (u : Update) :
    ranIds (es.map fun entry => Delivery.ran entry.id u (entry.action u)) =
      es.map fun entry => entry.id := by
  induction es with
  | nil => rfl
  | cons e es ih => simp [ranIds, ih]

/-- C22. The entries whose action runs for an update are entries of the chain,
in the order of the chain (registration appends to the chain), and the
predicate of each of them matches the update. An entry whose predicate
matches and before which no matching entry reports "consumed" runs, after
the matching entries before it. Once a matching entry reports "consumed" the
entries after it play no part: the entries that run are those that run for
the chain cut after that entry, none of them a later one. Routing an update
runs the actions of exactly these entries. -/
theorem chain_evaluation (registry : Registry) (u : Update) :
    (evalChain registry.chain u).Sublist registry.chain ∧
    (∀ e ∈ evalChain registry.chain u, e.predicate u = true) ∧
    (∀ e ∈ registry.chain, e.predicate u = false → e ∉ evalChain registry.chain u) ∧
    (∀ (pre post : List HandlerChainEntry) (e : HandlerChainEntry),
      registry.chain = pre ++ e :: post → e.predicate u = true →
      (∀ x ∈ pre, x.predicate u = true → x.action u ≠ ActionResult.Consumed) →
      evalChain registry.chain u =
        pre.filter (fun x => x.predicate u) ++ evalChain (e :: post) u ∧
      e ∈ evalChain registry.chain u) ∧
    (∀ (pre post : List HandlerChainEntry) (e : HandlerChainEntry),
      registry.chain = pre ++ e :: post → e.predicate u = true →
      e.action u = ActionResult.Consumed →
      evalChain registry.chain u = evalChain (pre ++ [e]) u ∧
      (evalChain registry.chain u).Sublist (pre ++ [e])) ∧
    ranIds (route registry u).2 = (evalChain registry.chain u).map (fun entry => entry.id) ∧
    (∀ entry : HandlerChainEntry,
      (registerHandler registry entry).chain = registry.chain ++ [entry]) := by
  refine ⟨evalChain_sublist _ _, evalChain_predicate _ _, ?_, ?_, ?_, ?_, fun _ => rfl⟩
  · intro e _ hf hmem
    rw [evalChain_predicate _ _ e hmem] at hf
    cases hf
  · intro pre post e hchain hp hpre
    rw [hchain]
    have h := evalChain_reached pre post e u hpre
    refine ⟨h, ?_⟩
    rw [h]
    apply List.mem_append_right
    simp only [evalChain, hp, if_true]
    cases e.action u <;> simp
  · intro pre post e hchain hp ha
    rw [hchain, evalChain_consumed pre post e u hp ha]
    exact ⟨rfl, evalChain_sublist _ _⟩
  · simp only [route, ranIds_append, ranIds_fulfilled, ranIds_ran]
    by_cases hs : u.chat ∈ registry.subscriptions
    · simp [hs, ranIds]
    · simp [hs, ranIds]

/-- A chain of four entries and the message with id 10: the entry for messages
runs and reports "continue", the entry for callback queries does not run, the
third entry runs and reports "consumed", the entry registered last does not
run. -/
theorem chain_evaluation_witness :
    (evalChain [entryContinue, entryCallback, entryConsume, entryLast] update10).map
      (fun entry => entry.id) = [1, 3] ∧
    evalChain [entryContinue, entryCallback, entryConsume, entryLast] update10 =
      evalChain [entryContinue, entryCallback, entryConsume] update10 :=
  ⟨by
    rw [((chain_evaluation
      { chain := [entryContinue, entryCallback, entryConsume, entryLast], subscriptions := [],
        pending := [] } update10).2.2.2.2.1 [entryContinue, entryCallback] [entryLast]
        entryConsume rfl rfl rfl).1]
    rfl,
   ((chain_evaluation
      { chain := [entryContinue, entryCallback, entryConsume, entryLast], subscriptions := [],
        pending := [] } update10).2.2.2.2.1 [entryContinue, entryCallback] [entryLast]
        entryConsume rfl rfl rfl).1⟩

end Telego
